import Mathlib

/-!
# dockyardtest: the remote verification harness of `cmd/dockyardtest/main.go`

A shallow embedding of the harness.  Remote commands, the clock, local files and the
goroutine scheduler are collected in an environment `Env`; every function of the program
is a total Lean function of that environment and of an explicit state.

* strings are Lean strings, Go's `fmt.Sprintf("%s")` is concatenation;
* `time.Duration` is a natural number of nanoseconds;
* goroutine bodies are command trees (`Prog`), interleaved by a schedule taken from `Env`.
-/

namespace Dockyard

/-! ## Strings (Go's `strings` and `path/filepath`, Unix flavour) -/

/-- Go `strings.HasPrefix` on character lists. -/
def hasPrefixChars : List Char → List Char → Bool
  | _, [] => true
  | [], _ :: _ => false
  | c :: cs, p :: ps => c == p && hasPrefixChars cs ps

/-- Go `strings.Contains` on character lists: `sub` occurs in `s` as a contiguous run. -/
def containsChars : List Char → List Char → Bool
  | [], sub => sub.isEmpty
  | c :: cs, sub => hasPrefixChars (c :: cs) sub || containsChars cs sub

/-- Go `strings.Contains`. -/
def contains (s sub : String) : Bool := containsChars s.data sub.data

/-- Go `strings.TrimPrefix`. -/
def trimPrefix (s pre : String) : String :=
  if hasPrefixChars s.data pre.data then ⟨s.data.drop pre.data.length⟩ else s

/-- Go `strings.ToLower`, on the ASCII range (the instance labels are ASCII letters). -/
def toLower (s : String) : String := ⟨s.data.map Char.toLower⟩

/-- Go `strings.Join`. -/
def join : List String → String → String
  | [], _ => ""
  | [a], _ => a
  | a :: b :: rest, sep => a ++ sep ++ join (b :: rest) sep

/-- The characters of `cs` with the trailing `/` characters removed
(the first loop of `filepath.Base`). -/
def stripTrailingSlashes (cs : List Char) : List Char :=
  (cs.reverse.dropWhile (fun c => c == '/')).reverse

/-- The part of `cs` after its last `/` (the whole of `cs` when it has none):
the second loop of `filepath.Base`. -/
def lastElement (cs : List Char) : List Char :=
  (cs.reverse.takeWhile (fun c => c != '/')).reverse

/-- Go `filepath.Base` with `/` as the separator and no volume names. -/
def base (path : String) : String :=
  if path.data = [] then "."
  else
    let p := lastElement (stripTrailingSlashes path.data)
    if p = [] then "/" else ⟨p⟩

/-- Go `<` on strings: lexicographic order of the characters. -/
def strLess (a b : String) : Bool := decide (a.data < b.data)

/-- Go `unicode.IsSpace`. -/
def isSpace (c : Char) : Bool :=
  c == '\t' || c == '\n' || c.val == 0x0B || c.val == 0x0C || c == '\r' || c == ' '
    || c.val == 0x85 || c.val == 0xA0 || c.val == 0x1680 || (0x2000 ≤ c.val && c.val ≤ 0x200A)
    || c.val == 0x2028 || c.val == 0x2029 || c.val == 0x202F || c.val == 0x205F || c.val == 0x3000

/-- Go `strings.TrimSpace`. -/
def trimSpace (s : String) : String :=
  ⟨((s.data.dropWhile isSpace).reverse.dropWhile isSpace).reverse⟩

/-- The loop of Go `strings.Fields`; `cur` is the field being read, reversed. -/
def fieldsAux : List Char → List Char → List String
  | [], cur => if cur = [] then [] else [⟨cur.reverse⟩]
  | c :: cs, cur =>
    if isSpace c then (if cur = [] then fieldsAux cs [] else ⟨cur.reverse⟩ :: fieldsAux cs [])
    else fieldsAux cs (c :: cur)

/-- Go `strings.Fields`: the maximal runs of non-space characters. -/
def fields (s : String) : List String := fieldsAux s.data []

/-- Go `%02d` for a non-negative number. -/
def pad2 (n : Nat) : String :=
  if n < 10 then "0" ++ toString n else toString n

/-! ## Instances -/

/-- Instance descriptor. -/
structure Instance where
  Label : String
  Prefix : String
  Root : String
  EnvFile : String
  Socket : String
deriving DecidableEq, Repr

/-- The fixed instance set. -/
def allInstances : List Instance :=
  [ ⟨"A", "dy1_", "/dy1", "~/dy1.env", "/dy1/run/docker.sock"⟩,
    ⟨"B", "dy2_", "/dy2", "~/dy2.env", "/dy2/run/docker.sock"⟩,
    ⟨"C", "dy3_", "/dy3", "~/dy3.env", "/dy3/run/docker.sock"⟩ ]

/-! ## The environment -/

/-- What `run` returns: captured stdout, captured stderr, exit code. -/
structure RunOut where
  stdout : String
  stderr : String
  exitCode : Int
deriving DecidableEq, Repr

/-- The error value of `session.Run`. -/
inductive RunErr where
  /-- `err == nil` -/
  | none
  /-- `*ssh.ExitError` with its `ExitStatus()` -/
  | exitError (status : Int)
  /-- any error that is not an `*ssh.ExitError` -/
  | other (text : String)
deriving DecidableEq, Repr

/-- What the SSH client does for one `run` call. -/
inductive Session where
  /-- `client.NewSession()` returned the error `err` -/
  | refused (err : String)
  /-- the session was opened and `session.Run` returned `res`, with the two buffers filled -/
  | ran (out err : String) (res : RunErr)
deriving DecidableEq, Repr

/-- What the SSH client does for the session of `upload`. -/
inductive UploadSession where
  /-- `client.NewSession()` returned the error `err` -/
  | refused (err : String)
  /-- the session was opened and `session.Run` returned `res` (`none` is `nil`) -/
  | ran (res : Option String)
deriving DecidableEq, Repr

/-- An SSH authentication method, as `dialSSH` collects them. -/
inductive AuthMethod where
  /-- `ssh.PublicKeysCallback` of the agent connected at `sock` -/
  | agent (sock : String)
  /-- `ssh.PublicKeys` of the signer parsed from a key file -/
  | key (signer : String)
deriving DecidableEq, Repr

/-- The observable actions of the harness, in the order they are performed. -/
inductive Event where
  /-- a call of `run` (one per call, also when the session cannot be opened) -/
  | run (cmd : String)
  | sleep (d : Nat)
  | upload (cmd : String) (data : String)
  | closeClient
  | tcpDial (addr : String)
  | sshDial (addr : String) (user : String) (auth : List AuthMethod)
deriving DecidableEq, Repr

/-- Everything outside the program.  Each oracle sees the history of actions so far. -/
structure Env where
  /-- the SSH client's answer to `run(cmd)` -/
  session : List Event → String → Session
  /-- the SSH client's answer to the session of `upload` (command, stdin data) -/
  uploadSession : List Event → String → String → UploadSession
  /-- nanoseconds the next action takes -/
  latency : List Event → Nat
  /-- the order in which the goroutines of a fan-out started at this history take steps -/
  sched : List Event → List Nat
  /-- `os.ReadFile`: the content or the error text -/
  readFile : List Event → String → Except String String
  /-- `os.Getenv("SSH_AUTH_SOCK")` -/
  authSock : List Event → String
  /-- does `net.Dial("unix", sock)` succeed -/
  agentDial : List Event → String → Bool
  /-- `os.UserHomeDir()` -/
  homeDir : String
  /-- `filepath.Join` -/
  pathJoin : List String → String
  /-- `ssh.ParsePrivateKey`: the signer, or nothing on a parse error -/
  parseKey : String → Option String
  /-- `ssh.Dial("tcp", addr, cfg)`: the error text, or nothing on success -/
  sshDial : List Event → String → String → List AuthMethod → Option String
  /-- does `net.DialTimeout("tcp", addr, 5s)` succeed -/
  tcpDial : List Event → String → Bool
  /-- Go `%.1f` of `d.Seconds()`, for a duration in nanoseconds -/
  fmtSeconds : Nat → String
  /-- Go `%q` -/
  fmtQuote : String → String
  /-- Go `%v` of a `time.Duration` given in nanoseconds -/
  fmtDuration : Nat → String

/-- The world: the history of actions and a logical clock (nanoseconds). -/
structure World where
  log : List Event
  now : Nat
deriving DecidableEq, Repr

/-- Perform action `e`: it is appended to the history and the clock advances by its latency
plus `extra`. -/
def World.act (E : Env) (e : Event) (extra : Nat) (w : World) : World :=
  { log := w.log ++ [e], now := w.now + E.latency w.log + extra }

/-- `time.Second`, in nanoseconds. -/
def second : Nat := 1000000000

/-- Go `time.Sleep(d)`. -/
def sleep (E : Env) (d : Nat) (w : World) : World := w.act E (.sleep d) d

/-- The function `run`: executes `cmd` on the remote host; never errors on non-zero exit
codes. -/
def run (E : Env) (cmd : String) (w : World) : RunOut × World :=
  let w1 := w.act E (.run cmd) 0
  match E.session w.log cmd with
  | .refused err => (⟨"", err, 1⟩, w1)
  | .ran outStr errStr res =>
    match res with
    | .exitError status => (⟨outStr, errStr, status⟩, w1)
    | .other _ => (⟨outStr, errStr, 1⟩, w1)
    | .none => (⟨outStr, errStr, 0⟩, w1)

/-- The remote command `upload` builds for the remote name `remotePath`. -/
def uploadCmd (remotePath : String) : String :=
  let remotePath := trimPrefix remotePath "~/"
  let base := base remotePath
  "cat > ~/" ++ base ++ " && chmod +x ~/" ++ base

/-- The function `upload`: copies a local file to `~/basename` on the remote via SSH stdin.
Returns the error text, or `none` for `nil`. -/
def upload (E : Env) (localPath remotePath : String) (w : World) : Option String × World :=
  match E.readFile w.log localPath with
  | .error err => (some ("read " ++ localPath ++ ": " ++ err), w)
  | .ok data =>
    match E.uploadSession w.log (uploadCmd remotePath) data with
    | .refused err => (some err, w)
    | .ran res => (res, w.act E (.upload (uploadCmd remotePath) data) 0)

/-! ## Goroutine bodies -/

/-- The body of a goroutine: a tree of remote commands and sleeps that ends in a value. -/
inductive Prog (α : Type) where
  /-- return `a` -/
  | ret (a : α)
  /-- `run(c, cmd)`, then continue with what it returned -/
  | run (cmd : String) (k : RunOut → Prog α)
  /-- `time.Sleep(d)`, then continue -/
  | sleep (d : Nat) (k : Prog α)

/-- Sequencing of goroutine code. -/
def Prog.bind {α β : Type} : Prog α → (α → Prog β) → Prog β
  | .ret a, f => f a
  | .run cmd k, f => .run cmd (fun r => (k r).bind f)
  | .sleep d k, f => .sleep d (k.bind f)

/-- Run a goroutine body alone, from start to end. -/
def Prog.exec {α : Type} (E : Env) : Prog α → World → α × World
  | .ret a, w => (a, w)
  | .run cmd k, w => (k (Dockyard.run E cmd w).1).exec E (Dockyard.run E cmd w).2
  | .sleep d k, w => k.exec E (Dockyard.sleep E d w)

/-- The goroutine at position `i` of the pool takes one step.  A goroutine whose body is
finished sends its value (the middle component) and leaves the pool. -/
def stepAt {β : Type} (E : Env) : List (Prog β) → Nat → World → List (Prog β) × Option β × World
  | [], _, w => ([], none, w)
  | p :: ps, 0, w =>
    match p with
    | .ret b => (ps, some b, w)
    | .run cmd k => (k (run E cmd w).1 :: ps, none, (run E cmd w).2)
    | .sleep d k => (k :: ps, none, sleep E d w)
  | p :: ps, i + 1, w =>
    ((p :: (stepAt E ps i w).1), (stepAt E ps i w).2.1, (stepAt E ps i w).2.2)

/-- The goroutines left in the pool run to their end one after the other; `ch` is the
channel content. -/
def drain {β : Type} (E : Env) : List (Prog β) → World → List β → List β × World
  | [], w, ch => (ch, w)
  | p :: ps, w, ch => drain E ps (p.exec E w).2 (ch ++ [(p.exec E w).1])

/-- The goroutines of the pool run concurrently: each entry of the schedule picks the
goroutine that takes the next step; when the schedule is used up the rest is drained.
Returns the values in the order they were sent on the channel. -/
def interleave {β : Type} (E : Env) : List Nat → List (Prog β) → World → List β → List β × World
  | [], pool, w, ch => drain E pool w ch
  | c :: cs, pool, w, ch =>
    interleave E cs (stepAt E pool (c % pool.length) w).1 (stepAt E pool (c % pool.length) w).2.2
      (ch ++ (stepAt E pool (c % pool.length) w).2.1.toList)

/-! ## Concurrent helper -/

/-- The result of one probe. -/
structure instResult where
  label : String
  ok : Bool
  msg : String
deriving DecidableEq, Repr

/-- One pass of the insertion loop of Go's `sort.Slice`: `x`, placed after `pre`, moves left
while it is less than its left neighbour. -/
def insertFromRight {α : Type} (less : α → α → Bool) : List α → α → List α
  | [], x => [x]
  | y :: ys, x => if (y :: ys).all (fun z => less x z) then x :: y :: ys
                  else y :: insertFromRight less ys x

/-- Go `sort.Slice` (the insertion sort it runs on short slices). -/
def sortSlice {α : Type} (less : α → α → Bool) (data : List α) : List α :=
  data.foldl (insertFromRight less) []

/-- The goroutine `forAll` starts for `inst`: call `fn`, send the labelled result. -/
def probeTask (fn : Instance → Prog (Bool × String)) (inst : Instance) : Prog instResult :=
  (fn inst).bind (fun r => .ret ⟨inst.Label, r.1, r.2⟩)

/-- The function `forAll`: runs `fn` concurrently for every instance in the slice and
collects results.  Results are returned sorted by instance label. -/
def forAll (E : Env) (instances : List Instance) (fn : Instance → Prog (Bool × String))
    (w : World) : List instResult × World :=
  let r := interleave E (E.sched w.log) (instances.map (probeTask fn)) w []
  (sortSlice (fun a b => strLess a.label b.label) r.1, r.2)

/-- The function `allOK`: true when every result passed. -/
def allOK : List instResult → Bool
  | [] => true
  | r :: rs => if !r.ok then false else allOK rs

/-- The parts `failMsgs` collects. -/
def failParts : List instResult → List String
  | [] => []
  | r :: rs => if !r.ok then ("[" ++ r.label ++ "] " ++ r.msg) :: failParts rs else failParts rs

/-- The function `failMsgs`: a summary string from failed results. -/
def failMsgs (rs : List instResult) : String := join (failParts rs) " | "

/-! ## Test result tracking -/

/-- A recorded phase result. -/
structure Result where
  Num : Nat
  Name : String
  Passed : Bool
  Msg : String
  Duration : Nat
deriving DecidableEq, Repr

/-- The state of a run: the world, the global `results`, and the lines printed. -/
structure St where
  world : World
  results : List Result
  out : List String
deriving DecidableEq, Repr

/-- The function `fmtDur`. -/
def fmtDur (E : Env) (d : Nat) : String :=
  if d < second then toString (d / 1000000) ++ "ms"
  else E.fmtSeconds d ++ "s"

/-- The function `pass`. -/
def pass (E : Env) (num : Nat) (name : String) (d : Nat) (s : St) : St :=
  { s with
    results := s.results ++ [⟨num, name, true, "", d⟩]
    out := s.out ++ ["[PASS] " ++ pad2 num ++ " " ++ name ++ " (" ++ fmtDur E d ++ ")\n"] }

/-- The function `fail`. -/
def fail (E : Env) (num : Nat) (name msg : String) (d : Nat) (s : St) : St :=
  { s with
    results := s.results ++ [⟨num, name, false, msg, d⟩]
    out := s.out ++ ["[FAIL] " ++ pad2 num ++ " " ++ name ++ " — " ++ msg ++ " (" ++ fmtDur E d ++ ")\n"] }

/-- A sequential `run` whose result is used: the state after it and what it returned. -/
def St.run (E : Env) (cmd : String) (s : St) : RunOut × St :=
  ((Dockyard.run E cmd s.world).1, { s with world := (Dockyard.run E cmd s.world).2 })

/-- A sequential `run` whose result is dropped. -/
def St.run_ (E : Env) (cmd : String) (s : St) : St := (s.run E cmd).2

/-- `fmt.Println`. -/
def St.println (line : String) (s : St) : St := { s with out := s.out ++ [line ++ "\n"] }

/-! ## SSH helpers -/

/-- The errors of `dialSSH`. -/
inductive DialErr where
  /-- no authentication method was collected; `paths` are the key files tried -/
  | noAuth (paths : List String)
  /-- `ssh.Dial` failed with `err` -/
  | dial (host : String) (err : String)
deriving DecidableEq, Repr

/-- The text of a `dialSSH` error (`err.Error()`). -/
def DialErr.text : DialErr → String
  | .noAuth paths =>
    "no auth methods available — SSH_AUTH_SOCK not set and no unprotected key found at ["
      ++ join paths " " ++ "]"
  | .dial host err => "dial " ++ host ++ ": " ++ err

/-- The agent part of `dialSSH`: one method when `SSH_AUTH_SOCK` is set and the socket
answers. -/
def agentMethods (E : Env) (w : World) : List AuthMethod :=
  if E.authSock w.log ≠ "" then
    if E.agentDial w.log (E.authSock w.log) then [.agent (E.authSock w.log)] else []
  else []

/-- The key files `dialSSH` tries. -/
def candidatePaths (E : Env) (keyPath : String) : List String :=
  if keyPath = "" then
    [E.pathJoin [E.homeDir, ".ssh", "id_ed25519"], E.pathJoin [E.homeDir, ".ssh", "id_rsa"]]
  else [keyPath]

/-- The key-file loop of `dialSSH`: unreadable and unparseable files are skipped. -/
def keyMethods (E : Env) (w : World) : List String → List AuthMethod
  | [] => []
  | kp :: rest =>
    match E.readFile w.log kp with
    | .error _ => keyMethods E w rest
    | .ok data =>
      match E.parseKey data with
      | none => keyMethods E w rest
      | some signer => .key signer :: keyMethods E w rest

/-- The function `dialSSH`: tries the SSH agent first, then falls back to plain key files. -/
def dialSSH (E : Env) (host user keyPath : String) (w : World) : Except DialErr Unit × World :=
  let authMethods := agentMethods E w ++ keyMethods E w (candidatePaths E keyPath)
  if authMethods.length = 0 then (.error (.noAuth (candidatePaths E keyPath)), w)
  else
    match E.sshDial w.log (host ++ ":22") user authMethods with
    | some err => (.error (.dial host err), w.act E (.sshDial (host ++ ":22") user authMethods) 0)
    | none => (.ok (), w.act E (.sshDial (host ++ ":22") user authMethods) 0)

/-- The loop of `waitForSSH`.  Every round that does not return sleeps five seconds, so `n`
rounds are enough when `deadline ≤ now + 5 s * n`. -/
def waitLoop (E : Env) (host : String) (deadline : Nat) : Nat → World → Bool × World
  | 0, w => (false, w)
  | n + 1, w =>
    if w.now < deadline then
      if E.tcpDial w.log (host ++ ":22") then (true, w.act E (.tcpDial (host ++ ":22")) 0)
      else waitLoop E host deadline n (sleep E (5 * second) (w.act E (.tcpDial (host ++ ":22")) 0))
    else (false, w)

/-- The function `waitForSSH`: polls port 22 until reachable or timeout. -/
def waitForSSH (E : Env) (host : String) (d : Nat) (w : World) : Option String × World :=
  let r := waitLoop E host (w.now + d) (d / (5 * second) + 1) w
  if r.1 then (none, r.2)
  else (some ("SSH did not come back within " ++ E.fmtDuration d), r.2)

/-! ## Isolation check -/

/-- A started workload: the owning instance and the workload name. -/
structure cinfo where
  inst : Instance
  name : String
deriving DecidableEq, Repr

/-- `sudo DOCKER_HOST=unix://<socket>`, the start of every engine command. -/
def dockerHost (socket : String) : String := "sudo DOCKER_HOST=unix://" ++ socket

/-- The workload name `checkIsolation` uses for `inst`. -/
def isoName (inst : Instance) : String := "iso-" ++ toLower inst.Label ++ "-check"

/-- The violation message of `checkIsolation`. -/
def isoMsg (src : cinfo) (viewer : Instance) : String :=
  "container " ++ src.name ++ " (from " ++ src.inst.Label ++ ") visible in " ++ viewer.Label
    ++ "'s docker ps — daemon not isolated"

/-- The listing query on `viewer`. -/
def isoListCmd (viewer : Instance) : String :=
  dockerHost viewer.Socket ++ " docker ps -a --format '\x7b\x7b.Names\x7d\x7d'"

/-- First loop of `checkIsolation`: start a long-lived container in each instance. -/
def isoStart (E : Env) : List Instance → World → List cinfo × World
  | [], w => ([], w)
  | inst :: rest, w =>
    let w1 := (run E (dockerHost inst.Socket ++ " docker rm -f " ++ isoName inst ++ " 2>/dev/null") w).2
    let r := run E (dockerHost inst.Socket ++ " docker run -d --name " ++ isoName inst ++ " alpine sleep 60") w1
    let tail := isoStart E rest r.2
    if r.1.exitCode = 0 then (⟨inst, isoName inst⟩ :: tail.1, tail.2) else tail

/-- Inner loop of `checkIsolation`: the viewers of one source. -/
def isoView (E : Env) (src : cinfo) : List Instance → World → List String × World
  | [], w => ([], w)
  | viewer :: rest, w =>
    if src.inst.Label = viewer.Label then isoView E src rest w
    else
      let r := run E (isoListCmd viewer) w
      let tail := isoView E src rest r.2
      if contains r.1.stdout src.name then (isoMsg src viewer :: tail.1, tail.2) else tail

/-- Outer loop of `checkIsolation`: every started container against every instance. -/
def isoCheck (E : Env) (instances : List Instance) : List cinfo → World → List String × World
  | [], w => ([], w)
  | src :: rest, w =>
    let a := isoView E src instances w
    let b := isoCheck E instances rest a.2
    (a.1 ++ b.1, b.2)

/-- Last loop of `checkIsolation`: remove the started containers. -/
def isoCleanup (E : Env) : List cinfo → World → World
  | [], w => w
  | c :: rest, w =>
    isoCleanup E rest (run E (dockerHost c.inst.Socket ++ " docker rm -f " ++ c.name ++ " 2>/dev/null") w).2

/-- The function `checkIsolation`: returns the failure messages. -/
def checkIsolation (E : Env) (instances : List Instance) (w : World) : List String × World :=
  let c := isoStart E instances w
  let f := isoCheck E instances c.1 c.2
  (f.1, isoCleanup E c.1 f.2)

/-! ## Test suite -/

/-- Run the commands one after the other, dropping what they return. -/
def runAll (E : Env) : List String → World → World
  | [], w => w
  | cmd :: rest, w => runAll E rest (run E cmd w).2

/-- The commands of `cleanupAllInstances` for one instance, in order. -/
def cleanupInstanceCmds (inst : Instance) : List String :=
  [ "[ -f " ++ inst.EnvFile ++ " ] && DOCKYARD_ENV=" ++ inst.EnvFile
      ++ " sudo -E ~/dockyard.sh destroy --yes 2>/dev/null; true",
    "sudo rm -rf /run/" ++ inst.Prefix ++ "docker 2>/dev/null; true",
    "sudo rm -rf " ++ inst.Root ++ " 2>/dev/null; true",
    "sudo ip link delete " ++ inst.Prefix ++ "docker0 2>/dev/null; true",
    "sudo systemctl stop " ++ inst.Prefix ++ "docker 2>/dev/null; sudo systemctl disable "
      ++ inst.Prefix ++ "docker 2>/dev/null; true",
    "sudo rm -f /etc/systemd/system/" ++ inst.Prefix ++ "docker.service 2>/dev/null; true",
    "rm -f " ++ inst.EnvFile ++ " 2>/dev/null; true" ]

/-- The commands of `cleanupAllInstances` for the nested-root test instance. -/
def cleanupNestedCmds : List String :=
  [ "[ -f ~/dyn.env ] && DOCKYARD_ENV=~/dyn.env sudo -E ~/dockyard.sh destroy --yes 2>/dev/null; true",
    "sudo rm -rf /tmp/dockyard-nested 2>/dev/null; true",
    "sudo systemctl stop dyn_docker 2>/dev/null; sudo systemctl disable dyn_docker 2>/dev/null; true",
    "sudo rm -f /etc/systemd/system/dyn_docker.service 2>/dev/null; true",
    "rm -f ~/dyn.env 2>/dev/null; true",
    "sudo systemctl daemon-reload 2>/dev/null; true" ]

/-- All commands of `cleanupAllInstances`, in order. -/
def cleanupCmds : List String :=
  (allInstances.map cleanupInstanceCmds).flatten ++ cleanupNestedCmds

/-- The function `cleanupAllInstances`. -/
def cleanupAllInstances (E : Env) (w : World) : World := runAll E cleanupCmds w

/-- Phase 01: upload dockyard.sh.  The flag is false when `runTests` returns here. -/
def phase01 (E : Env) (s : St) : St × Bool :=
  let start := s.world.now
  let r := upload E "dist/dockyard.sh" "~/dockyard.sh" s.world
  let d := r.2.now - start
  match r.1 with
  | some err => (fail E 1 "Upload dockyard.sh" err d { s with world := r.2 }, false)
  | none => (pass E 1 "Upload dockyard.sh" d { s with world := r.2 }, true)

/-- Phases 02-04: gen-env for each instance; `i` is the loop index. -/
def genEnvLoop (E : Env) : List Instance → Nat → St → St × Bool
  | [], _, s => (s, true)
  | inst :: rest, i, s =>
    let start := s.world.now
    let r := s.run E ("rm -f " ++ inst.EnvFile ++ " && DOCKYARD_ENV=" ++ inst.EnvFile
      ++ " DOCKYARD_ROOT=" ++ inst.Root ++ " DOCKYARD_DOCKER_PREFIX=" ++ inst.Prefix
      ++ " ~/dockyard.sh gen-env")
    let d := r.2.world.now - start
    if r.1.exitCode ≠ 0 then (fail E (i + 2) ("gen-env " ++ inst.Label) r.1.stderr d r.2, false)
    else genEnvLoop E rest (i + 1)
      (pass E (i + 2) ("gen-env " ++ inst.Label ++ " (" ++ inst.Root ++ " / " ++ inst.Prefix ++ ")") d r.2)

/-- What a create goroutine sends. -/
structure createRes where
  inst : Instance
  ok : Bool
  msg : String
deriving DecidableEq, Repr

/-- The create goroutine of phase 05 for loop index `idx`. -/
def createTask (idx : Nat) (inst : Instance) : Prog createRes :=
  .sleep (idx * 3 * second)
    (.run ("DOCKYARD_ENV=" ++ inst.EnvFile ++ " sudo -E ~/dockyard.sh create")
      (fun r => .ret ⟨inst, decide (r.exitCode = 0), r.stderr⟩))

/-- The create goroutines for the instances, loop index starting at `idx`. -/
def createTasks : List Instance → Nat → List (Prog createRes)
  | [], _ => []
  | inst :: rest, idx => createTask idx inst :: createTasks rest (idx + 1)

/-- The receive loop of phase 05. -/
def createFails : List createRes → List String
  | [] => []
  | r :: rs =>
    if !r.ok then ("[" ++ r.inst.Label ++ "] " ++ r.msg) :: createFails rs else createFails rs

/-- Phase 05: create all instances concurrently. -/
def phase05 (E : Env) (s0 : St) : St × Bool :=
  let s := s0.println "[INFO] Creating all instances concurrently (this takes a while)..."
  let start := s.world.now
  let r := interleave E (E.sched s.world.log) (createTasks allInstances 0) s.world []
  let d := r.2.now - start
  if (createFails r.1).length > 0 then
    (fail E 5 "create all instances" (join (createFails r.1) " | ") d { s with world := r.2 }, false)
  else (pass E 5 "create all instances (A+B+C concurrent)" d { s with world := r.2 }, true)

/-- The shape shared by the fan-out phases: time `forAll`, then `pass` or `fail`. -/
def forAllPhase (E : Env) (num : Nat) (passName failName : String) (instances : List Instance)
    (fn : Instance → Prog (Bool × String)) (s : St) : St :=
  let start := s.world.now
  let r := forAll E instances fn s.world
  let d := r.2.now - start
  if allOK r.1 then pass E num passName d { s with world := r.2 }
  else fail E num failName (failMsgs r.1) d { s with world := r.2 }

/-- Probe of phases 06 and 21. -/
def probeActive (inst : Instance) : Prog (Bool × String) :=
  .run ("systemctl is-active " ++ inst.Prefix ++ "docker") fun r =>
    if r.exitCode ≠ 0 then .ret (false, inst.Prefix ++ "docker not active") else .ret (true, "")

/-- Probe of phases 07 and 22. -/
def probeHello (inst : Instance) : Prog (Bool × String) :=
  .run (dockerHost inst.Socket ++ " docker run --rm alpine echo hello") fun r =>
    if r.exitCode ≠ 0 || !contains r.stdout "hello" then .ret (false, r.stderr) else .ret (true, "")

/-- Probe of phases 08, 19 and 23. -/
def probePing (inst : Instance) : Prog (Bool × String) :=
  .run (dockerHost inst.Socket ++ " docker run --rm alpine ping -c3 1.1.1.1") fun r =>
    if r.exitCode ≠ 0 || contains r.stdout "100% packet loss" then .ret (false, r.stdout ++ r.stderr)
    else .ret (true, "")

/-- Probe of phase 09. -/
def probeDNS (inst : Instance) : Prog (Bool × String) :=
  .run (dockerHost inst.Socket ++ " docker run --rm alpine nslookup google.com") fun r =>
    if r.exitCode ≠ 0 || !contains r.stdout "Address" then .ret (false, r.stderr) else .ret (true, "")

/-- The readiness command of the inner-daemon poll. -/
def dockerInfoCmd (inst : Instance) (cname : String) : String :=
  dockerHost inst.Socket ++ " docker exec " ++ cname ++ " docker info"

/-- The poll loop of phase 10 with `n` iterations left (`for i := 0; i < 60; i++`, entered
with `n = 60 - i`). -/
def poll10 (inst : Instance) (cname : String) : Nat → Prog (Bool × String)
  | 0 => .ret (false, "inner dockerd did not start within 120s")
  | n + 1 => .run (dockerInfoCmd inst cname) fun r =>
      if r.exitCode = 0 then .ret (true, "") else .sleep (2 * second) (poll10 inst cname n)

/-- Probe of phase 10: start the DinD container and wait for the inner daemon. -/
def probeDinD (inst : Instance) : Prog (Bool × String) :=
  .run (dockerHost inst.Socket ++ " docker rm -f " ++ ("dind-" ++ toLower inst.Label) ++ " 2>/dev/null")
    fun _ =>
  .run (dockerHost inst.Socket ++ " docker run -d --name " ++ ("dind-" ++ toLower inst.Label)
      ++ " docker:26.1-dind") fun r =>
    if r.exitCode ≠ 0 then .ret (false, r.stderr)
    else poll10 inst ("dind-" ++ toLower inst.Label) 60

/-- Probe of phase 11. -/
def probeInner (inst : Instance) : Prog (Bool × String) :=
  .run (dockerHost inst.Socket ++ " docker exec " ++ ("dind-" ++ toLower inst.Label)
      ++ " docker run --rm alpine echo inner-hello") fun r =>
    if r.exitCode ≠ 0 || !contains r.stdout "inner-hello" then .ret (false, r.stderr)
    else .ret (true, "")

/-- Probe of phase 12. -/
def probeInnerPing (inst : Instance) : Prog (Bool × String) :=
  .run (dockerHost inst.Socket ++ " docker exec " ++ ("dind-" ++ toLower inst.Label)
      ++ " docker run --rm alpine ping -c3 1.1.1.1") fun r =>
    if r.exitCode ≠ 0 || contains r.stdout "100% packet loss" then .ret (false, r.stdout ++ r.stderr)
    else .ret (true, "")

/-- Phase 13: all pairs isolated. -/
def phase13 (E : Env) (s : St) : St :=
  let start := s.world.now
  let r := checkIsolation E allInstances s.world
  let d := r.2.now - start
  if r.1.length = 0 then pass E 13 "multi-instance isolation (all pairs)" d { s with world := r.2 }
  else fail E 13 "multi-instance isolation" (join r.1 " | ") d { s with world := r.2 }

/-- The commands that remove the DinD containers after phase 13. -/
def dindCleanupCmds : List Instance → List String
  | [] => []
  | inst :: rest =>
    (dockerHost inst.Socket ++ " docker rm -f " ++ ("dind-" ++ toLower inst.Label) ++ " 2>/dev/null")
      :: dindCleanupCmds rest

/-- Cleanup of the DinD containers before the edge-case and destroy phases. -/
def dindCleanup (E : Env) (s : St) : St :=
  { s with world := runAll E (dindCleanupCmds allInstances) s.world }

/-- The first instance, `allInstances[0]`. -/
def instA : Instance := allInstances.headD ⟨"", "", "", "", ""⟩

/-- Phase 14: stop/start cycle on instance A. -/
def phase14 (E : Env) (s : St) : St :=
  let start := s.world.now
  let r1 := s.run E ("sudo systemctl stop " ++ instA.Prefix ++ "docker")
  if r1.1.exitCode ≠ 0 then
    fail E 14 "stop/start cycle" ("stop failed: " ++ r1.1.stderr) (r1.2.world.now - start) r1.2
  else
    let r2 := r1.2.run E ("systemctl is-active " ++ instA.Prefix ++ "docker")
    if r2.1.exitCode = 0 then
      fail E 14 "stop/start cycle" "service still active after stop" (r2.2.world.now - start) r2.2
    else
      let r3 := r2.2.run E ("sudo systemctl start " ++ instA.Prefix ++ "docker")
      if r3.1.exitCode ≠ 0 then
        fail E 14 "stop/start cycle" ("start failed: " ++ r3.1.stderr) (r3.2.world.now - start) r3.2
      else
        let r4 := r3.2.run E (dockerHost instA.Socket ++ " docker run --rm alpine echo cycled")
        if r4.1.exitCode ≠ 0 || !contains r4.1.stdout "cycled" then
          fail E 14 "stop/start cycle" ("container after restart: " ++ r4.1.stderr)
            (r4.2.world.now - start) r4.2
        else
          pass E 14 "stop/start cycle (stop → start → container run)" (r4.2.world.now - start) r4.2

/-- Probe of phase 15: socket mode and group. -/
def probeSocket (E : Env) (inst : Instance) : Prog (Bool × String) :=
  .run ("stat -c '%a %G' " ++ inst.Socket) fun r =>
    if r.exitCode ≠ 0 then .ret (false, "stat failed: " ++ r.stderr)
    else
      match fields (trimSpace r.stdout) with
      | [mode, group] =>
        if mode.data.length > 0 && mode.data.getLast? != some '0' then
          .ret (false, "socket " ++ inst.Socket ++ " is world-accessible (mode " ++ mode ++ ")")
        else if group ≠ inst.Prefix ++ "docker" then
          .ret (false, "socket " ++ inst.Socket ++ " group is " ++ E.fmtQuote group ++ ", want "
            ++ E.fmtQuote (inst.Prefix ++ "docker"))
        else .ret (true, "")
      | _ => .ret (false, "unexpected stat output: " ++ r.stdout)

/-- Phase 16: destroy A under load. -/
def phase16 (E : Env) (s : St) : St :=
  let start := s.world.now
  let s1 := s.run_ E (dockerHost instA.Socket
    ++ " docker run -d --name load-test alpine sleep 300 2>/dev/null")
  let r := s1.run E ("DOCKYARD_ENV=" ++ instA.EnvFile ++ " sudo -E ~/dockyard.sh destroy --yes")
  let d := r.2.world.now - start
  if r.1.exitCode ≠ 0 then fail E 16 "destroy under load" r.1.stderr d r.2
  else pass E 16 "destroy under load (running container present at destroy time)" d r.2

/-- Phase 17: double destroy idempotency. -/
def phase17 (E : Env) (s : St) : St :=
  let start := s.world.now
  let r := s.run E ("DOCKYARD_ENV=" ++ instA.EnvFile ++ " sudo -E ~/dockyard.sh destroy --yes")
  let d := r.2.world.now - start
  if r.1.exitCode ≠ 0 then fail E 17 "double destroy idempotency" r.1.stderr d r.2
  else pass E 17 "double destroy idempotency (second destroy is a no-op)" d r.2

/-- Phase 18: A has no service, bridge or iptables rules left. -/
def phase18 (E : Env) (s : St) : St :=
  let start := s.world.now
  let r1 := s.run E ("systemctl is-active " ++ instA.Prefix ++ "docker")
  let m1 := if r1.1.exitCode = 0 then ["service still active"] else []
  let r2 := r1.2.run E ("ip link show " ++ instA.Prefix ++ "docker0")
  let m2 := if r2.1.exitCode = 0 then m1 ++ ["bridge still exists"] else m1
  let r3 := r2.2.run E ("iptables-save | grep -F " ++ instA.Prefix ++ " || true")
  let m3 := if contains r3.1.stdout instA.Prefix then m2 ++ ["residual iptables rules"] else m2
  let aClean := !(decide (r1.1.exitCode = 0) || decide (r2.1.exitCode = 0)
    || contains r3.1.stdout instA.Prefix)
  let d := r3.2.world.now - start
  if aClean then pass E 18 "A: fully cleaned up (service+bridge+iptables)" d r3.2
  else fail E 18 "A: fully cleaned up" (join m3 ", ") d r3.2

/-- The instances left after A is destroyed, `allInstances[1:]`. -/
def surviving : List Instance := allInstances.tail

/-- `time.Minute`, in nanoseconds. -/
def minute : Nat := 60 * second

/-- Phase 20, start: reboot the host, close the client, wait for it to go down. -/
def rebootHost (E : Env) (s : St) : St :=
  let s1 := (s.println "[INFO] Rebooting host...").run_ E "sudo reboot"
  let s2 : St := { s1 with world := sleep E (15 * second) (s1.world.act E .closeClient 0) }
  s2.println "[INFO] Waiting for SSH (up to 4min)..."

/-- Phase 20, end: `c` is what `dialSSH` returned. -/
def phase20Dial (E : Env) (start : Nat) (s3 : St) (c : Except DialErr Unit × World) : St × Bool :=
  match c.1 with
  | .error e =>
    (fail E 20 "reboot" ("could not reconnect: " ++ e.text) (c.2.now - start)
      { s3 with world := c.2 }, false)
  | .ok _ => (pass E 20 "reboot" (c.2.now - start) { s3 with world := c.2 }, true)

/-- Phase 20, middle: `r` is what `waitForSSH` returned. -/
def phase20Wait (E : Env) (host user keyPath : String) (start : Nat) (s3 : St)
    (r : Option String × World) : St × Bool :=
  match r.1 with
  | some err => (fail E 20 "reboot" err (r.2.now - start) { s3 with world := r.2 }, false)
  | none => phase20Dial E start s3 (dialSSH E host user keyPath (sleep E (10 * second) r.2))

/-- Phase 20: reboot and reconnect.  The flag is false when `runTests` returns here. -/
def phase20 (E : Env) (host user keyPath : String) (s : St) : St × Bool :=
  phase20Wait E host user keyPath s.world.now (rebootHost E s)
    (waitForSSH E host (4 * minute) (rebootHost E s).world)

/-- The poll loop of phase 24 with `n` iterations left; returns the flag `ready`. -/
def poll24 (inst : Instance) (cname : String) : Nat → Prog Bool
  | 0 => .ret false
  | n + 1 => .run (dockerInfoCmd inst cname) fun r =>
      if r.exitCode = 0 then .ret true else .sleep (2 * second) (poll24 inst cname n)

/-- Probe of phase 24: DinD start, inner container, inner networking. -/
def probeDinDPost (inst : Instance) : Prog (Bool × String) :=
  .run (dockerHost inst.Socket ++ " docker rm -f " ++ ("dind-post-" ++ toLower inst.Label)
      ++ " 2>/dev/null") fun _ =>
  .run (dockerHost inst.Socket ++ " docker run -d --name " ++ ("dind-post-" ++ toLower inst.Label)
      ++ " docker:26.1-dind") fun r =>
    if r.exitCode ≠ 0 then .ret (false, "start: " ++ r.stderr)
    else (poll24 inst ("dind-post-" ++ toLower inst.Label) 60).bind fun ready =>
      if !ready then .ret (false, "inner dockerd did not start within 120s")
      else
        .run (dockerHost inst.Socket ++ " docker exec " ++ ("dind-post-" ++ toLower inst.Label)
          ++ " docker run --rm alpine echo inner-hello") fun r2 =>
        if r2.exitCode ≠ 0 || !contains r2.stdout "inner-hello" then
          .ret (false, "inner container: " ++ r2.stderr)
        else
          .run (dockerHost inst.Socket ++ " docker exec " ++ ("dind-post-" ++ toLower inst.Label)
            ++ " docker run --rm alpine ping -c3 1.1.1.1") fun r3 =>
          if r3.exitCode ≠ 0 || contains r3.stdout "100% packet loss" then
            .ret (false, "inner networking: " ++ r3.stdout ++ r3.stderr)
          else
            .run (dockerHost inst.Socket ++ " docker rm -f "
              ++ ("dind-post-" ++ toLower inst.Label) ++ " 2>/dev/null") fun _ =>
            .ret (true, "")

/-- Phases 25-26: destroy the surviving instances one after the other; `i` is the loop
index. -/
def destroyLoop (E : Env) : List Instance → Nat → St → St
  | [], _, s => s
  | inst :: rest, i, s =>
    let start := s.world.now
    let r := s.run E ("DOCKYARD_ENV=" ++ inst.EnvFile ++ " sudo -E ~/dockyard.sh destroy --yes")
    let d := r.2.world.now - start
    if r.1.exitCode ≠ 0 then
      destroyLoop E rest (i + 1) (fail E (25 + i) ("destroy " ++ inst.Label) r.1.stderr d r.2)
    else destroyLoop E rest (i + 1) (pass E (25 + i) ("destroy " ++ inst.Label) d r.2)

/-- First loop of phase 27: services, bridges, iptables rules, data directories. -/
def cleanLoop1 (E : Env) : List Instance → List String → St → List String × St
  | [], acc, s => (acc, s)
  | inst :: rest, acc, s =>
    let r1 := s.run E ("systemctl is-active " ++ inst.Prefix ++ "docker")
    let a1 := if r1.1.exitCode = 0 then acc ++ [inst.Label ++ ": docker service still active"] else acc
    let r2 := r1.2.run E ("ip link show " ++ inst.Prefix ++ "docker0")
    let a2 := if r2.1.exitCode = 0 then a1 ++ [inst.Label ++ ": bridge still exists"] else a1
    let r3 := r2.2.run E ("iptables-save | grep -F " ++ inst.Prefix ++ " || true")
    let a3 := if contains r3.1.stdout inst.Prefix then a2 ++ [inst.Label ++ ": residual iptables rules"]
      else a2
    let r4 := r3.2.run E ("[ -d " ++ inst.Root ++ " ] && echo exists || echo gone")
    let a4 := if trimSpace r4.1.stdout = "exists" then
      a3 ++ [inst.Label ++ ": " ++ inst.Root ++ " still exists"] else a3
    let r5 := r4.2.run E ("[ -d " ++ inst.Root ++ "/run/sysbox ] && echo exists || echo gone")
    let a5 := if trimSpace r5.1.stdout = "exists" then
      a4 ++ [inst.Label ++ ": " ++ inst.Root ++ "/run/sysbox still exists"] else a4
    cleanLoop1 E rest a5 r5.2

/-- Second loop of phase 27: instance users and groups. -/
def cleanLoop2 (E : Env) : List Instance → List String → St → List String × St
  | [], acc, s => (acc, s)
  | inst :: rest, acc, s =>
    let r1 := s.run E ("getent passwd " ++ (inst.Prefix ++ "docker"))
    let a1 := if r1.1.exitCode = 0 then
      acc ++ [inst.Label ++ ": system user " ++ (inst.Prefix ++ "docker") ++ " still exists"] else acc
    let r2 := r1.2.run E ("getent group " ++ (inst.Prefix ++ "docker"))
    let a2 := if r2.1.exitCode = 0 then
      a1 ++ [inst.Label ++ ": system group " ++ (inst.Prefix ++ "docker") ++ " still exists"] else a1
    cleanLoop2 E rest a2 r2.2

/-- Phase 27: full cleanup. -/
def phase27 (E : Env) (s : St) : St :=
  let start := s.world.now
  let c1 := cleanLoop1 E surviving [] s
  let c2 := cleanLoop2 E surviving c1.1 c1.2
  let d := c2.2.world.now - start
  if c2.1.length = 0 then
    pass E 27 "full cleanup: no services, bridges, iptables, data dirs, or users" d c2.2
  else fail E 27 "full cleanup" (join c2.1 " | ") d c2.2

/-- The nested root of phase 28. -/
def nestedRoot : String := "/tmp/dockyard-nested/level1/level2/dockyard"

/-- The pre-cleanup commands of phase 28. -/
def nestedPreCmds : List String :=
  [ "DOCKYARD_ENV=" ++ "~/dyn.env" ++ " sudo -E ~/dockyard.sh destroy --yes 2>/dev/null; true",
    "sudo rm -rf /tmp/dockyard-nested 2>/dev/null; true",
    "rm -f " ++ "~/dyn.env" ++ " 2>/dev/null; true",
    "sudo systemctl stop " ++ "dyn_" ++ "docker 2>/dev/null; sudo systemctl disable " ++ "dyn_"
      ++ "docker 2>/dev/null; true",
    "sudo rm -f /etc/systemd/system/" ++ "dyn_" ++ "docker.service 2>/dev/null; true",
    "sudo systemctl daemon-reload 2>/dev/null; true" ]

/-- The commands phase 28 always runs at its end. -/
def nestedPostCmds : List String :=
  [ "DOCKYARD_ENV=" ++ "~/dyn.env" ++ " sudo -E ~/dockyard.sh destroy --yes 2>/dev/null; true",
    "sudo rm -rf /tmp/dockyard-nested 2>/dev/null; true",
    "rm -f " ++ "~/dyn.env" ++ " 2>/dev/null; true" ]

/-- The variables `nestedOK`, `nestedMsg` of phase 28 together with the state. -/
structure Nested where
  ok : Bool
  msg : String
  st : St

/-- Phase 28, step gen-env. -/
def nestedGenEnv (E : Env) (s : St) : Nested :=
  let r := s.run E ("DOCKYARD_ENV=" ++ "~/dyn.env" ++ " DOCKYARD_ROOT=" ++ nestedRoot
    ++ " DOCKYARD_DOCKER_PREFIX=" ++ "dyn_" ++ " ~/dockyard.sh gen-env")
  if r.1.exitCode ≠ 0 then ⟨false, "gen-env: " ++ r.1.stderr, r.2⟩ else ⟨true, "", r.2⟩

/-- Phase 28, step create. -/
def nestedCreate (E : Env) (n : Nested) : Nested :=
  if n.ok then
    let r := n.st.run E ("DOCKYARD_ENV=" ++ "~/dyn.env" ++ " sudo -E ~/dockyard.sh create")
    if r.1.exitCode ≠ 0 then ⟨false, "create: " ++ r.1.stderr, r.2⟩ else ⟨n.ok, n.msg, r.2⟩
  else n

/-- Phase 28, step container run. -/
def nestedRun (E : Env) (n : Nested) : Nested :=
  if n.ok then
    let r := n.st.run E (dockerHost (nestedRoot ++ "/run/docker.sock")
      ++ " docker run --rm alpine echo nested-ok")
    if r.1.exitCode ≠ 0 || !contains r.1.stdout "nested-ok" then
      ⟨false, "container run: " ++ r.1.stderr, r.2⟩
    else ⟨n.ok, n.msg, r.2⟩
  else n

/-- Phase 28, step destroy. -/
def nestedDestroy (E : Env) (n : Nested) : Nested :=
  if n.ok then
    let r := n.st.run E ("DOCKYARD_ENV=" ++ "~/dyn.env" ++ " sudo -E ~/dockyard.sh destroy --yes")
    if r.1.exitCode ≠ 0 then ⟨false, "destroy: " ++ r.1.stderr, r.2⟩
    else
      let r2 := r.2.run E ("[ -d " ++ nestedRoot ++ " ] && echo exists || echo gone")
      if trimSpace r2.1.stdout = "exists" then
        ⟨false, nestedRoot ++ " still exists after destroy", r2.2⟩
      else ⟨n.ok, n.msg, r2.2⟩
  else n

/-- Phase 28: deeply nested DOCKYARD_ROOT lifecycle. -/
def phase28 (E : Env) (s : St) : St :=
  let start := s.world.now
  let s1 : St := { s with world := runAll E nestedPreCmds s.world }
  let n := nestedDestroy E (nestedRun E (nestedCreate E (nestedGenEnv E s1)))
  let s2 : St := { n.st with world := runAll E nestedPostCmds n.st.world }
  let d := s2.world.now - start
  if n.ok then
    pass E 28 "nested DOCKYARD_ROOT lifecycle (gen-env + create + container run + destroy)" d s2
  else fail E 28 "nested DOCKYARD_ROOT lifecycle" n.msg d s2

/-- Phases 06-19 of `runTests`, none of which returns early. -/
def phases06to19 (E : Env) (s : St) : St :=
  let s := forAllPhase E 6 "all instances: per-instance docker services active"
    "all instances: services active" allInstances probeActive s
  let s := forAllPhase E 7 "all instances: container run" "all instances: container run"
    allInstances probeHello s
  let s := forAllPhase E 8 "all instances: outbound ping" "all instances: outbound ping"
    allInstances probePing s
  let s := forAllPhase E 9 "all instances: DNS resolution" "all instances: DNS resolution"
    allInstances probeDNS s
  let s := forAllPhase E 10 "all instances: DinD start" "all instances: DinD start"
    allInstances probeDinD s
  let s := forAllPhase E 11 "all instances: DinD inner container"
    "all instances: DinD inner container" allInstances probeInner s
  let s := forAllPhase E 12 "all instances: DinD inner networking"
    "all instances: DinD inner networking" allInstances probeInnerPing s
  let s := phase13 E s
  let s := dindCleanup E s
  let s := phase14 E s
  let s := forAllPhase E 15 "socket permissions (not world-accessible, group-owned by instance)"
    "socket permissions" allInstances (probeSocket E) s
  let s := phase16 E s
  let s := phase17 E s
  let s := phase18 E s
  forAllPhase E 19 "B+C: still healthy after A destroy" "B+C: still healthy after A destroy"
    surviving probePing s

/-- Phases 21-28 of `runTests`, none of which returns early. -/
def phases21to28 (E : Env) (s : St) : St :=
  let s := forAllPhase E 21 "post-reboot: B+C services active" "post-reboot: B+C services active"
    surviving probeActive s
  let s := forAllPhase E 22 "post-reboot: B+C container run" "post-reboot: B+C container run"
    surviving probeHello s
  let s := forAllPhase E 23 "post-reboot: B+C outbound networking"
    "post-reboot: B+C outbound networking" surviving probePing s
  let s := forAllPhase E 24 "post-reboot: B+C DinD (start + inner container + inner networking)"
    "post-reboot: B+C DinD" surviving probeDinDPost s
  let s := destroyLoop E surviving 0 s
  let s := phase27 E s
  phase28 E s

/-- The pre-flight of `runTests`: announce and run `cleanupAllInstances`. -/
def preflight (E : Env) (s0 : St) : St :=
  let s := s0.println "[INFO] Pre-flight cleanup (removing any leftover state)..."
  { s with world := cleanupAllInstances E s.world }

/-- The phases of `runTests`, from phase 01 on. -/
def runPhases (E : Env) (host user keyPath : String) (s : St) : St :=
  if !(phase01 E s).2 then (phase01 E s).1
  else
    let s := (phase01 E s).1
    if !(genEnvLoop E allInstances 0 s).2 then (genEnvLoop E allInstances 0 s).1
    else
      let s := (genEnvLoop E allInstances 0 s).1
      if !(phase05 E s).2 then (phase05 E s).1
      else
        let s := phases06to19 E (phase05 E s).1
        if !(phase20 E host user keyPath s).2 then (phase20 E host user keyPath s).1
        else phases21to28 E (phase20 E host user keyPath s).1

/-- The function `runTests`. -/
def runTests (E : Env) (host user keyPath : String) (s0 : St) : St :=
  runPhases E host user keyPath (preflight E s0)

/-! ## main -/

/-- The loop of `main` that counts the passed results. -/
def countPassed : List Result → Nat
  | [] => 0
  | r :: rs => if r.Passed then countPassed rs + 1 else countPassed rs

/-- The declared number of phases, `total` in `main`. -/
def total : Nat := 28

/-- `skipped` in `main`. -/
def skipped (results : List Result) : Int := (total : Int) - (results.length : Int)

/-- The end of `main`, from the summary on: the state after `runTests` and the elapsed time
give the final state and the exit status. -/
def finish (E : Env) (totalElapsed : Nat) (s : St) : St × Nat :=
  let line := "\n=== Results: " ++ toString (countPassed s.results) ++ "/" ++ toString total
    ++ " passed"
    ++ (if skipped s.results > 0 then ", " ++ toString (skipped s.results) ++ " skipped (earlier failure)"
        else "")
    ++ " — total " ++ fmtDur E totalElapsed ++ " ===\n"
  let s1 : St := { s with out := s.out ++ [line] }
  if countPassed s.results < s.results.length then (s1, 1) else (s1, 0)

/-- The function `main`, from the parsed flags to the final state and the exit status. -/
def main (E : Env) (hostFlag userFlag keyFlag : String) : St × Nat :=
  let s0 : St := ⟨⟨[], 0⟩, [], []⟩
  if hostFlag = "" ∨ userFlag = "" then
    ({ s0 with out := ["Usage: dockyardtest --host HOST --user USER [--key PATH]\n"] }, 1)
  else
    let kp := if keyFlag = "" then E.pathJoin [E.homeDir, ".ssh", "id_ed25519"] else keyFlag
    let s1 : St := { s0 with out := ["Connecting to " ++ userFlag ++ "@" ++ hostFlag ++ "...\n"] }
    let c := dialSSH E hostFlag userFlag kp s1.world
    match c.1 with
    | .error e => ({ s1 with world := c.2, out := s1.out ++ ["SSH connect failed: " ++ e.text ++ "\n"] }, 1)
    | .ok _ =>
      let s2 := ({ s1 with world := c.2 } : St).println "Connected."
      let s3 := runTests E hostFlag userFlag kp s2
      finish E (s3.world.now - s2.world.now) s3

/-! ## Definitions used to state the properties -/

/-- Run a goroutine body against the answers `resp 0, resp 1, ...` its successive commands
get: the value it returns and the actions it performs, in order. -/
def Prog.play {α : Type} : Prog α → (Nat → RunOut) → α × List Event
  | .ret a, _ => (a, [])
  | .run cmd k, resp =>
    ((k (resp 0)).play (fun i => resp (i + 1)) |>.1,
      Event.run cmd :: ((k (resp 0)).play (fun i => resp (i + 1))).2)
  | .sleep d k, resp => ((k.play resp).1, Event.sleep d :: (k.play resp).2)

/-- The world `w'` is the world `w` after further actions: its log extends the log of `w`. -/
def World.after (w w' : World) : Prop := ∃ t, w'.log = w.log ++ t

/-- The body `p` returns `a` when each of its commands gets the answer the environment `E`
gives to that command in some world that satisfies `P`. -/
inductive Prog.ReturnsIn {α : Type} (E : Env) (P : World → Prop) : Prog α → α → Prop where
  | ret (a : α) : Prog.ReturnsIn E P (.ret a) a
  | run (cmd : String) (k : RunOut → Prog α) (w' : World) (a : α) :
      P w' → Prog.ReturnsIn E P (k (Dockyard.run E cmd w').1) a →
      Prog.ReturnsIn E P (.run cmd k) a
  | sleep (d : Nat) (k : Prog α) (a : α) :
      Prog.ReturnsIn E P k a → Prog.ReturnsIn E P (.sleep d k) a

/-- The command that starts the isolation workload of `inst`. -/
def isoStartCmd (inst : Instance) : String :=
  dockerHost inst.Socket ++ " docker run -d --name " ++ isoName inst ++ " alpine sleep 60"

/-- The command that removes the isolation workload of `inst`. -/
def isoRmCmd (inst : Instance) : String :=
  dockerHost inst.Socket ++ " docker rm -f " ++ isoName inst ++ " 2>/dev/null"

/-- The sources: the instances whose workload start returned exit code 0, when the starts
are issued in list order from world `w`. -/
def isoSources (E : Env) : List Instance → World → List Instance
  | [], _ => []
  | inst :: rest, w =>
    (if (run E (isoStartCmd inst) (run E (isoRmCmd inst) w).2).1.exitCode = 0 then [inst] else [])
      ++ isoSources E rest (run E (isoStartCmd inst) (run E (isoRmCmd inst) w).2).2

/-- The world after the workloads of all instances have been started (or not). -/
def afterStarts (E : Env) : List Instance → World → World
  | [], w => w
  | inst :: rest, w => afterStarts E rest (run E (isoStartCmd inst) (run E (isoRmCmd inst) w).2).2

/-- The ordered pairs (source, viewer) of distinct instances, sources in order and for each
source the viewers in order. -/
def isoPairs (instances : List Instance) : List Instance → List (Instance × Instance)
  | [] => []
  | src :: rest =>
    (instances.filter (fun v => decide (src ≠ v))).map (fun v => (src, v))
      ++ isoPairs instances rest

/-- The pairs whose viewer's listing contains the source's workload name, when the viewers
are queried pair after pair from world `w`. -/
def isoViolating (E : Env) : List (Instance × Instance) → World → List (Instance × Instance)
  | [], _ => []
  | pr :: rest, w =>
    (if contains (run E (isoListCmd pr.2) w).1.stdout (isoName pr.1) then [pr] else [])
      ++ isoViolating E rest (run E (isoListCmd pr.2) w).2

/-- The world after the viewers of the pairs have been queried. -/
def afterQueries (E : Env) : List (Instance × Instance) → World → World
  | [], w => w
  | pr :: rest, w => afterQueries E rest (run E (isoListCmd pr.2) w).2

/-- The phases after whose failure `runTests` returns at once. -/
def earlyReturn (n : Nat) : Bool :=
  n == 1 || n == 2 || n == 3 || n == 4 || n == 5 || n == 20

/-- The results `rs` recorded by a stretch of `count` phases numbered from `first`; `cont`
says that the stretch ran to its end (`runTests` did not return inside it).  The numbers
are consecutive from `first`; a stretch that ran to its end recorded all its phases and
none of its early-return phases failed; a stretch in which `runTests` returned ends with a
failed early-return phase and no early-return phase before it failed. -/
structure Seg (first count : Nat) (cont : Bool) (rs : List Result) : Prop where
  nums : rs.map (fun r => r.Num) = List.range' first rs.length
  len_le : rs.length ≤ count
  full : cont = true → rs.length = count
  early_ok : cont = true → ∀ r ∈ rs, earlyReturn r.Num = true → r.Passed = true
  stop : cont = false → ∃ pre r, rs = pre ++ [r] ∧
    (∀ x ∈ pre, earlyReturn x.Num = true → x.Passed = true) ∧
    r.Passed = false ∧ earlyReturn r.Num = true

/-- Going from state `s` to state `s'` records the results of a stretch of phases. -/
def Runs (s s' : St) (first count : Nat) (cont : Bool) : Prop :=
  ∃ rs, s'.results = s.results ++ rs ∧ Seg first count cont rs

/-- The index of the first of the answers `resp 0 .. resp (n-1)` with exit code 0. -/
def firstReady (resp : Nat → RunOut) : Nat → Option Nat
  | 0 => none
  | n + 1 =>
    if (resp 0).exitCode = 0 then some 0
    else (firstReady (fun i => resp (i + 1)) n).map (fun k => k + 1)

/-- The trace of `k` poll rounds that did not find the daemon: the command, then the sleep. -/
def pollRounds (cmd : String) : Nat → List Event
  | 0 => []
  | k + 1 => Event.run cmd :: Event.sleep (2 * second) :: pollRounds cmd k

/-- Number of `run` calls in a trace. -/
def invocations : List Event → Nat
  | [] => 0
  | .run _ :: es => invocations es + 1
  | _ :: es => invocations es

/-- Number of sleeps in a trace. -/
def sleeps : List Event → Nat
  | [] => 0
  | .sleep _ :: es => sleeps es + 1
  | _ :: es => sleeps es

/-- Total time slept in a trace, in nanoseconds. -/
def slept : List Event → Nat
  | [] => 0
  | .sleep d :: es => slept es + d
  | _ :: es => slept es

/-- The signer of key file `kp`, when the file can be read and parsed. -/
def usableKey (E : Env) (w : World) (kp : String) : Option String :=
  match E.readFile w.log kp with
  | .error _ => none
  | .ok data => E.parseKey data

/-- An agent connection was obtained: the variable is set and the socket answers. -/
def agentObtained (E : Env) (w : World) : Bool :=
  decide (E.authSock w.log ≠ "") && E.agentDial w.log (E.authSock w.log)

/-- An environment in which every session opens and every command exits 0 with empty
output, files are unreadable and there is no agent. -/
def quietEnv : Env where
  session := fun _ _ => .ran "" "" .none
  uploadSession := fun _ _ _ => .ran none
  latency := fun _ => 0
  sched := fun _ => []
  readFile := fun _ _ => .error "no such file"
  authSock := fun _ => ""
  agentDial := fun _ _ => false
  homeDir := "/root"
  pathJoin := fun ps => join ps "/"
  parseKey := fun _ => none
  sshDial := fun _ _ _ _ => none
  tcpDial := fun _ _ => true
  fmtSeconds := fun _ => "0.0"
  fmtQuote := fun t => t
  fmtDuration := fun _ => "0s"

/-- An environment whose sessions open but end without an exit status (the connection is
lost while the command runs): `session.Run` returns an error that is not an exit error. -/
def lostEnv : Env :=
  { quietEnv with session := fun _ _ => .ran "partial" "" (.other "wait: remote command exited without exit status or exit signal") }

/-- An environment like `quietEnv` in which every command prints the names of the
workloads of A and B: these two are visible everywhere. -/
def leakyEnv : Env :=
  { quietEnv with session := fun _ _ => .ran "iso-a-check\niso-b-check\n" "" .none }

/-- The empty world: nothing done yet, clock at zero. -/
def World.init : World := ⟨[], 0⟩

/-- Answers of a daemon that is ready at the third `docker info`: exit 1, exit 1, then
exit 0. -/
def readyAtThird : Nat → RunOut := fun i => if i < 2 then ⟨"", "", 1⟩ else ⟨"", "", 0⟩

/-- Answers of a daemon that never gets ready: always exit 1. -/
def neverReady : Nat → RunOut := fun _ => ⟨"", "", 1⟩

/-- An environment like `quietEnv` in which every local file can be read and holds a key
that parses. -/
def readableEnv : Env :=
  { quietEnv with readFile := fun _ _ => .ok "#!/bin/sh", parseKey := fun _ => some "signer" }

/-- An environment like `quietEnv` in which every command exits with status 1. -/
def failEnv : Env :=
  { quietEnv with session := fun _ _ => .ran "" "" (.exitError 1) }

/-- Go `strings.HasSuffix`. -/
def hasSuffix (s suf : String) : Bool := hasPrefixChars s.data.reverse suf.data.reverse

/-- The environments `E` and `E'` answer alike as long as fewer than `n` actions have been
performed: same sessions, same latencies. -/
def agreeBelow (E E' : Env) (n : Nat) : Prop :=
  ∀ log cmd, log.length < n → E'.session log cmd = E.session log cmd ∧ E'.latency log = E.latency log

/-- An environment like `leakyEnv` in which the connection is lost after twelve actions:
every later session is refused. -/
def lateFailEnv : Env :=
  { leakyEnv with
    session := fun log cmd =>
      if log.length < 12 then leakyEnv.session log cmd else .refused "connection lost" }

/-- The second instance, `allInstances[1]`, the first of the surviving ones. -/
def instB : Instance := surviving.headD ⟨"", "", "", "", ""⟩

/-- Answers to the probe of phase 24 when the container starts (the removal and the start
exit 0) and the inner daemon never gets ready (every later command exits 1). -/
def startedNeverReady : Nat → RunOut := fun i => if i < 2 then ⟨"", "", 0⟩ else ⟨"", "", 1⟩

/-- Answers to the probe of phase 24 when the container starts, the inner daemon is ready
at once, and the inner container fails (exit 1). -/
def startedInnerFails : Nat → RunOut := fun i => if i < 3 then ⟨"", "", 0⟩ else ⟨"", "oops", 1⟩

/-- An environment like `readableEnv` in which the inner daemon of the `dind-post-*`
containers never gets ready: `docker exec dind-post-* docker info` always exits 1. -/
def stuckPostEnv : Env :=
  { readableEnv with
    session := fun _ cmd =>
      if contains cmd "dind-post" && contains cmd "docker info" then .ran "" "" (.exitError 1)
      else .ran "" "" .none }

/-- The same goroutine body with `f` applied to the value it returns. -/
def Prog.map {α β : Type} (f : α → β) (p : Prog α) : Prog β := p.bind (fun a => .ret (f a))

/-- The call of `fn` that `forAll` launches as number `t.1` on instance `t.2`, made to
report its own number and instance next to what `fn` returned. -/
def taggedTask (fn : Instance → Prog (Bool × String)) (t : Nat × Instance) :
    Prog ((Nat × Instance) × (Bool × String)) :=
  (fn t.2).bind (fun r => .ret (t, r))

/-- What each call of `fn` returned in the run of `forAll` from world `w`: the calls,
numbered in launch order, in the order they completed, each with the value it returned in
this run. -/
def arrivals (E : Env) (instances : List Instance) (fn : Instance → Prog (Bool × String))
    (w : World) : List ((Nat × Instance) × (Bool × String)) :=
  (interleave E (E.sched w.log) (instances.enum.map (taggedTask fn)) w []).1

/-- The command that removes the container `cname` of `inst`. -/
def dindRmCmd (inst : Instance) (cname : String) : String :=
  dockerHost inst.Socket ++ " docker rm -f " ++ cname ++ " 2>/dev/null"

/-- The command that starts the DinD container `cname` of `inst`. -/
def dindStartCmd (inst : Instance) (cname : String) : String :=
  dockerHost inst.Socket ++ " docker run -d --name " ++ cname ++ " docker:26.1-dind"

/-- The inner-container command of phase 24 in the container `cname` of `inst`. -/
def innerHelloCmd (inst : Instance) (cname : String) : String :=
  dockerHost inst.Socket ++ " docker exec " ++ cname ++ " docker run --rm alpine echo inner-hello"

/-- The inner-networking command of phase 24 in the container `cname` of `inst`. -/
def innerPingCmd (inst : Instance) (cname : String) : String :=
  dockerHost inst.Socket ++ " docker exec " ++ cname ++ " docker run --rm alpine ping -c3 1.1.1.1"

/-- Answers to a DinD probe whose container starts and whose inner daemon is ready at the
third `docker info`: exit 0, exit 0, exit 1, exit 1, then exit 0. -/
def startedReadyAtThird : Nat → RunOut :=
  fun i => if i < 2 then ⟨"", "", 0⟩ else if i < 4 then ⟨"", "", 1⟩ else ⟨"", "", 0⟩

/-- The container name of phase 10, `"dind-" + strings.ToLower(inst.Label)`. -/
def dindName (inst : Instance) : String := "dind-" ++ toLower inst.Label

/-- The container name of phase 24, `"dind-post-" + strings.ToLower(inst.Label)`. -/
def dindPostName (inst : Instance) : String := "dind-post-" ++ toLower inst.Label

/-- The state in which phase `K` has just recorded its result, when the phases run one after
the other from state `s1`: phase 01; the gen-env loop over the first `K - 1` instances
(phases 02-04); phase 05; phases 06-19 and phase 20; and, for the last phase, phases 21-28.
It is meant for the numbers at which `runTests` can return: 1, 2, 3, 4, 5, 20 and 28. -/
def phasesUpTo (E : Env) (host user keyPath : String) (s1 : St) (K : Nat) : St :=
  if K = 1 then (phase01 E s1).1
  else if K ≤ 4 then (genEnvLoop E (allInstances.take (K - 1)) 0 (phase01 E s1).1).1
  else if K = 5 then (phase05 E (genEnvLoop E allInstances 0 (phase01 E s1).1).1).1
  else if K = 20 then
    (phase20 E host user keyPath
      (phases06to19 E (phase05 E (genEnvLoop E allInstances 0 (phase01 E s1).1).1).1)).1
  else
    phases21to28 E (phase20 E host user keyPath
      (phases06to19 E (phase05 E (genEnvLoop E allInstances 0 (phase01 E s1).1).1).1)).1

/-- The state, world included, in which phase `K` of a run of `runTests` from `s0` has just
recorded its result: the pre-flight, then the phases up to `K`. -/
def stateAfter (E : Env) (host user keyPath : String) (s0 : St) (K : Nat) : St :=
  phasesUpTo E host user keyPath (preflight E s0) K

/-- An environment like `readableEnv` in which every `gen-env` command exits with status 1
and prints `boom` on its standard error. -/
def genEnvFailEnv : Env :=
  { readableEnv with
    session := fun _ cmd =>
      if contains cmd "gen-env" then .ran "" "boom" (.exitError 1) else .ran "" "" .none }

/-! ## Exit status of `main` -/

theorem countPassed_le (rs : List Result) : countPassed rs ≤ rs.length := by
  induction rs with
  | nil => simp [countPassed]
  | cons r rs ih =>
    simp only [countPassed, List.length_cons]
    split <;> omega

theorem countPassed_eq_length_iff (rs : List Result) :
    countPassed rs = rs.length ↔ ∀ r ∈ rs, r.Passed = true := by
  induction rs with
  | nil => simp [countPassed]
  | cons r rs ih =>
    have hle := countPassed_le rs
    cases hr : r.Passed
    · simp only [countPassed, hr, List.length_cons, List.mem_cons, forall_eq_or_imp]
      constructor
      · intro h; simp at h; omega
      · intro h; simp at h
    · simp only [countPassed, hr, List.length_cons, List.mem_cons, forall_eq_or_imp]
      simp only [if_true, true_and]
      rw [← ih]; omega

/-- C3: after `runTests` has returned with any recorded results (the empty list included),
`main` ends with exit status 0 exactly when every recorded result passed, and with exit
status 1 exactly when at least one recorded result failed. -/
theorem main_exit_status (E : Env) (totalElapsed : Nat) (s : St) :
    ((finish E totalElapsed s).2 = 0 ↔ ∀ r ∈ s.results, r.Passed = true) ∧
    ((finish E totalElapsed s).2 = 1 ↔ ∃ r ∈ s.results, r.Passed = false) := by
  have hle := countPassed_le s.results
  have hiff := countPassed_eq_length_iff s.results
  have hex : (∃ r ∈ s.results, r.Passed = false) ↔ ¬ ∀ r ∈ s.results, r.Passed = true := by
    simp
  rw [hex, ← hiff]
  unfold finish
  by_cases h : countPassed s.results < s.results.length
  · have hne : countPassed s.results ≠ s.results.length := by omega
    simp [h, hne]
  · have heq : countPassed s.results = s.results.length := by omega
    simp [h, heq]

/-! ## The function `run` -/

/-- C8, as the specification states it, fails: in `lostEnv` the sub-session is opened and the
command ends without an exit status; `run` returns exit code 1 although the session was
not refused, with the captured stdout (not empty) and the captured stderr (not the error
text). -/
theorem run_sentinel_with_open_session :
    lostEnv.session World.init.log "docker info"
        = .ran "partial" "" (.other "wait: remote command exited without exit status or exit signal") ∧
      (run lostEnv "docker info" World.init).1 = ⟨"partial", "", 1⟩ := by
  constructor <;> rfl

/-- C8, amended: `run` never reports an error for a non-zero remote exit; it returns the
captured stdout and stderr with exit code 0 when the command succeeded and with the remote
exit status when it exited non-zero.  Exit code 1 as a sentinel is returned when the
sub-session cannot be opened, with empty stdout and the error text as stderr, and also when
the opened session fails with an error that is not an exit status, with the captured stdout
and stderr. -/
theorem run_result (E : Env) (cmd : String) (w : World) :
    (∀ out err, E.session w.log cmd = .ran out err .none → (run E cmd w).1 = ⟨out, err, 0⟩) ∧
    (∀ out err status, E.session w.log cmd = .ran out err (.exitError status) →
      (run E cmd w).1 = ⟨out, err, status⟩) ∧
    (∀ e, E.session w.log cmd = .refused e → (run E cmd w).1 = ⟨"", e, 1⟩) ∧
    (∀ out err text, E.session w.log cmd = .ran out err (.other text) →
      (run E cmd w).1 = ⟨out, err, 1⟩) := by
  refine ⟨?_, ?_, ?_, ?_⟩ <;> intros <;> simp [run, *]

theorem run_result_witness :
    (run quietEnv "true" World.init).1 = ⟨"", "", 0⟩ ∧
      (run lostEnv "true" World.init).1 = ⟨"partial", "", 1⟩ :=
  ⟨(run_result quietEnv "true" World.init).1 "" "" rfl,
   (run_result lostEnv "true" World.init).2.2.2 "partial" "" _ rfl⟩

/-! ## The function `upload` -/

theorem lastElement_no_slash (cs : List Char) : '/' ∉ lastElement cs := by
  unfold lastElement
  intro h
  rw [List.mem_reverse] at h
  have := List.mem_takeWhile_imp h
  simp at this

theorem takeWhile_dropWhile_slash (l : List Char) :
    List.takeWhile (fun c => c != '/') (List.dropWhile (fun c => c == '/') l) = [] ↔
      List.dropWhile (fun c => c == '/') l = [] := by
  induction l with
  | nil => simp
  | cons c l ih =>
    by_cases hc : c = '/'
    · subst hc
      simpa [List.dropWhile] using ih
    · have hb : (c == '/') = false := by simp [hc]
      have hb2 : (c != '/') = true := by simp [hc]
      simp only [List.dropWhile, hb, List.takeWhile, hb2]
      simp

theorem lastElement_strip_nil_iff (cs : List Char) :
    lastElement (stripTrailingSlashes cs) = [] ↔ ∀ c ∈ cs, c = '/' := by
  unfold lastElement stripTrailingSlashes
  rw [List.reverse_reverse, List.reverse_eq_nil_iff, takeWhile_dropWhile_slash,
    List.dropWhile_eq_nil_iff]
  simp

theorem base_slash_iff (t : String) :
    '/' ∈ (base t).data ↔ (t.data ≠ [] ∧ ∀ c ∈ t.data, c = '/') := by
  unfold base
  by_cases h0 : t.data = []
  · simp only [h0, if_true, ne_eq, not_true_eq_false, false_and, iff_false]
    decide
  · simp only [h0, if_false, ne_eq, not_false_eq_true, true_and]
    by_cases hp : lastElement (stripTrailingSlashes t.data) = []
    · simp only [hp, if_true]
      rw [← lastElement_strip_nil_iff]
      simp only [hp, iff_true]
      decide
    · simp only [hp, if_false]
      rw [← lastElement_strip_nil_iff]
      simp only [hp, iff_false]
      exact lastElement_no_slash _

theorem base_eq_slash_of_mem (t : String) (h : '/' ∈ (base t).data) : base t = "/" := by
  have hs := (base_slash_iff t).1 h
  unfold base
  rw [if_neg hs.1, if_pos ((lastElement_strip_nil_iff _).2 hs.2)]

/-- C5, as the specification states it, fails: for the remote name `/` the base name is `/`
itself, which contains a `/`, and the command writes to `~//`. -/
theorem upload_base_with_slash :
    '/' ∈ (base (trimPrefix "/" "~/")).data ∧
      uploadCmd "/" = "cat > ~// && chmod +x ~//" := by
  constructor <;> decide

/-- C5, amended: the one remote command `upload` issues is `cat > ~/B && chmod +x ~/B`, where
`B` is the base name of the hint after one leading `~/` is removed; `B` contains no `/`
unless that remainder is non-empty and made of `/` characters only, in which case `B` is
`/`.  The hints `level1/level2/name` and `~/level1/level2/name` both give `~/name`. -/
theorem upload_target (E : Env) (localPath hint : String) (w : World) :
    uploadCmd hint = "cat > ~/" ++ base (trimPrefix hint "~/") ++ " && chmod +x ~/"
        ++ base (trimPrefix hint "~/") ∧
    ((upload E localPath hint w).2.log = w.log ∨
      ∃ data, (upload E localPath hint w).2.log = w.log ++ [.upload (uploadCmd hint) data]) ∧
    ('/' ∈ (base (trimPrefix hint "~/")).data ↔
      ((trimPrefix hint "~/").data ≠ [] ∧ ∀ c ∈ (trimPrefix hint "~/").data, c = '/')) ∧
    ('/' ∈ (base (trimPrefix hint "~/")).data → base (trimPrefix hint "~/") = "/") ∧
    uploadCmd "level1/level2/name" = "cat > ~/name && chmod +x ~/name" ∧
    uploadCmd "~/level1/level2/name" = "cat > ~/name && chmod +x ~/name" := by
  refine ⟨rfl, ?_, base_slash_iff _, base_eq_slash_of_mem _, by decide, by decide⟩
  unfold upload
  split
  · exact Or.inl rfl
  · rename_i data _
    split
    · exact Or.inl rfl
    · exact Or.inr ⟨data, by simp [World.act]⟩

theorem upload_target_witness :
    (upload readableEnv "dist/dockyard.sh" "~/dockyard.sh" World.init).2.log
      = [.upload "cat > ~/dockyard.sh && chmod +x ~/dockyard.sh" "#!/bin/sh"] ∧
    base (trimPrefix "///" "~/") = "/" :=
  ⟨by decide,
   (upload_target readableEnv "dist/dockyard.sh" "///" World.init).2.2.2.1 (by decide)⟩

/-! ## The function `dialSSH` -/

theorem keyMethods_eq (E : Env) (w : World) (paths : List String) :
    keyMethods E w paths = (paths.filterMap (usableKey E w)).map AuthMethod.key := by
  induction paths with
  | nil => rfl
  | cons kp rest ih =>
    unfold keyMethods usableKey
    cases hr : E.readFile w.log kp with
    | error e =>
      simp only [List.filterMap_cons, hr]
      rw [ih]; rfl
    | ok data =>
      cases hp : E.parseKey data with
      | none =>
        simp only [List.filterMap_cons, hr, hp]
        rw [ih]; rfl
      | some signer =>
        simp only [List.filterMap_cons, hr, hp, List.map_cons]
        rw [ih]; rfl

theorem agentMethods_eq (E : Env) (w : World) :
    agentMethods E w = if agentObtained E w then [.agent (E.authSock w.log)] else [] := by
  unfold agentMethods agentObtained
  by_cases h1 : E.authSock w.log = "" <;> by_cases h2 : E.agentDial w.log (E.authSock w.log) = true <;>
    simp [h1, h2]

theorem authMethods_nil_iff (E : Env) (w : World) (keyPath : String) :
    (agentMethods E w ++ keyMethods E w (candidatePaths E keyPath)).length = 0 ↔
      (agentObtained E w = false ∧
        ∀ kp ∈ candidatePaths E keyPath, usableKey E w kp = none) := by
  rw [agentMethods_eq, keyMethods_eq]
  cases ha : agentObtained E w
  · simp [List.filterMap_eq_nil_iff]
  · simp

/-- C9: `dialSSH` returns the "no auth methods available" error exactly when no agent
connection was obtained and every candidate key file was unreadable or failed to parse, and
then it does not dial; unreadable and unparseable key files are skipped; otherwise it dials
`host:22` with the agent method first (when an agent connection was obtained) followed by
the usable key files in candidate order. -/
theorem dialSSH_auth (E : Env) (host user keyPath : String) (w : World) :
    ((∃ ps, (dialSSH E host user keyPath w).1 = .error (.noAuth ps)) ↔
      (agentObtained E w = false ∧
        ∀ kp ∈ candidatePaths E keyPath, usableKey E w kp = none)) ∧
    ((∃ ps, (dialSSH E host user keyPath w).1 = .error (.noAuth ps)) →
      (dialSSH E host user keyPath w).2 = w) ∧
    (¬ (agentObtained E w = false ∧
        ∀ kp ∈ candidatePaths E keyPath, usableKey E w kp = none) →
      (dialSSH E host user keyPath w).2.log = w.log ++ [.sshDial (host ++ ":22") user
        ((if agentObtained E w then [AuthMethod.agent (E.authSock w.log)] else []) ++
          ((candidatePaths E keyPath).filterMap (usableKey E w)).map AuthMethod.key)]) := by
  have hnil := authMethods_nil_iff E w keyPath
  have hmeth : agentMethods E w ++ keyMethods E w (candidatePaths E keyPath) =
      (if agentObtained E w then [AuthMethod.agent (E.authSock w.log)] else []) ++
          ((candidatePaths E keyPath).filterMap (usableKey E w)).map AuthMethod.key := by
    rw [agentMethods_eq, keyMethods_eq]
  by_cases hc : (agentMethods E w ++ keyMethods E w (candidatePaths E keyPath)).length = 0
  · have hd : dialSSH E host user keyPath w = (.error (.noAuth (candidatePaths E keyPath)), w) := by
      unfold dialSSH
      simp only [hc, if_true]
    refine ⟨⟨fun _ => hnil.1 hc, fun _ => ⟨_, by rw [hd]⟩⟩, fun _ => by rw [hd], ?_⟩
    intro hn
    exact absurd (hnil.1 hc) hn
  · have hne : ¬ (agentObtained E w = false ∧
        ∀ kp ∈ candidatePaths E keyPath, usableKey E w kp = none) := fun h => hc (hnil.2 h)
    have hd : (∀ ps, (dialSSH E host user keyPath w).1 ≠ .error (.noAuth ps)) ∧
        (dialSSH E host user keyPath w).2.log = w.log ++ [.sshDial (host ++ ":22") user
          (agentMethods E w ++ keyMethods E w (candidatePaths E keyPath))] := by
      unfold dialSSH
      simp only [hc, if_false]
      split <;> simp [World.act]
    refine ⟨⟨fun ⟨ps, h⟩ => absurd h (hd.1 ps), fun h => absurd h hne⟩,
      fun ⟨ps, h⟩ => absurd h (hd.1 ps), fun _ => ?_⟩
    rw [← hmeth]
    exact hd.2

theorem dialSSH_auth_witness :
    (dialSSH quietEnv "10.0.0.1" "root" "" World.init).2 = World.init ∧
    (dialSSH readableEnv "10.0.0.1" "root" "" World.init).2.log
      = [.sshDial "10.0.0.1:22" "root" [.key "signer", .key "signer"]] :=
  ⟨(dialSSH_auth quietEnv "10.0.0.1" "root" "" World.init).2.1 ⟨_, rfl⟩,
   (dialSSH_auth readableEnv "10.0.0.1" "root" "" World.init).2.2 (by decide)⟩

/-! ## The inner-daemon poll of phases 10 and 24 -/

theorem firstReady_some (resp : Nat → RunOut) (n k : Nat) (h : firstReady resp n = some k) :
    k < n ∧ (resp k).exitCode = 0 ∧ ∀ j, j < k → (resp j).exitCode ≠ 0 := by
  induction n generalizing resp k with
  | zero => simp [firstReady] at h
  | succ n ih =>
    unfold firstReady at h
    by_cases h0 : (resp 0).exitCode = 0
    · simp only [h0, if_true, Option.some.injEq] at h
      subst h
      exact ⟨by omega, h0, fun j hj => absurd hj (by omega)⟩
    · simp only [h0, if_false, Option.map_eq_some'] at h
      obtain ⟨k', hk', rfl⟩ := h
      obtain ⟨h1, h2, h3⟩ := ih (fun i => resp (i + 1)) k' hk'
      refine ⟨by omega, h2, fun j hj => ?_⟩
      cases j with
      | zero => exact h0
      | succ j => exact h3 j (by omega)

theorem firstReady_none (resp : Nat → RunOut) (n : Nat) (h : firstReady resp n = none) :
    ∀ j, j < n → (resp j).exitCode ≠ 0 := by
  induction n generalizing resp with
  | zero => intro j hj; omega
  | succ n ih =>
    unfold firstReady at h
    by_cases h0 : (resp 0).exitCode = 0
    · simp [h0] at h
    · simp only [h0, if_false, Option.map_eq_none'] at h
      intro j hj
      cases j with
      | zero => exact h0
      | succ j => exact ih (fun i => resp (i + 1)) h j (by omega)

theorem poll10_play (inst : Instance) (cname : String) (n : Nat) (resp : Nat → RunOut) :
    (poll10 inst cname n).play resp =
      match firstReady resp n with
      | some k => ((true, ""), pollRounds (dockerInfoCmd inst cname) k
          ++ [Event.run (dockerInfoCmd inst cname)])
      | none => ((false, "inner dockerd did not start within 120s"),
          pollRounds (dockerInfoCmd inst cname) n) := by
  induction n generalizing resp with
  | zero => rfl
  | succ n ih =>
    unfold poll10 firstReady
    by_cases h0 : (resp 0).exitCode = 0
    · simp [Prog.play, h0, pollRounds]
    · simp only [Prog.play, h0, if_false, ih]
      cases firstReady (fun i => resp (i + 1)) n <;> simp [pollRounds]

theorem poll24_play (inst : Instance) (cname : String) (n : Nat) (resp : Nat → RunOut) :
    (poll24 inst cname n).play resp =
      match firstReady resp n with
      | some k => (true, pollRounds (dockerInfoCmd inst cname) k
          ++ [Event.run (dockerInfoCmd inst cname)])
      | none => (false, pollRounds (dockerInfoCmd inst cname) n) := by
  induction n generalizing resp with
  | zero => rfl
  | succ n ih =>
    unfold poll24 firstReady
    by_cases h0 : (resp 0).exitCode = 0
    · simp [Prog.play, h0, pollRounds]
    · simp only [Prog.play, h0, if_false, ih]
      cases firstReady (fun i => resp (i + 1)) n <;> simp [pollRounds]

theorem pollRounds_counts (cmd : String) (k : Nat) (tail : List Event) :
    invocations (pollRounds cmd k ++ tail) = k + invocations tail ∧
    sleeps (pollRounds cmd k ++ tail) = k + sleeps tail ∧
    slept (pollRounds cmd k ++ tail) = k * (2 * second) + slept tail := by
  induction k with
  | zero => simp [pollRounds]
  | succ k ih =>
    obtain ⟨h1, h2, h3⟩ := ih
    have e : pollRounds cmd (k + 1) ++ tail
        = Event.run cmd :: Event.sleep (2 * second) :: (pollRounds cmd k ++ tail) := rfl
    have i1 : invocations (Event.run cmd :: Event.sleep (2 * second) :: (pollRounds cmd k ++ tail))
        = invocations (pollRounds cmd k ++ tail) + 1 := rfl
    have i2 : sleeps (Event.run cmd :: Event.sleep (2 * second) :: (pollRounds cmd k ++ tail))
        = sleeps (pollRounds cmd k ++ tail) + 1 := rfl
    have i3 : slept (Event.run cmd :: Event.sleep (2 * second) :: (pollRounds cmd k ++ tail))
        = slept (pollRounds cmd k ++ tail) + 2 * second := rfl
    rw [e, i1, i2, i3, h1, h2, h3, Nat.add_mul, Nat.one_mul]
    clear i1 i2 i3 h1 h2 h3 e
    generalize k * (2 * second) = a
    generalize 2 * second = c
    refine ⟨by omega, by omega, by omega⟩

theorem firstReady_eq_some (resp : Nat → RunOut) (n k : Nat) (hk : k < n)
    (h0 : (resp k).exitCode = 0) (hlt : ∀ j, j < k → (resp j).exitCode ≠ 0) :
    firstReady resp n = some k := by
  cases h : firstReady resp n with
  | none => exact absurd h0 (firstReady_none resp n h k hk)
  | some k' =>
    obtain ⟨_, h2, h3⟩ := firstReady_some resp n k' h
    rcases Nat.lt_trichotomy k' k with hlt' | heq | hgt
    · exact absurd h2 (hlt k' hlt')
    · rw [heq]
    · exact absurd h0 (h3 k hgt)

theorem firstReady_eq_none (resp : Nat → RunOut) (n : Nat)
    (h : ∀ j, j < n → (resp j).exitCode ≠ 0) : firstReady resp n = none := by
  cases hf : firstReady resp n with
  | none => rfl
  | some k =>
    obtain ⟨h1, h2, _⟩ := firstReady_some resp n k hf
    exact absurd h2 (h k h1)

theorem play_bind {α β : Type} (p : Prog α) (f : α → Prog β) (resp : Nat → RunOut) :
    (p.bind f).play resp =
      (((f (p.play resp).1).play (fun i => resp (i + invocations (p.play resp).2))).1,
        (p.play resp).2 ++
          ((f (p.play resp).1).play (fun i => resp (i + invocations (p.play resp).2))).2) := by
  induction p generalizing resp with
  | ret a => simp [Prog.bind, Prog.play, invocations]
  | run cmd k ih =>
    simp only [Prog.bind, Prog.play, ih, invocations, List.cons_append]
    simp only [Nat.add_assoc]
  | sleep d k ih =>
    simp only [Prog.bind, Prog.play, ih, invocations, List.cons_append]

theorem poll_play_bounds (inst : Instance) (cname : String) (resp : Nat → RunOut) :
    invocations ((poll10 inst cname 60).play resp).2 ≤ 60 ∧
    sleeps ((poll10 inst cname 60).play resp).2 ≤ 60 ∧
    slept ((poll10 inst cname 60).play resp).2 ≤ 120 * second ∧
    invocations ((poll24 inst cname 60).play resp).2 ≤ 60 ∧
    sleeps ((poll24 inst cname 60).play resp).2 ≤ 60 ∧
    slept ((poll24 inst cname 60).play resp).2 ≤ 120 * second := by
  rw [poll10_play, poll24_play]
  cases h : firstReady resp 60 with
  | none =>
    obtain ⟨h1, h2, h3⟩ := pollRounds_counts (dockerInfoCmd inst cname) 60 []
    simp only [List.append_nil] at h1 h2 h3
    simp only [h1, h2, h3, invocations, sleeps, slept]
    refine ⟨by omega, by omega, by omega, by omega, by omega, by omega⟩
  | some k =>
    obtain ⟨hk, _, _⟩ := firstReady_some resp 60 k h
    obtain ⟨h1, h2, h3⟩ := pollRounds_counts (dockerInfoCmd inst cname) k
      [Event.run (dockerInfoCmd inst cname)]
    simp only [h1, h2, h3, invocations, sleeps, slept]
    have hm : k * (2 * second) ≤ 59 * (2 * second) := Nat.mul_le_mul_right _ (by omega)
    refine ⟨by omega, by omega, by omega, by omega, by omega, by omega⟩

theorem run_log (E : Env) (cmd : String) (w : World) :
    (run E cmd w).2.log = w.log ++ [Event.run cmd] := by
  unfold run
  cases E.session w.log cmd with
  | refused e => rfl
  | ran out err res => cases res <;> rfl

theorem sleep_log (E : Env) (d : Nat) (w : World) :
    (sleep E d w).log = w.log ++ [Event.sleep d] := rfl

/-- What `play` describes is what happens when the body really runs: for every environment
there are answers under which `play` gives the value and the actions of `exec`. -/
theorem exec_play {α : Type} (E : Env) (p : Prog α) (w : World) :
    ∃ resp, (p.exec E w).1 = (p.play resp).1 ∧ (p.exec E w).2.log = w.log ++ (p.play resp).2 := by
  induction p generalizing w with
  | ret a => exact ⟨fun _ => ⟨"", "", 0⟩, rfl, by simp [Prog.exec, Prog.play]⟩
  | run cmd k ih =>
    obtain ⟨resp, h1, h2⟩ := ih (run E cmd w).1 (run E cmd w).2
    refine ⟨fun i => match i with | 0 => (run E cmd w).1 | j + 1 => resp j, ?_, ?_⟩
    · simpa [Prog.exec, Prog.play] using h1
    · simp only [Prog.exec, Prog.play]
      rw [h2, run_log]
      simp
  | sleep d k ih =>
    obtain ⟨resp, h1, h2⟩ := ih (sleep E d w)
    refine ⟨resp, ?_, ?_⟩
    · simpa [Prog.exec, Prog.play] using h1
    · simp only [Prog.exec, Prog.play]
      rw [h2, sleep_log]
      simp

/-- The probe of phase 10 whose container started runs the poll next. -/
theorem probeDinD_play (inst : Instance) (resp : Nat → RunOut) (h : (resp 1).exitCode = 0) :
    (probeDinD inst).play resp =
      (((poll10 inst ("dind-" ++ toLower inst.Label) 60).play (fun i => resp (i + 1 + 1))).1,
        Event.run (dockerHost inst.Socket ++ " docker rm -f " ++ ("dind-" ++ toLower inst.Label)
            ++ " 2>/dev/null") ::
          Event.run (dockerHost inst.Socket ++ " docker run -d --name "
            ++ ("dind-" ++ toLower inst.Label) ++ " docker:26.1-dind") ::
          ((poll10 inst ("dind-" ++ toLower inst.Label) 60).play (fun i => resp (i + 1 + 1))).2) := by
  simp [probeDinD, Prog.play, h]

/-- The probe of phase 24 whose container started and whose poll timed out returns the
timeout message without any further command. -/
theorem probeDinDPost_play_timeout (inst : Instance) (resp : Nat → RunOut)
    (h : (resp 1).exitCode = 0) (hall : ∀ j, j < 60 → (resp (j + 1 + 1)).exitCode ≠ 0) :
    (probeDinDPost inst).play resp =
      ((false, "inner dockerd did not start within 120s"),
        Event.run (dockerHost inst.Socket ++ " docker rm -f "
            ++ ("dind-post-" ++ toLower inst.Label) ++ " 2>/dev/null") ::
          Event.run (dockerHost inst.Socket ++ " docker run -d --name "
            ++ ("dind-post-" ++ toLower inst.Label) ++ " docker:26.1-dind") ::
          pollRounds (dockerInfoCmd inst ("dind-post-" ++ toLower inst.Label)) 60) := by
  have hf := firstReady_eq_none (fun i => resp (i + 1 + 1)) 60 hall
  have hp := poll24_play inst ("dind-post-" ++ toLower inst.Label) 60 (fun i => resp (i + 1 + 1))
  rw [hf] at hp
  unfold probeDinDPost
  generalize poll24 inst ("dind-post-" ++ toLower inst.Label) 60 = q at hp ⊢
  simp only [Prog.play, h, ne_eq, not_true_eq_false, if_false]
  rw [play_bind, hp]
  simp [Prog.play]

/-! ## The concurrent helper `forAll` -/

theorem strLess_iff (a b : String) : strLess a b = true ↔ a < b := by
  unfold strLess
  rw [decide_eq_true_iff]
  exact String.lt_iff_toList_lt.symm

theorem World.after_refl (w : World) : w.after w := ⟨[], by simp⟩

theorem World.after_run (E : Env) (cmd : String) {w0 w : World} (h : w0.after w) :
    w0.after (run E cmd w).2 := by
  obtain ⟨t, ht⟩ := h
  exact ⟨t ++ [Event.run cmd], by rw [run_log, ht, List.append_assoc]⟩

theorem World.after_sleep (E : Env) (d : Nat) {w0 w : World} (h : w0.after w) :
    w0.after (sleep E d w) := by
  obtain ⟨t, ht⟩ := h
  exact ⟨t ++ [Event.sleep d], by rw [sleep_log, ht, List.append_assoc]⟩

theorem exec_after {α : Type} (E : Env) (p : Prog α) {w0 w : World} (h : w0.after w) :
    w0.after (p.exec E w).2 := by
  induction p generalizing w with
  | ret a => exact h
  | run cmd k ih => exact ih _ (World.after_run E cmd h)
  | sleep d k ih => exact ih (World.after_sleep E d h)

theorem exec_returnsIn {α : Type} (E : Env) (p : Prog α) {w0 w : World} (h : w0.after w) :
    p.ReturnsIn E w0.after (p.exec E w).1 := by
  induction p generalizing w with
  | ret a => exact .ret a
  | run cmd k ih => exact .run cmd k w _ h (ih _ (World.after_run E cmd h))
  | sleep d k ih => exact .sleep d k _ (ih (World.after_sleep E d h))

theorem returnsIn_bind {α β : Type} (E : Env) (P : World → Prop) (p : Prog α)
    (f : α → Prog β) (b : β) (h : (p.bind f).ReturnsIn E P b) :
    ∃ a, p.ReturnsIn E P a ∧ (f a).ReturnsIn E P b := by
  induction p with
  | ret a => exact ⟨a, .ret a, h⟩
  | run cmd k ih =>
    cases h with
    | run _ _ w' _ hw h' =>
      obtain ⟨a, h1, h2⟩ := ih _ h'
      exact ⟨a, .run cmd k w' a hw h1, h2⟩
  | sleep d k ih =>
    cases h with
    | sleep _ _ _ h' =>
      obtain ⟨a, h1, h2⟩ := ih h'
      exact ⟨a, .sleep d k a h1, h2⟩

theorem stepAt_after {β : Type} (E : Env) (pool : List (Prog β)) (i : Nat) {w0 w : World}
    (h : w0.after w) : w0.after (stepAt E pool i w).2.2 := by
  induction pool generalizing i with
  | nil => exact h
  | cons p ps ih =>
    cases i with
    | zero =>
      cases p with
      | ret b => exact h
      | run cmd k => exact World.after_run E cmd h
      | sleep d k => exact World.after_sleep E d h
    | succ i => exact ih i

theorem stepAt_spec {β : Type} (E : Env) (P : World → Prop) (pool : List (Prog β)) (i : Nat)
    (w : World) (hw : P w) (vals' : List β)
    (h : List.Forall₂ (Prog.ReturnsIn E P) (stepAt E pool i w).1 vals') :
    ∃ vals, List.Forall₂ (Prog.ReturnsIn E P) pool vals ∧
      List.Perm ((stepAt E pool i w).2.1.toList ++ vals') vals := by
  induction pool generalizing i vals' with
  | nil => exact ⟨vals', h, by simp [stepAt]⟩
  | cons p ps ih =>
    cases i with
    | zero =>
      cases p with
      | ret b =>
        simp only [stepAt] at h ⊢
        exact ⟨b :: vals', List.Forall₂.cons (.ret b) h, by simp⟩
      | run cmd k =>
        simp only [stepAt] at h ⊢
        cases h with
        | cons h1 h2 =>
          exact ⟨_, List.Forall₂.cons (.run cmd k w _ hw h1) h2, by simp⟩
      | sleep d k =>
        simp only [stepAt] at h ⊢
        cases h with
        | cons h1 h2 =>
          exact ⟨_, List.Forall₂.cons (.sleep d k _ h1) h2, by simp⟩
    | succ i =>
      simp only [stepAt] at h ⊢
      cases h with
      | cons h1 h2 =>
        obtain ⟨vals, hv, hp⟩ := ih i _ h2
        refine ⟨_ :: vals, List.Forall₂.cons h1 hv, ?_⟩
        exact (List.perm_middle).trans (List.Perm.cons _ hp)

theorem drain_spec {β : Type} (E : Env) (pool : List (Prog β)) (w0 w : World)
    (hw : w0.after w) (ch : List β) :
    ∃ vals, List.Forall₂ (Prog.ReturnsIn E w0.after) pool vals ∧
      (drain E pool w ch).1 = ch ++ vals := by
  induction pool generalizing w ch with
  | nil => exact ⟨[], List.Forall₂.nil, by simp [drain]⟩
  | cons p ps ih =>
    obtain ⟨vals, hv, he⟩ := ih (p.exec E w).2 (exec_after E p hw) (ch ++ [(p.exec E w).1])
    exact ⟨(p.exec E w).1 :: vals, List.Forall₂.cons (exec_returnsIn E p hw) hv, by
      simp only [drain]; rw [he]; simp⟩

/-- Whatever the schedule, every goroutine of the pool sends exactly one value, and this
value is the one its body returns on the answers the environment gives to its commands in
worlds of this run. -/
theorem interleave_spec {β : Type} (E : Env) (sched : List Nat) (pool : List (Prog β))
    (w0 w : World) (hw : w0.after w) (ch : List β) :
    ∃ vals, List.Forall₂ (Prog.ReturnsIn E w0.after) pool vals ∧
      List.Perm (interleave E sched pool w ch).1 (ch ++ vals) := by
  induction sched generalizing pool w ch with
  | nil =>
    obtain ⟨vals, hv, he⟩ := drain_spec E pool w0 w hw ch
    exact ⟨vals, hv, by simp only [interleave]; rw [he]⟩
  | cons c cs ih =>
    obtain ⟨vals', hv', hp'⟩ := ih (stepAt E pool (c % pool.length) w).1
      (stepAt E pool (c % pool.length) w).2.2 (stepAt_after E pool _ hw)
      (ch ++ (stepAt E pool (c % pool.length) w).2.1.toList)
    obtain ⟨vals, hv, hp⟩ := stepAt_spec E w0.after pool (c % pool.length) w hw vals' hv'
    refine ⟨vals, hv, ?_⟩
    simp only [interleave]
    refine hp'.trans ?_
    rw [List.append_assoc]
    exact List.Perm.append_left ch hp

theorem insertFromRight_perm {α : Type} (less : α → α → Bool) (pre : List α) (x : α) :
    List.Perm (insertFromRight less pre x) (pre ++ [x]) := by
  induction pre with
  | nil => simp [insertFromRight]
  | cons y ys ih =>
    unfold insertFromRight
    split
    · exact (List.perm_append_singleton x (y :: ys)).symm
    · exact List.Perm.cons y ih

theorem sortSlice_foldl_perm {α : Type} (less : α → α → Bool) (data acc : List α) :
    List.Perm (data.foldl (insertFromRight less) acc) (acc ++ data) := by
  induction data generalizing acc with
  | nil => simp
  | cons x xs ih =>
    simp only [List.foldl_cons]
    refine (ih _).trans ?_
    have := (insertFromRight_perm less acc x).append_right xs
    simpa using this

theorem sortSlice_perm {α : Type} (less : α → α → Bool) (data : List α) :
    List.Perm (sortSlice less data) data := by
  have := sortSlice_foldl_perm less data []
  simpa [sortSlice] using this

theorem insertFromRight_sorted (pre : List instResult) (x : instResult)
    (h : List.Pairwise (fun a b : instResult => a.label ≤ b.label) pre) :
    List.Pairwise (fun a b : instResult => a.label ≤ b.label)
      (insertFromRight (fun a b => strLess a.label b.label) pre x) := by
  induction pre with
  | nil => simp [insertFromRight]
  | cons y ys ih =>
    unfold insertFromRight
    rw [List.pairwise_cons] at h
    split
    · rename_i hall
      rw [List.all_eq_true] at hall
      rw [List.pairwise_cons]
      refine ⟨fun z hz => ?_, List.pairwise_cons.2 h⟩
      exact le_of_lt ((strLess_iff _ _).1 (hall z hz))
    · rename_i hall
      rw [List.all_eq_true] at hall
      push_neg at hall
      obtain ⟨z0, hz0, hnl⟩ := hall
      have hz0x : z0.label ≤ x.label := by
        rw [← not_lt]
        intro hlt
        exact hnl ((strLess_iff _ _).2 hlt)
      have hyz0 : y.label ≤ z0.label := by
        rcases List.mem_cons.1 hz0 with rfl | hm
        · exact le_refl _
        · exact h.1 z0 hm
      rw [List.pairwise_cons]
      refine ⟨fun z hz => ?_, ih h.2⟩
      have hz' := (insertFromRight_perm _ ys x).subset hz
      rcases List.mem_append.1 hz' with hm | hm
      · exact h.1 z hm
      · rw [List.mem_singleton] at hm
        subst hm
        exact le_trans hyz0 hz0x

theorem sortSlice_foldl_sorted (data acc : List instResult)
    (h : List.Pairwise (fun a b : instResult => a.label ≤ b.label) acc) :
    List.Pairwise (fun a b : instResult => a.label ≤ b.label)
      (data.foldl (insertFromRight (fun a b => strLess a.label b.label)) acc) := by
  induction data generalizing acc with
  | nil => simpa using h
  | cons x xs ih =>
    simp only [List.foldl_cons]
    exact ih _ (insertFromRight_sorted acc x h)

theorem sortSlice_sorted (data : List instResult) :
    List.Pairwise (fun a b : instResult => a.label ≤ b.label)
      (sortSlice (fun a b => strLess a.label b.label) data) :=
  sortSlice_foldl_sorted data [] List.Pairwise.nil

theorem bind_assoc {α β γ : Type} (p : Prog α) (f : α → Prog β) (h : β → Prog γ) :
    (p.bind f).bind h = p.bind (fun a => (f a).bind h) := by
  induction p with
  | ret a => rfl
  | run cmd k ih => simp only [Prog.bind, ih]
  | sleep d k ih => simp only [Prog.bind, ih]

theorem exec_map {α β : Type} (E : Env) (f : α → β) (p : Prog α) (w : World) :
    (Prog.map f p).exec E w = (f (p.exec E w).1, (p.exec E w).2) := by
  induction p generalizing w with
  | ret a => rfl
  | run cmd k ih =>
    show ((Prog.map f (k (run E cmd w).1)).exec E (run E cmd w).2) = _
    rw [ih]
    rfl
  | sleep d k ih =>
    show ((Prog.map f k).exec E (sleep E d w)) = _
    rw [ih]
    rfl

theorem stepAt_map {α β : Type} (E : Env) (f : α → β) (pool : List (Prog α)) (i : Nat)
    (w : World) :
    stepAt E (pool.map (Prog.map f)) i w
      = ((stepAt E pool i w).1.map (Prog.map f), (stepAt E pool i w).2.1.map f,
          (stepAt E pool i w).2.2) := by
  induction pool generalizing i with
  | nil => rfl
  | cons p ps ih =>
    cases i with
    | zero => cases p <;> rfl
    | succ i =>
      show (Prog.map f p :: (stepAt E (ps.map (Prog.map f)) i w).1,
        (stepAt E (ps.map (Prog.map f)) i w).2.1, (stepAt E (ps.map (Prog.map f)) i w).2.2) = _
      rw [ih]
      rfl

theorem drain_map {α β : Type} (E : Env) (f : α → β) (pool : List (Prog α)) (w : World)
    (ch : List α) :
    drain E (pool.map (Prog.map f)) w (ch.map f)
      = ((drain E pool w ch).1.map f, (drain E pool w ch).2) := by
  induction pool generalizing w ch with
  | nil => rfl
  | cons p ps ih =>
    show drain E (ps.map (Prog.map f)) ((Prog.map f p).exec E w).2
      (ch.map f ++ [((Prog.map f p).exec E w).1]) = _
    rw [exec_map]
    have := ih (p.exec E w).2 (ch ++ [(p.exec E w).1])
    rw [List.map_append] at this
    exact this

theorem interleave_map {α β : Type} (E : Env) (f : α → β) (sched : List Nat)
    (pool : List (Prog α)) (w : World) (ch : List α) :
    interleave E sched (pool.map (Prog.map f)) w (ch.map f)
      = ((interleave E sched pool w ch).1.map f, (interleave E sched pool w ch).2) := by
  induction sched generalizing pool w ch with
  | nil => exact drain_map E f pool w ch
  | cons c cs ih =>
    simp only [interleave, List.length_map, stepAt_map]
    have := ih (stepAt E pool (c % pool.length) w).1 (stepAt E pool (c % pool.length) w).2.2
      (ch ++ (stepAt E pool (c % pool.length) w).2.1.toList)
    rw [List.map_append] at this
    have ht : ∀ o : Option α, (o.map f).toList = o.toList.map f := by
      intro o; cases o <;> rfl
    rw [ht]
    exact this

theorem probeTask_eq_map (fn : Instance → Prog (Bool × String)) (t : Nat × Instance) :
    probeTask fn t.2
      = Prog.map (fun a : (Nat × Instance) × (Bool × String) =>
          (⟨a.1.2.Label, a.2.1, a.2.2⟩ : instResult)) (taggedTask fn t) := by
  unfold probeTask taggedTask Prog.map
  rw [bind_assoc]
  rfl

theorem forAll_eq_arrivals (E : Env) (instances : List Instance)
    (fn : Instance → Prog (Bool × String)) (w : World) :
    interleave E (E.sched w.log) (instances.map (probeTask fn)) w []
      = ((arrivals E instances fn w).map
          (fun a => (⟨a.1.2.Label, a.2.1, a.2.2⟩ : instResult)),
        (interleave E (E.sched w.log) (instances.enum.map (taggedTask fn)) w []).2) := by
  have hpool : instances.map (probeTask fn)
      = (instances.enum.map (taggedTask fn)).map
          (Prog.map (fun a : (Nat × Instance) × (Bool × String) =>
            (⟨a.1.2.Label, a.2.1, a.2.2⟩ : instResult))) := by
    rw [List.map_map]
    conv_lhs => rw [← List.enum_map_snd instances, List.map_map]
    apply List.map_congr_left
    intro t _
    exact probeTask_eq_map fn t
  rw [hpool]
  exact interleave_map E _ (E.sched w.log) _ w []

theorem taggedTasks_returns (fn : Instance → Prog (Bool × String))
    (ts : List (Nat × Instance)) (vals : List ((Nat × Instance) × (Bool × String)))
    (E : Env) (P : World → Prop)
    (h : List.Forall₂ (Prog.ReturnsIn E P) (ts.map (taggedTask fn)) vals) :
    vals.map Prod.fst = ts ∧ ∀ a ∈ vals, (fn a.1.2).ReturnsIn E P a.2 := by
  induction ts generalizing vals with
  | nil =>
    cases h
    exact ⟨rfl, fun a ha => by simp at ha⟩
  | cons t rest ih =>
    simp only [List.map_cons] at h
    cases h with
    | cons h1 h2 =>
      obtain ⟨e, hr⟩ := ih _ h2
      obtain ⟨r, hr1, hr2⟩ := returnsIn_bind E P (fn t.2) _ _ h1
      cases hr2
      refine ⟨by simp [e], fun a ha => ?_⟩
      rcases List.mem_cons.1 ha with h | h
      · subst h; exact hr1
      · exact hr a h

/-- C1: for every instance list, probe function and schedule of the goroutines (hence every
completion order), `forAll` returns exactly one result per instance.  Every launched call
(numbered in launch order) completes exactly once; the results are a rearrangement of the
list that gives, for each call, its instance's label with the (ok, message) this call
returned in this run, which is what the body of `fn` returns on the answers the environment
gives to its commands in worlds of this run; `forAll` leaves the world these calls leave;
there are as many results as instances, and they are in ascending label order. -/
theorem forAll_results (E : Env) (instances : List Instance)
    (fn : Instance → Prog (Bool × String)) (w : World) :
    List.Perm ((arrivals E instances fn w).map Prod.fst) instances.enum ∧
    List.Perm (forAll E instances fn w).1
      ((arrivals E instances fn w).map (fun a => (⟨a.1.2.Label, a.2.1, a.2.2⟩ : instResult))) ∧
    (forAll E instances fn w).2
      = (interleave E (E.sched w.log) (instances.enum.map (taggedTask fn)) w []).2 ∧
    (∀ a ∈ arrivals E instances fn w, (fn a.1.2).ReturnsIn E w.after a.2) ∧
    (forAll E instances fn w).1.length = instances.length ∧
    List.Perm ((forAll E instances fn w).1.map (fun r => r.label))
      (instances.map (fun inst => inst.Label)) ∧
    List.Pairwise (fun a b : instResult => a.label ≤ b.label) (forAll E instances fn w).1 := by
  obtain ⟨vals, hv, hp⟩ :=
    interleave_spec E (E.sched w.log) (instances.enum.map (taggedTask fn)) w w
      (World.after_refl w) []
  obtain ⟨hfst, hret⟩ := taggedTasks_returns fn instances.enum vals E w.after hv
  have hp' : List.Perm (arrivals E instances fn w) vals := by simpa [arrivals] using hp
  have harr : List.Perm ((arrivals E instances fn w).map Prod.fst) instances.enum := by
    rw [← hfst]
    exact hp'.map _
  have hperm : List.Perm (forAll E instances fn w).1
      ((arrivals E instances fn w).map
        (fun a => (⟨a.1.2.Label, a.2.1, a.2.2⟩ : instResult))) := by
    unfold forAll
    simp only
    rw [forAll_eq_arrivals]
    exact sortSlice_perm _ _
  have hlab : ((arrivals E instances fn w).map
      (fun a => (⟨a.1.2.Label, a.2.1, a.2.2⟩ : instResult))).map (fun r => r.label)
      = ((arrivals E instances fn w).map Prod.fst).map (fun t => t.2.Label) := by
    simp [List.map_map, Function.comp_def]
  have henum : instances.enum.map (fun t : Nat × Instance => t.2.Label)
      = instances.map (fun inst => inst.Label) := by
    conv_rhs => rw [← List.enum_map_snd instances, List.map_map]
    rfl
  have hlab2 : List.Perm ((forAll E instances fn w).1.map (fun r => r.label))
      (instances.map (fun inst => inst.Label)) := by
    refine (hperm.map _).trans ?_
    rw [hlab, ← henum]
    exact harr.map _
  have hlen : (arrivals E instances fn w).length = instances.length := by
    have := harr.length_eq
    simpa using this
  refine ⟨harr, hperm, ?_, fun a ha => hret a (hp'.subset ha), ?_, hlab2, sortSlice_sorted _⟩
  · unfold forAll
    simp only
    rw [forAll_eq_arrivals]
  · rw [hperm.length_eq, List.length_map, hlen]

/-- In `failEnv` every `systemctl is-active` exits 1, and `forAll` reports all three
instances as failed, in label order. -/
theorem forAll_failEnv :
    (forAll failEnv allInstances probeActive World.init).1
      = [⟨"A", false, "dy1_docker not active"⟩, ⟨"B", false, "dy2_docker not active"⟩,
         ⟨"C", false, "dy3_docker not active"⟩] ∧
    arrivals failEnv allInstances probeActive World.init
      = [((0, ⟨"A", "dy1_", "/dy1", "~/dy1.env", "/dy1/run/docker.sock"⟩), (false, "dy1_docker not active")),
         ((1, ⟨"B", "dy2_", "/dy2", "~/dy2.env", "/dy2/run/docker.sock"⟩), (false, "dy2_docker not active")),
         ((2, ⟨"C", "dy3_", "/dy3", "~/dy3.env", "/dy3/run/docker.sock"⟩), (false, "dy3_docker not active"))] := by
  constructor <;> decide

theorem stepAt_ret_at {β : Type} (E : Env) (l1 l2 : List β) (v : β) (w : World) :
    stepAt E ((l1 ++ v :: l2).map Prog.ret) l1.length w
      = ((l1 ++ l2).map Prog.ret, some v, w) := by
  induction l1 with
  | nil => simp [stepAt]
  | cons a l1 ih =>
    show (Prog.ret a :: (stepAt E ((l1 ++ v :: l2).map Prog.ret) l1.length w).1,
      (stepAt E ((l1 ++ v :: l2).map Prog.ret) l1.length w).2.1,
      (stepAt E ((l1 ++ v :: l2).map Prog.ret) l1.length w).2.2) = _
    rw [ih]
    rfl

/-- The schedules cover every completion order: when the goroutines only have their value
left to send, any rearrangement of the values is the arrival order of some schedule. -/
theorem interleave_any_order {β : Type} (E : Env) (w : World) (order vals : List β)
    (h : List.Perm order vals) :
    ∃ sched, ∀ ch, (interleave E sched (vals.map Prog.ret) w ch).1 = ch ++ order := by
  induction order generalizing vals with
  | nil =>
    have : vals = [] := List.Perm.eq_nil h.symm
    subst this
    exact ⟨[], fun ch => by simp [interleave, drain]⟩
  | cons v rest ih =>
    have hmem : v ∈ vals := h.subset (List.mem_cons_self v rest)
    obtain ⟨l1, l2, rfl⟩ := List.append_of_mem hmem
    have hrest : List.Perm rest (l1 ++ l2) :=
      List.Perm.cons_inv (h.trans List.perm_middle)
    obtain ⟨sched, hs⟩ := ih (l1 ++ l2) hrest
    refine ⟨l1.length :: sched, fun ch => ?_⟩
    have hlt : l1.length % ((l1 ++ v :: l2).map (Prog.ret : β → Prog β)).length = l1.length := by
      apply Nat.mod_eq_of_lt
      simp
    simp only [interleave]
    rw [hlt, stepAt_ret_at]
    simp only [Option.toList]
    rw [hs]
    simp

/-! ## The isolation check -/

theorem isoStart_eq (E : Env) (instances : List Instance) (w : World) :
    isoStart E instances w
      = ((isoSources E instances w).map (fun i => (⟨i, isoName i⟩ : cinfo)),
          afterStarts E instances w) := by
  induction instances generalizing w with
  | nil => rfl
  | cons inst rest ih =>
    simp only [isoStart, isoSources, afterStarts, isoStartCmd, isoRmCmd] at ih ⊢
    rw [ih]
    split <;> simp

theorem isoViolating_append (E : Env) (p1 p2 : List (Instance × Instance)) (w : World) :
    isoViolating E (p1 ++ p2) w = isoViolating E p1 w ++ isoViolating E p2 (afterQueries E p1 w) ∧
    afterQueries E (p1 ++ p2) w = afterQueries E p2 (afterQueries E p1 w) := by
  induction p1 generalizing w with
  | nil => exact ⟨rfl, rfl⟩
  | cons pr rest ih =>
    obtain ⟨h1, h2⟩ := ih (run E (isoListCmd pr.2) w).2
    refine ⟨?_, ?_⟩
    · show (if contains (run E (isoListCmd pr.2) w).1.stdout (isoName pr.1) then [pr] else [])
          ++ isoViolating E (rest ++ p2) (run E (isoListCmd pr.2) w).2
        = ((if contains (run E (isoListCmd pr.2) w).1.stdout (isoName pr.1) then [pr] else [])
          ++ isoViolating E rest (run E (isoListCmd pr.2) w).2)
          ++ isoViolating E p2 (afterQueries E rest (run E (isoListCmd pr.2) w).2)
      rw [h1, List.append_assoc]
    · show afterQueries E (rest ++ p2) (run E (isoListCmd pr.2) w).2
        = afterQueries E p2 (afterQueries E rest (run E (isoListCmd pr.2) w).2)
      exact h2

theorem isoView_eq (E : Env) (src : Instance) (viewers : List Instance) (w : World) :
    isoView E ⟨src, isoName src⟩ viewers w
      = ((isoViolating E ((viewers.filter (fun v => decide (src.Label ≠ v.Label))).map
            (fun v => (src, v))) w).map (fun pr => isoMsg ⟨pr.1, isoName pr.1⟩ pr.2),
          afterQueries E ((viewers.filter (fun v => decide (src.Label ≠ v.Label))).map
            (fun v => (src, v))) w) := by
  induction viewers generalizing w with
  | nil => rfl
  | cons v rest ih =>
    unfold isoView
    by_cases hl : src.Label = v.Label
    · simp only [hl, if_true]
      rw [← hl, ih]
      simp [List.filter, hl]
    · simp only [hl, if_false]
      rw [ih]
      have hf : List.filter (fun v => decide (src.Label ≠ v.Label)) (v :: rest)
          = v :: List.filter (fun v => decide (src.Label ≠ v.Label)) rest := by
        simp [List.filter, hl]
      rw [hf]
      simp only [List.map_cons, isoViolating, afterQueries]
      split <;> simp

theorem isoCheck_eq (E : Env) (instances sources : List Instance) (w : World)
    (hlab : ∀ s ∈ sources, ∀ v ∈ instances, (s.Label ≠ v.Label ↔ s ≠ v)) :
    isoCheck E instances (sources.map (fun i => (⟨i, isoName i⟩ : cinfo))) w
      = ((isoViolating E (isoPairs instances sources) w).map
            (fun pr => isoMsg ⟨pr.1, isoName pr.1⟩ pr.2),
          afterQueries E (isoPairs instances sources) w) := by
  induction sources generalizing w with
  | nil => rfl
  | cons src rest ih =>
    have hfilter : instances.filter (fun v => decide (src.Label ≠ v.Label))
        = instances.filter (fun v => decide (src ≠ v)) := by
      apply List.filter_congr
      intro v hv
      have := hlab src (List.mem_cons_self _ _) v hv
      by_cases h : src = v
      · simp [h]
      · simp [h, this.2 h]
    simp only [List.map_cons, isoCheck, isoPairs]
    rw [isoView_eq, hfilter, ih _ (fun s hs => hlab s (List.mem_cons_of_mem _ hs))]
    rw [(isoViolating_append E _ _ w).1, (isoViolating_append E _ _ w).2]
    simp

theorem isoSources_subset (E : Env) (instances : List Instance) (w : World) :
    ∀ s ∈ isoSources E instances w, s ∈ instances := by
  induction instances generalizing w with
  | nil => intro s hs; simp [isoSources] at hs
  | cons inst rest ih =>
    intro s hs
    simp only [isoSources, List.mem_append] at hs
    rcases hs with h | h
    · split at h
      · simp at h; simp [h]
      · simp at h
    · exact List.mem_cons_of_mem _ (ih _ s h)

theorem isoViolating_sublist (E : Env) (pairs : List (Instance × Instance)) (w : World) :
    List.Sublist (isoViolating E pairs w) pairs := by
  induction pairs generalizing w with
  | nil => exact List.Sublist.slnil
  | cons pr rest ih =>
    simp only [isoViolating]
    split
    · exact (ih _).cons₂ pr
    · exact (ih _).cons pr

theorem afterStarts_log (E : Env) (instances : List Instance) (w : World) :
    (afterStarts E instances w).log
      = w.log ++ instances.flatMap (fun i => [Event.run (isoRmCmd i), Event.run (isoStartCmd i)]) := by
  induction instances generalizing w with
  | nil => simp [afterStarts]
  | cons inst rest ih =>
    simp only [afterStarts, ih, run_log, List.flatMap_cons, List.append_assoc]
    rfl

theorem afterQueries_log (E : Env) (pairs : List (Instance × Instance)) (w : World) :
    (afterQueries E pairs w).log = w.log ++ pairs.map (fun pr => Event.run (isoListCmd pr.2)) := by
  induction pairs generalizing w with
  | nil => simp [afterQueries]
  | cons pr rest ih =>
    simp only [afterQueries, ih, run_log, List.map_cons, List.append_assoc]
    rfl

theorem isoCleanup_log (E : Env) (sources : List Instance) (w : World) :
    (isoCleanup E (sources.map (fun i => (⟨i, isoName i⟩ : cinfo))) w).log
      = w.log ++ sources.map (fun i => Event.run (isoRmCmd i)) := by
  induction sources generalizing w with
  | nil => simp [isoCleanup]
  | cons src rest ih =>
    simp only [List.map_cons, isoCleanup, ih, run_log, List.append_assoc]
    rfl

theorem checkIsolation_eq (E : Env) (instances : List Instance) (w : World)
    (hnd : (instances.map (fun i => i.Label)).Nodup) :
    checkIsolation E instances w
      = ((isoViolating E (isoPairs instances (isoSources E instances w))
            (afterStarts E instances w)).map (fun pr => isoMsg ⟨pr.1, isoName pr.1⟩ pr.2),
          isoCleanup E ((isoSources E instances w).map (fun i => (⟨i, isoName i⟩ : cinfo)))
            (afterQueries E (isoPairs instances (isoSources E instances w))
              (afterStarts E instances w))) := by
  have hlab : ∀ s ∈ isoSources E instances w, ∀ v ∈ instances, (s.Label ≠ v.Label ↔ s ≠ v) := by
    intro s hs v hv
    constructor
    · intro h he; exact h (by rw [he])
    · intro h he
      exact h (List.inj_on_of_nodup_map hnd (isoSources_subset E instances w s hs) hv he)
  unfold checkIsolation
  simp only [isoStart_eq]
  rw [isoCheck_eq E instances _ _ hlab]

theorem checkIsolation_log (E : Env) (instances : List Instance) (w : World)
    (hnd : (instances.map (fun i => i.Label)).Nodup) :
    (checkIsolation E instances w).2.log
      = w.log ++ instances.flatMap (fun i => [Event.run (isoRmCmd i), Event.run (isoStartCmd i)])
        ++ (isoPairs instances (isoSources E instances w)).map (fun pr => Event.run (isoListCmd pr.2))
        ++ (isoSources E instances w).map (fun i => Event.run (isoRmCmd i)) := by
  rw [checkIsolation_eq E instances w hnd]
  simp only [isoCleanup_log, afterQueries_log, afterStarts_log]

theorem mem_isoPairs (instances sources : List Instance) (pr : Instance × Instance) :
    pr ∈ isoPairs instances sources ↔ (pr.1 ∈ sources ∧ pr.2 ∈ instances ∧ pr.1 ≠ pr.2) := by
  induction sources with
  | nil => simp [isoPairs]
  | cons src rest ih =>
    simp only [isoPairs, List.mem_append, List.mem_map, List.mem_filter, decide_eq_true_eq, ih,
      List.mem_cons]
    constructor
    · rintro (⟨v, ⟨hv, hne⟩, rfl⟩ | ⟨h1, h2, h3⟩)
      · exact ⟨Or.inl rfl, hv, hne⟩
      · exact ⟨Or.inr h1, h2, h3⟩
    · rintro ⟨h1 | h1, h2, h3⟩
      · exact Or.inl ⟨pr.2, ⟨h2, by rw [← h1]; exact h3⟩, by rw [← h1]⟩
      · exact Or.inr ⟨h1, h2, h3⟩

/-- C4: for an instance list with pairwise distinct labels, `checkIsolation` returns exactly
one message for each ordered pair (source, viewer) of distinct instances such that the
source's workload `iso-<lowercase label>-check` was started with exit code 0 and the
viewer's listing, queried for that pair, contains the name, in pair order, and no other
message; each message names the workload, the source label and the viewer label.  The
viewers range over all instances, whether their own start succeeded or not: one listing
query is issued per pair. -/
theorem checkIsolation_violations (E : Env) (instances : List Instance) (w : World)
    (hnd : (instances.map (fun i => i.Label)).Nodup) :
    (checkIsolation E instances w).1
      = (isoViolating E (isoPairs instances (isoSources E instances w))
          (afterStarts E instances w)).map
          (fun pr => "container " ++ ("iso-" ++ toLower pr.1.Label ++ "-check") ++ " (from "
            ++ pr.1.Label ++ ") visible in " ++ pr.2.Label ++ "'s docker ps — daemon not isolated") ∧
    List.Sublist
      (isoViolating E (isoPairs instances (isoSources E instances w)) (afterStarts E instances w))
      (isoPairs instances (isoSources E instances w)) ∧
    (∀ pr, pr ∈ isoPairs instances (isoSources E instances w) ↔
      (pr.1 ∈ isoSources E instances w ∧ pr.2 ∈ instances ∧ pr.1 ≠ pr.2)) ∧
    (∀ s ∈ isoSources E instances w, s ∈ instances) ∧
    (checkIsolation E instances w).2.log
      = w.log ++ instances.flatMap (fun i => [Event.run (isoRmCmd i), Event.run (isoStartCmd i)])
        ++ (isoPairs instances (isoSources E instances w)).map (fun pr => Event.run (isoListCmd pr.2))
        ++ (isoSources E instances w).map (fun i => Event.run (isoRmCmd i)) := by
  refine ⟨?_, isoViolating_sublist E _ _, mem_isoPairs instances _, isoSources_subset E instances w,
    checkIsolation_log E instances w hnd⟩
  rw [checkIsolation_eq E instances w hnd]
  rfl

theorem checkIsolation_violations_witness :
    (checkIsolation leakyEnv allInstances World.init).1
      = [ "container iso-a-check (from A) visible in B's docker ps — daemon not isolated",
          "container iso-a-check (from A) visible in C's docker ps — daemon not isolated",
          "container iso-b-check (from B) visible in A's docker ps — daemon not isolated",
          "container iso-b-check (from B) visible in C's docker ps — daemon not isolated" ] := by
  rw [(checkIsolation_violations leakyEnv allInstances World.init (by decide)).1]
  decide

/-! ## The phase sequence of `runTests` -/

theorem Runs.same {s s' : St} {first : Nat} (h : s'.results = s.results) :
    Runs s s' first 0 true :=
  ⟨[], by simp [h], ⟨rfl, by simp, fun _ => rfl, fun _ r hr => by simp at hr,
    fun h => by simp at h⟩⟩

theorem Runs.single {s s' : St} {n : Nat} {r : Result}
    (h : s'.results = s.results ++ [r]) (hn : r.Num = n) (he : earlyReturn n = false) :
    Runs s s' n 1 true :=
  ⟨[r], h, ⟨by simp [hn], by simp, fun _ => rfl,
    fun _ x hx hex => by
      rw [List.mem_singleton] at hx
      subst hx
      rw [hn, he] at hex
      exact absurd hex (by decide),
    fun h => by simp at h⟩⟩

theorem Runs.single_early {s s' : St} {n : Nat} {r : Result} {cont : Bool}
    (h : s'.results = s.results ++ [r]) (hn : r.Num = n) (he : earlyReturn n = true)
    (hp : r.Passed = cont) : Runs s s' n 1 cont :=
  ⟨[r], h, ⟨by simp [hn], by simp, fun _ => rfl,
    fun hc x hx _ => by
      rw [List.mem_singleton] at hx
      subst hx
      rw [hp, hc],
    fun hc => ⟨[], r, rfl, fun x hx => by simp at hx, by rw [hp, hc], by rw [hn, he]⟩⟩⟩

theorem Runs.trans {s s' s'' : St} {a n m : Nat} {c : Bool}
    (h1 : Runs s s' a n true) (h2 : Runs s' s'' (a + n) m c) : Runs s s'' a (n + m) c := by
  obtain ⟨rs1, e1, g1⟩ := h1
  obtain ⟨rs2, e2, g2⟩ := h2
  have hl1 : rs1.length = n := g1.full rfl
  refine ⟨rs1 ++ rs2, by rw [e2, e1, List.append_assoc], ⟨?_, ?_, ?_, ?_, ?_⟩⟩
  · rw [List.map_append, g1.nums, g2.nums, hl1, List.length_append, hl1, Nat.add_comm n rs2.length]
    exact List.range'_append_1 a n rs2.length
  · rw [List.length_append, hl1]
    have := g2.len_le
    omega
  · intro hc
    rw [List.length_append, hl1, g2.full hc]
  · intro hc r hr
    rcases List.mem_append.1 hr with h | h
    · exact g1.early_ok rfl r h
    · exact g2.early_ok hc r h
  · intro hc
    obtain ⟨pre, r, hr, hpre, hf, he⟩ := g2.stop hc
    refine ⟨rs1 ++ pre, r, by rw [hr, List.append_assoc], ?_, hf, he⟩
    intro x hx
    rcases List.mem_append.1 hx with h | h
    · exact g1.early_ok rfl x h
    · exact hpre x h

theorem Runs.cons {s s' s'' : St} {a m : Nat} {c : Bool}
    (h1 : Runs s s' a 1 true) (h2 : Runs s' s'' (a + 1) m c) : Runs s s'' a (m + 1) c := by
  rw [Nat.add_comm m 1]
  exact Runs.trans h1 h2

theorem Runs.stopped_mono {s s' : St} {a n m : Nat} (h : Runs s s' a n false) (hnm : n ≤ m) :
    Runs s s' a m false := by
  obtain ⟨rs, e, g⟩ := h
  exact ⟨rs, e, ⟨g.nums, le_trans g.len_le hnm, fun h => by simp at h,
    fun h => by simp at h, g.stop⟩⟩

theorem Runs.of_results_eq {s s' t : St} {a n : Nat} {c : Bool} (h : Runs s s' a n c)
    (ht : t.results = s.results) : Runs t s' a n c := by
  obtain ⟨rs, e, g⟩ := h
  exact ⟨rs, by rw [e, ht], g⟩

theorem pass_results (E : Env) (num : Nat) (name : String) (d : Nat) (s : St) :
    (pass E num name d s).results = s.results ++ [⟨num, name, true, "", d⟩] := rfl

theorem fail_results (E : Env) (num : Nat) (name msg : String) (d : Nat) (s : St) :
    (fail E num name msg d s).results = s.results ++ [⟨num, name, false, msg, d⟩] := rfl

theorem St.run_results (E : Env) (cmd : String) (s : St) :
    (s.run E cmd).2.results = s.results := rfl

theorem phase01_runs (E : Env) (s : St) : Runs s (phase01 E s).1 1 1 (phase01 E s).2 := by
  unfold phase01
  simp only
  split
  · exact Runs.single_early (fail_results _ _ _ _ _ _) rfl rfl rfl
  · exact Runs.single_early (pass_results _ _ _ _ _) rfl rfl rfl

theorem genEnvLoop_runs (E : Env) (insts : List Instance) (i : Nat) (s : St)
    (hi : i + insts.length ≤ 3) :
    Runs s (genEnvLoop E insts i s).1 (i + 2) insts.length (genEnvLoop E insts i s).2 := by
  induction insts generalizing i s with
  | nil => exact Runs.same rfl
  | cons inst rest ih =>
    simp only [List.length_cons] at hi
    have he : earlyReturn (i + 2) = true := by
      have : i ≤ 2 := by omega
      interval_cases i <;> rfl
    unfold genEnvLoop
    simp only
    split
    · refine Runs.stopped_mono (Runs.single_early (fail_results _ _ _ _ _ _) rfl he rfl) ?_
      simp
    · apply Runs.cons
      case h2 => exact ih (i + 1) _ (by omega)
      case h1 => exact Runs.single_early (pass_results _ _ _ _ _) rfl he rfl

theorem phase05_runs (E : Env) (s : St) : Runs s (phase05 E s).1 5 1 (phase05 E s).2 := by
  unfold phase05
  simp only
  split
  · exact Runs.single_early (fail_results _ _ _ _ _ _) rfl rfl rfl
  · exact Runs.single_early (pass_results _ _ _ _ _) rfl rfl rfl

theorem forAllPhase_runs (E : Env) (num : Nat) (passName failName : String)
    (instances : List Instance) (fn : Instance → Prog (Bool × String)) (s : St)
    (he : earlyReturn num = false) :
    Runs s (forAllPhase E num passName failName instances fn s) num 1 true := by
  unfold forAllPhase
  simp only
  split
  · exact Runs.single (pass_results _ _ _ _ _) rfl he
  · exact Runs.single (fail_results _ _ _ _ _ _) rfl he

theorem phase13_runs (E : Env) (s : St) : Runs s (phase13 E s) 13 1 true := by
  unfold phase13
  simp only
  split
  · exact Runs.single (pass_results _ _ _ _ _) rfl rfl
  · exact Runs.single (fail_results _ _ _ _ _ _) rfl rfl

theorem phase14_runs (E : Env) (s : St) : Runs s (phase14 E s) 14 1 true := by
  unfold phase14
  simp only
  split
  · exact Runs.single (fail_results _ _ _ _ _ _) rfl rfl
  · split
    · exact Runs.single (fail_results _ _ _ _ _ _) rfl rfl
    · split
      · exact Runs.single (fail_results _ _ _ _ _ _) rfl rfl
      · split
        · exact Runs.single (fail_results _ _ _ _ _ _) rfl rfl
        · exact Runs.single (pass_results _ _ _ _ _) rfl rfl

theorem phase16_runs (E : Env) (s : St) : Runs s (phase16 E s) 16 1 true := by
  unfold phase16
  simp only
  split
  · exact Runs.single (fail_results _ _ _ _ _ _) rfl rfl
  · exact Runs.single (pass_results _ _ _ _ _) rfl rfl

theorem phase17_runs (E : Env) (s : St) : Runs s (phase17 E s) 17 1 true := by
  unfold phase17
  simp only
  split
  · exact Runs.single (fail_results _ _ _ _ _ _) rfl rfl
  · exact Runs.single (pass_results _ _ _ _ _) rfl rfl

theorem phase18_runs (E : Env) (s : St) : Runs s (phase18 E s) 18 1 true := by
  unfold phase18
  simp only
  split
  · exact Runs.single (pass_results _ _ _ _ _) rfl rfl
  · exact Runs.single (fail_results _ _ _ _ _ _) rfl rfl

theorem phase20Dial_runs (E : Env) (start : Nat) (s s3 : St) (c : Except DialErr Unit × World)
    (h3 : s3.results = s.results) :
    Runs s (phase20Dial E start s3 c).1 20 1 (phase20Dial E start s3 c).2 := by
  unfold phase20Dial
  split
  · exact Runs.single_early ((fail_results _ _ _ _ _ _).trans (by rw [← h3])) rfl rfl rfl
  · exact Runs.single_early ((pass_results _ _ _ _ _).trans (by rw [← h3])) rfl rfl rfl

theorem phase20Wait_runs (E : Env) (host user keyPath : String) (start : Nat) (s s3 : St)
    (r : Option String × World) (h3 : s3.results = s.results) :
    Runs s (phase20Wait E host user keyPath start s3 r).1 20 1
      (phase20Wait E host user keyPath start s3 r).2 := by
  unfold phase20Wait
  split
  · exact Runs.single_early ((fail_results _ _ _ _ _ _).trans (by rw [← h3])) rfl rfl rfl
  · exact phase20Dial_runs E start s s3 _ h3

theorem phase20_runs (E : Env) (host user keyPath : String) (s : St) :
    Runs s (phase20 E host user keyPath s).1 20 1 (phase20 E host user keyPath s).2 :=
  phase20Wait_runs E host user keyPath s.world.now s (rebootHost E s) _ rfl

theorem destroyLoop_runs (E : Env) (insts : List Instance) (i : Nat) (s : St)
    (hi : i + insts.length ≤ 2) :
    Runs s (destroyLoop E insts i s) (25 + i) insts.length true := by
  induction insts generalizing i s with
  | nil => exact Runs.same rfl
  | cons inst rest ih =>
    simp only [List.length_cons] at hi
    have he : earlyReturn (25 + i) = false := by
      have : i ≤ 1 := by omega
      interval_cases i <;> rfl
    unfold destroyLoop
    simp only
    split
    · apply Runs.cons
      case h2 => exact ih (i + 1) _ (by omega)
      case h1 => exact Runs.single (fail_results _ _ _ _ _ _) rfl he
    · apply Runs.cons
      case h2 => exact ih (i + 1) _ (by omega)
      case h1 => exact Runs.single (pass_results _ _ _ _ _) rfl he

theorem cleanLoop1_results (E : Env) (insts : List Instance) (acc : List String) (s : St) :
    (cleanLoop1 E insts acc s).2.results = s.results := by
  induction insts generalizing acc s with
  | nil => rfl
  | cons inst rest ih =>
    unfold cleanLoop1
    simp only
    rw [ih]
    rfl

theorem cleanLoop2_results (E : Env) (insts : List Instance) (acc : List String) (s : St) :
    (cleanLoop2 E insts acc s).2.results = s.results := by
  induction insts generalizing acc s with
  | nil => rfl
  | cons inst rest ih =>
    unfold cleanLoop2
    simp only
    rw [ih]
    rfl

theorem phase27_runs (E : Env) (s : St) : Runs s (phase27 E s) 27 1 true := by
  have hres : (cleanLoop2 E surviving (cleanLoop1 E surviving [] s).1
      (cleanLoop1 E surviving [] s).2).2.results = s.results := by
    rw [cleanLoop2_results, cleanLoop1_results]
  unfold phase27
  simp only
  split
  · exact Runs.single ((pass_results _ _ _ _ _).trans (by rw [hres])) rfl rfl
  · exact Runs.single ((fail_results _ _ _ _ _ _).trans (by rw [hres])) rfl rfl

theorem nested_results (E : Env) (s : St) :
    (nestedDestroy E (nestedRun E (nestedCreate E (nestedGenEnv E s)))).st.results = s.results := by
  have h1 : (nestedGenEnv E s).st.results = s.results := by
    unfold nestedGenEnv; simp only; split <;> rfl
  have h2 : ∀ n, (nestedCreate E n).st.results = n.st.results := by
    intro n; unfold nestedCreate; split
    · simp only; split <;> rfl
    · rfl
  have h3 : ∀ n, (nestedRun E n).st.results = n.st.results := by
    intro n; unfold nestedRun; split
    · simp only; split <;> rfl
    · rfl
  have h4 : ∀ n, (nestedDestroy E n).st.results = n.st.results := by
    intro n; unfold nestedDestroy; split
    · simp only; split
      · rfl
      · split <;> rfl
    · rfl
  rw [h4, h3, h2, h1]

theorem phase28_runs (E : Env) (s : St) : Runs s (phase28 E s) 28 1 true := by
  have hres := nested_results E { s with world := runAll E nestedPreCmds s.world }
  unfold phase28
  simp only
  split
  · exact Runs.single ((pass_results _ _ _ _ _).trans (by rw [hres])) rfl rfl
  · exact Runs.single ((fail_results _ _ _ _ _ _).trans (by rw [hres])) rfl rfl

theorem Runs.snoc {s s' s'' : St} {a n b : Nat} {c : Bool}
    (h1 : Runs s s' a n true) (h2 : Runs s' s'' b 1 c) (hb : b = a + n) :
    Runs s s'' a (n + 1) c := by
  subst hb
  exact Runs.trans h1 h2

theorem Runs.then_same {s s' : St} {a n : Nat} {c : Bool} (s'' : St)
    (h : Runs s s' a n c) (e : s''.results = s'.results) : Runs s s'' a n c := by
  obtain ⟨rs, e1, g⟩ := h
  exact ⟨rs, by rw [e, e1], g⟩

theorem phases06to19_runs (E : Env) (s : St) : Runs s (phases06to19 E s) 6 14 true := by
  unfold phases06to19
  exact ((((((((((((((((Runs.same rfl : Runs s s 6 0 true).snoc
    (forAllPhase_runs E 6 _ _ allInstances probeActive _ rfl) rfl).snoc
    (forAllPhase_runs E 7 _ _ allInstances probeHello _ rfl) rfl).snoc
    (forAllPhase_runs E 8 _ _ allInstances probePing _ rfl) rfl).snoc
    (forAllPhase_runs E 9 _ _ allInstances probeDNS _ rfl) rfl).snoc
    (forAllPhase_runs E 10 _ _ allInstances probeDinD _ rfl) rfl).snoc
    (forAllPhase_runs E 11 _ _ allInstances probeInner _ rfl) rfl).snoc
    (forAllPhase_runs E 12 _ _ allInstances probeInnerPing _ rfl) rfl).snoc
    (phase13_runs E _) rfl).then_same (dindCleanup E _) rfl).snoc
    (phase14_runs E _) rfl).snoc
    (forAllPhase_runs E 15 _ _ allInstances (probeSocket E) _ rfl) rfl).snoc
    (phase16_runs E _) rfl).snoc
    (phase17_runs E _) rfl).snoc
    (phase18_runs E _) rfl).snoc
    (forAllPhase_runs E 19 _ _ surviving probePing _ rfl) rfl)

theorem phases21to28_runs (E : Env) (s : St) : Runs s (phases21to28 E s) 21 8 true := by
  unfold phases21to28
  have hd : ∀ t, Runs t (destroyLoop E surviving 0 t) 25 2 true :=
    fun t => destroyLoop_runs E surviving 0 t (by decide)
  exact Runs.snoc (Runs.snoc (Runs.trans (((((Runs.same rfl : Runs s s 21 0 true).snoc
    (forAllPhase_runs E 21 _ _ surviving probeActive _ rfl) rfl).snoc
    (forAllPhase_runs E 22 _ _ surviving probeHello _ rfl) rfl).snoc
    (forAllPhase_runs E 23 _ _ surviving probePing _ rfl) rfl).snoc
    (forAllPhase_runs E 24 _ _ surviving probeDinDPost _ rfl) rfl)
    (hd _)) (phase27_runs E _) rfl) (phase28_runs E _) rfl

theorem runPhases_runs (E : Env) (host user keyPath : String) (s1 : St) :
    ∃ cont, Runs s1 (runPhases E host user keyPath s1) 1 28 cont := by
  unfold runPhases
  simp only
  have h1 := phase01_runs E s1
  split
  · rename_i hc
    refine ⟨false, ?_⟩
    have hf : (phase01 E s1).2 = false := by simpa using hc
    rw [hf] at h1
    exact Runs.stopped_mono h1 (by decide)
  · rename_i hc
    have ht : (phase01 E s1).2 = true := by simpa using hc
    rw [ht] at h1
    have h2 := genEnvLoop_runs E allInstances 0 (phase01 E s1).1 (by decide)
    split
    · rename_i hc2
      refine ⟨false, ?_⟩
      have hf : (genEnvLoop E allInstances 0 (phase01 E s1).1).2 = false := by simpa using hc2
      rw [hf] at h2
      exact Runs.stopped_mono (Runs.trans h1 h2) (by decide)
    · rename_i hc2
      have ht2 : (genEnvLoop E allInstances 0 (phase01 E s1).1).2 = true := by simpa using hc2
      rw [ht2] at h2
      have h12 : Runs s1 (genEnvLoop E allInstances 0 (phase01 E s1).1).1 1 4 true :=
        Runs.trans h1 h2
      have h5 := phase05_runs E (genEnvLoop E allInstances 0 (phase01 E s1).1).1
      split
      · rename_i hc5
        refine ⟨false, ?_⟩
        have hf : (phase05 E (genEnvLoop E allInstances 0 (phase01 E s1).1).1).2 = false := by
          simpa using hc5
        rw [hf] at h5
        exact Runs.stopped_mono (Runs.trans h12 h5) (by decide)
      · rename_i hc5
        have ht5 : (phase05 E (genEnvLoop E allInstances 0 (phase01 E s1).1).1).2 = true := by
          simpa using hc5
        rw [ht5] at h5
        have h15 : Runs s1 (phase05 E (genEnvLoop E allInstances 0 (phase01 E s1).1).1).1 1 5 true :=
          Runs.trans h12 h5
        have h19 : Runs s1
            (phases06to19 E (phase05 E (genEnvLoop E allInstances 0 (phase01 E s1).1).1).1) 1 19 true :=
          Runs.trans h15 (phases06to19_runs E _)
        have h20 := phase20_runs E host user keyPath
          (phases06to19 E (phase05 E (genEnvLoop E allInstances 0 (phase01 E s1).1).1).1)
        split
        · rename_i hc20
          refine ⟨false, ?_⟩
          have hf : (phase20 E host user keyPath
              (phases06to19 E (phase05 E (genEnvLoop E allInstances 0 (phase01 E s1).1).1).1)).2
                = false := by simpa using hc20
          rw [hf] at h20
          exact Runs.stopped_mono (Runs.trans h19 h20) (by decide)
        · rename_i hc20
          refine ⟨true, ?_⟩
          have ht20 : (phase20 E host user keyPath
              (phases06to19 E (phase05 E (genEnvLoop E allInstances 0 (phase01 E s1).1).1).1)).2
                = true := by simpa using hc20
          rw [ht20] at h20
          exact Runs.trans (Runs.trans h19 h20) (phases21to28_runs E _)

/-- The shape of every run: the results `runTests` appends are those of the stretch of the
28 phases numbered from 1. -/
theorem runTests_runs (E : Env) (host user keyPath : String) (s : St) :
    ∃ cont, Runs s (runTests E host user keyPath s) 1 28 cont := by
  obtain ⟨cont, h⟩ := runPhases_runs E host user keyPath (preflight E s)
  exact ⟨cont, h.of_results_eq rfl⟩

theorem runTests_seg (E : Env) (host user keyPath : String) (w : World) (out : List String) :
    ∃ cont, Seg 1 28 cont (runTests E host user keyPath ⟨w, [], out⟩).results := by
  obtain ⟨cont, rs, e, g⟩ := runTests_runs E host user keyPath ⟨w, [], out⟩
  refine ⟨cont, ?_⟩
  rw [e]
  simpa using g

theorem Seg.last_num {first count : Nat} {rs pre : List Result} {r : Result} {cont : Bool}
    (g : Seg first count cont rs) (h : rs = pre ++ [r]) : r.Num = first + pre.length := by
  have hn := g.nums
  rw [h, List.map_append, List.length_append, List.length_singleton, List.range'_1_concat] at hn
  have := (List.append_inj' hn (by simp)).2
  simpa using this

/-- C6: in every run of `runTests` the i-th recorded result (counting from 1) has number i:
the recorded numbers are 1, 2, ..., up to the number of recorded results, so each executed
phase has appended exactly one result and the numbers are strictly increasing and
contiguous. -/
theorem runTests_numbers (E : Env) (host user keyPath : String) (w : World) (out : List String) :
    (runTests E host user keyPath ⟨w, [], out⟩).results.map (fun r => r.Num)
      = List.range' 1 (runTests E host user keyPath ⟨w, [], out⟩).results.length ∧
    ∀ (i : Nat) (r : Result),
      (runTests E host user keyPath ⟨w, [], out⟩).results[i]? = some r → r.Num = i + 1 := by
  obtain ⟨cont, g⟩ := runTests_seg E host user keyPath w out
  refine ⟨g.nums, fun i r hi => ?_⟩
  have h1 : ((runTests E host user keyPath ⟨w, [], out⟩).results.map (fun r => r.Num))[i]?
      = some r.Num := by
    rw [List.getElem?_map, hi]; rfl
  rw [g.nums] at h1
  have hlt : i < (runTests E host user keyPath ⟨w, [], out⟩).results.length := by
    have := List.getElem?_eq_some_iff.1 hi
    exact this.1
  rw [List.getElem?_range' 1 1 hlt] at h1
  simp at h1
  omega

/-- C7: in every run of `runTests` at most 28 results are recorded, so the skipped count
`28 - len(results)` is never negative; it is positive only if some recorded result failed,
and a run in which no recorded result failed records exactly 28 results (skipped = 0). -/
theorem runTests_count (E : Env) (host user keyPath : String) (w : World) (out : List String) :
    (runTests E host user keyPath ⟨w, [], out⟩).results.length ≤ total ∧
    0 ≤ skipped (runTests E host user keyPath ⟨w, [], out⟩).results ∧
    (0 < skipped (runTests E host user keyPath ⟨w, [], out⟩).results →
      ∃ r ∈ (runTests E host user keyPath ⟨w, [], out⟩).results, r.Passed = false) ∧
    ((∀ r ∈ (runTests E host user keyPath ⟨w, [], out⟩).results, r.Passed = true) →
      (runTests E host user keyPath ⟨w, [], out⟩).results.length = 28 ∧
      skipped (runTests E host user keyPath ⟨w, [], out⟩).results = 0) := by
  obtain ⟨cont, g⟩ := runTests_seg E host user keyPath w out
  have hle := g.len_le
  have hstop : cont = false →
      ∃ r ∈ (runTests E host user keyPath ⟨w, [], out⟩).results, r.Passed = false := by
    intro hc
    obtain ⟨pre, r, hrs, _, hf, _⟩ := g.stop hc
    exact ⟨r, by rw [hrs]; simp, hf⟩
  unfold skipped total
  refine ⟨hle, by omega, ?_, ?_⟩
  · intro hpos
    cases cont with
    | false => exact hstop rfl
    | true =>
      have := g.full rfl
      omega
  · intro hall
    cases cont with
    | false =>
      obtain ⟨r, hr, hf⟩ := hstop rfl
      rw [hall r hr] at hf
      exact absurd hf (by decide)
    | true =>
      have := g.full rfl
      exact ⟨this, by omega⟩

set_option maxRecDepth 100000 in
/-- C2, as the specification states it, fails: in `readableEnv` phase 7 is recorded as
failed (the container prints nothing) and the phases 8 to 28 are still executed and
recorded. -/
theorem runTests_continues_after_failure :
    (runTests readableEnv "10.0.0.1" "root" "" ⟨World.init, [], []⟩).results.map
        (fun r => (r.Num, r.Passed))
      = [(1, true), (2, true), (3, true), (4, true), (5, true), (6, true), (7, false), (8, true),
         (9, false), (10, true), (11, false), (12, true), (13, true), (14, false), (15, false),
         (16, true), (17, true), (18, false), (19, true), (20, true), (21, true), (22, false),
         (23, true), (24, false), (25, true), (26, true), (27, false), (28, false)] := by
  decide

/-! ## The reductions `allOK` and `failMsgs` -/

theorem failParts_eq (rs : List instResult) :
    failParts rs = (rs.filter (fun r => !r.ok)).map (fun r => "[" ++ r.label ++ "] " ++ r.msg) := by
  induction rs with
  | nil => rfl
  | cons r rs ih =>
    unfold failParts
    cases hr : r.ok <;> simp [List.filter, hr, ih]

theorem allOK_eq_all (rs : List instResult) : allOK rs = rs.all (fun r => r.ok) := by
  induction rs with
  | nil => rfl
  | cons r rs ih =>
    unfold allOK
    cases hr : r.ok <;> simp [hr, ih]

theorem join_eq_empty_iff (parts : List String) (sep : String)
    (h : ∀ p ∈ parts, p ≠ "") : join parts sep = "" ↔ parts = [] := by
  cases parts with
  | nil => simp [join]
  | cons a rest =>
    have ha : a.data ≠ [] := by
      intro hd
      exact h a (List.mem_cons_self _ _) (String.ext hd)
    simp only [reduceCtorEq, iff_false]
    intro hj
    have hd := congrArg String.data hj
    cases rest with
    | nil => exact ha (by simpa [join] using hd)
    | cons b rest' =>
      simp only [join, String.data_append] at hd
      have : a.data = [] := by
        have h0 : a.data ++ sep.data ++ (join (b :: rest') sep).data = [] := hd
        simp only [List.append_eq_nil] at h0
        exact h0.1.1
      exact ha this

/-- C11: `failMsgs rs` is the strings `[label] message` of exactly the entries with
`ok = false`, in the order they occur in `rs` (label-sorted when `rs` comes from `forAll`),
joined by ` | `; `allOK rs` is the conjunction of the `ok` flags (true for the empty list);
and `failMsgs rs` is the empty string exactly when `allOK rs` is true. -/
theorem failMsgs_allOK (rs : List instResult) :
    failMsgs rs
      = join ((rs.filter (fun r => !r.ok)).map (fun r => "[" ++ r.label ++ "] " ++ r.msg)) " | " ∧
    allOK rs = rs.all (fun r => r.ok) ∧
    allOK [] = true ∧
    (failMsgs rs = "" ↔ allOK rs = true) ∧
    (∀ (E : Env) (instances : List Instance) (fn : Instance → Prog (Bool × String)) (w : World),
      List.Pairwise (fun a b : instResult => a.label ≤ b.label)
        ((forAll E instances fn w).1.filter (fun r => !r.ok))) := by
  refine ⟨by rw [failMsgs, failParts_eq], allOK_eq_all rs, rfl, ?_, ?_⟩
  · rw [failMsgs, failParts_eq, allOK_eq_all, join_eq_empty_iff]
    · simp [List.filter_eq_nil_iff]
    · intro p hp
      obtain ⟨r, _, rfl⟩ := List.mem_map.1 hp
      intro he
      have hd := congrArg String.data he
      simp only [String.data_append] at hd
      have h0 : ("[" : String).data ++ r.label.data ++ ("] " : String).data ++ r.msg.data = [] := hd
      simp only [List.append_eq_nil] at h0
      exact absurd h0.1.1.1 (by decide)
  · intro E instances fn w
    exact (sortSlice_sorted _).sublist (List.filter_sublist _)

/-! ## The recorder: `pass` and `fail` -/

/-- C15, as the specification states it, fails: `fail` prints the message before the
duration, `[FAIL] 07 container run — boom (5ms)`, not after it. -/
theorem fail_line_message_first :
    (fail quietEnv 7 "container run" "boom" 5000000 ⟨World.init, [], []⟩).out
        = ["[FAIL] 07 container run — boom (5ms)\n"] ∧
      (fail quietEnv 7 "container run" "boom" 5000000 ⟨World.init, [], []⟩).out
        ≠ ["[FAIL] 07 container run (5ms) — boom\n"] := by
  constructor <;> decide

theorem pad2_two_digits : ∀ n, n < 100 → (pad2 n).data.length = 2 := by
  decide

/-- C15, amended: `pass` appends one passed result and emits the line
`[PASS] NN name (duration)`; `fail` appends one failed result and emits the line
`[FAIL] NN name — message (duration)`, the message before the duration; NN is the phase
number padded with a zero to two digits, and the duration is whole milliseconds below one
second and seconds with one decimal from one second on. -/
theorem pass_fail_record (E : Env) (num : Nat) (name msg : String) (d : Nat) (s : St) :
    (pass E num name d s).results = s.results ++ [⟨num, name, true, "", d⟩] ∧
    (pass E num name d s).out
      = s.out ++ ["[PASS] " ++ pad2 num ++ " " ++ name ++ " (" ++ fmtDur E d ++ ")\n"] ∧
    (fail E num name msg d s).results = s.results ++ [⟨num, name, false, msg, d⟩] ∧
    (fail E num name msg d s).out
      = s.out ++ ["[FAIL] " ++ pad2 num ++ " " ++ name ++ " — " ++ msg ++ " (" ++ fmtDur E d ++ ")\n"] ∧
    (pass E num name d s).world = s.world ∧ (fail E num name msg d s).world = s.world ∧
    pad2 num = (if num < 10 then "0" ++ toString num else toString num) ∧
    pad2 7 = "07" ∧ pad2 28 = "28" ∧ (∀ n, n < 100 → (pad2 n).data.length = 2) ∧
    fmtDur E d = (if d < second then toString (d / 1000000) ++ "ms" else E.fmtSeconds d ++ "s") :=
  ⟨rfl, rfl, rfl, rfl, rfl, rfl, rfl, by decide, by decide, pad2_two_digits, rfl⟩

/-! ## The socket probe of phase 15 -/

theorem fieldsAux_nonempty (cs cur : List Char) : ∀ f ∈ fieldsAux cs cur, f.data ≠ [] := by
  induction cs generalizing cur with
  | nil =>
    intro f hf
    unfold fieldsAux at hf
    split at hf
    · simp at hf
    · rename_i hc
      rw [List.mem_singleton] at hf
      subst hf
      simpa using hc
  | cons c cs ih =>
    intro f hf
    unfold fieldsAux at hf
    split at hf
    · split at hf
      · exact ih [] f hf
      · rename_i hc
        rcases List.mem_cons.1 hf with h | h
        · subst h
          simpa using hc
        · exact ih [] f h
    · exact ih (c :: cur) f hf

theorem fields_nonempty (s : String) : ∀ f ∈ fields s, f.data ≠ [] :=
  fieldsAux_nonempty s.data []

/-- C18: the phase-15 probe issues one `stat -c '%a %G' <socket>` and reports success
exactly when the exit code is 0, the output has exactly two whitespace-separated fields
(mode, group), the last character of mode is `0`, and group is the instance prefix followed
by `docker`. -/
theorem probeSocket_ok_iff (E : Env) (inst : Instance) (resp : Nat → RunOut) :
    (((probeSocket E inst).play resp).1.1 = true ↔
      ((resp 0).exitCode = 0 ∧
        ∃ mode group, fields (trimSpace (resp 0).stdout) = [mode, group] ∧
          mode.data.getLast? = some '0' ∧ group = inst.Prefix ++ "docker")) ∧
    ((probeSocket E inst).play resp).2 = [Event.run ("stat -c '%a %G' " ++ inst.Socket)] := by
  have hne := fields_nonempty (trimSpace (resp 0).stdout)
  unfold probeSocket
  simp only [Prog.play]
  by_cases hc : (resp 0).exitCode = 0
  · simp only [hc, ne_eq, not_true_eq_false, if_false, true_and]
    generalize fields (trimSpace (resp 0).stdout) = fs at hne ⊢
    match fs, hne with
    | [], _ => simp [Prog.play]
    | [a], _ => simp [Prog.play]
    | a :: b :: c :: rest, _ => simp [Prog.play]
    | [mode, group], hne =>
      have hm : mode.data ≠ [] := hne mode (by simp)
      have hlen : 0 < mode.data.length := List.length_pos.2 hm
      have hlen2 : 0 < mode.length := hlen
      simp only [List.cons.injEq, and_true, exists_and_left, exists_eq_left']
      by_cases hl : mode.data.getLast? = some '0'
      · by_cases hg : group = inst.Prefix ++ "docker"
        · simp [Prog.play, hl, hg, hlen, hlen2]
        · simp [Prog.play, hl, hg, hlen, hlen2]
      · simp [Prog.play, hl, hlen, hlen2]
  · simp [hc, Prog.play]

/-! ## Which failures stop the sequence -/

theorem Seg.early_fail_last {first count : Nat} {cont : Bool} {rs : List Result}
    (g : Seg first count cont rs) (r : Result) (hr : r ∈ rs)
    (hK : earlyReturn r.Num = true) (hf : r.Passed = false) : rs.getLast? = some r := by
  cases cont with
  | true =>
    rw [g.early_ok rfl r hr hK] at hf
    exact absurd hf (by decide)
  | false =>
    obtain ⟨pre, r0, hrs, hpre, _, _⟩ := g.stop rfl
    have hr0 : r = r0 := by
      rw [hrs] at hr
      rcases List.mem_append.1 hr with h | h
      · rw [hpre r h hK] at hf
        exact absurd hf (by decide)
      · simpa using h
    subst hr0
    rw [hrs]
    exact List.getLast?_concat pre

theorem Seg.exists_num {first count : Nat} {cont : Bool} {rs : List Result}
    (g : Seg first count cont rs) (n : Nat) (h1 : first ≤ n) (h2 : n < first + rs.length) :
    ∃ r ∈ rs, r.Num = n := by
  have hmem : n ∈ rs.map (fun r => r.Num) := by
    rw [g.nums, List.mem_range'_1]
    exact ⟨h1, h2⟩
  obtain ⟨r, hr, hn⟩ := List.mem_map.1 hmem
  exact ⟨r, hr, hn⟩

theorem Seg.num_bounds {first count : Nat} {cont : Bool} {rs : List Result}
    (g : Seg first count cont rs) (r : Result) (hr : r ∈ rs) :
    first ≤ r.Num ∧ r.Num < first + rs.length := by
  have hmem : r.Num ∈ rs.map (fun r => r.Num) := List.mem_map_of_mem _ hr
  rw [g.nums, List.mem_range'_1] at hmem
  exact hmem

theorem Seg.next_recorded {count : Nat} {cont : Bool} {rs : List Result}
    (g : Seg 1 count cont rs) (r : Result) (hr : r ∈ rs)
    (hK : earlyReturn r.Num = false) (hlt : r.Num < count) :
    ∃ r' ∈ rs, r'.Num = r.Num + 1 := by
  have hb := g.num_bounds r hr
  cases cont with
  | true =>
    have hlen := g.full rfl
    exact g.exists_num (r.Num + 1) (by omega) (by omega)
  | false =>
    obtain ⟨pre, r0, hrs, _, _, he0⟩ := g.stop rfl
    have hlast := g.last_num hrs
    have hne : r.Num ≠ r0.Num := by
      intro h
      rw [h, he0] at hK
      exact absurd hK (by decide)
    have hlen : rs.length = pre.length + 1 := by rw [hrs]; simp
    exact g.exists_num (r.Num + 1) (by omega) (by omega)

/-! ## The isolation check without any started workload -/

/-- C17: if no workload start returns exit code 0 (the list of sources is empty),
`checkIsolation` issues only the start commands, no listing query and no removal, and
returns an empty violation list; phase 13 is then recorded as passed. -/
theorem checkIsolation_no_source (E : Env) (instances : List Instance) (w : World)
    (h : isoSources E instances w = []) :
    (isoStart E instances w).1 = [] ∧
    (checkIsolation E instances w).1 = [] ∧
    (checkIsolation E instances w).2.log
      = w.log ++ instances.flatMap (fun i => [Event.run (isoRmCmd i), Event.run (isoStartCmd i)]) ∧
    (∀ s : St, instances = allInstances → s.world = w →
      (phase13 E s).results
        = s.results ++ [⟨13, "multi-instance isolation (all pairs)", true, "",
            (checkIsolation E allInstances s.world).2.now - s.world.now⟩]) := by
  have hs : isoStart E instances w = ([], afterStarts E instances w) := by
    rw [isoStart_eq, h]; rfl
  have hc : checkIsolation E instances w = ([], afterStarts E instances w) := by
    unfold checkIsolation
    simp only [hs, isoCheck, isoCleanup]
  refine ⟨by rw [hs], by rw [hc], by rw [hc]; exact afterStarts_log E instances w, ?_⟩
  intro s hi hw
  subst hi
  subst hw
  unfold phase13
  simp only [hc, List.length_nil, if_true]
  rfl

theorem checkIsolation_no_source_witness :
    (isoStart failEnv allInstances World.init).1 = [] ∧
    (checkIsolation failEnv allInstances World.init).1 = [] ∧
    (checkIsolation failEnv allInstances World.init).2.log
      = World.init.log ++ allInstances.flatMap
          (fun i => [Event.run (isoRmCmd i), Event.run (isoStartCmd i)]) ∧
    (phase13 failEnv ⟨World.init, [], []⟩).results
      = [⟨13, "multi-instance isolation (all pairs)", true, "", 0⟩] :=
  ⟨(checkIsolation_no_source failEnv allInstances World.init (by decide)).1,
   (checkIsolation_no_source failEnv allInstances World.init (by decide)).2.1,
   (checkIsolation_no_source failEnv allInstances World.init (by decide)).2.2.1,
   ((checkIsolation_no_source failEnv allInstances World.init (by decide)).2.2.2
      ⟨World.init, [], []⟩ rfl rfl).trans (by decide)⟩

/-! ## The pre-flight cleanup -/

theorem runAll_log (E : Env) (cmds : List String) (w : World) :
    (runAll E cmds w).log = w.log ++ cmds.map Event.run := by
  induction cmds generalizing w with
  | nil => simp [runAll]
  | cons cmd rest ih =>
    simp only [runAll, ih, run_log, List.map_cons, List.append_assoc]
    rfl

theorem hasPrefixChars_append (x y p : List Char) (h : hasPrefixChars x p = true) :
    hasPrefixChars (x ++ y) p = true := by
  induction p generalizing x with
  | nil => cases x <;> cases y <;> rfl
  | cons c p ih =>
    cases x with
    | nil => simp [hasPrefixChars] at h
    | cons a x =>
      simp only [hasPrefixChars, Bool.and_eq_true] at h
      simp only [List.cons_append, hasPrefixChars, Bool.and_eq_true]
      exact ⟨h.1, ih x h.2⟩

theorem hasSuffix_append (a b suf : String) (h : hasSuffix b suf = true) :
    hasSuffix (a ++ b) suf = true := by
  unfold hasSuffix at h ⊢
  rw [String.data_append, List.reverse_append]
  exact hasPrefixChars_append _ _ _ h

theorem cleanupInstanceCmds_suffix (inst : Instance) :
    ∀ cmd ∈ cleanupInstanceCmds inst, hasSuffix cmd "; true" = true := by
  intro cmd hcmd
  simp only [cleanupInstanceCmds, List.mem_cons, List.mem_singleton, List.not_mem_nil,
    or_false] at hcmd
  rcases hcmd with h | h | h | h | h | h | h <;> subst h <;>
    exact hasSuffix_append _ _ _ (by decide)

theorem Seg.head_num {first count : Nat} {cont : Bool} {rs : List Result}
    (g : Seg first count cont rs) (hne : rs ≠ []) :
    ∃ r rest, rs = r :: rest ∧ r.Num = first := by
  cases rs with
  | nil => exact absurd rfl hne
  | cons r rest =>
    refine ⟨r, rest, rfl, ?_⟩
    have hn := g.nums
    simp only [List.map_cons, List.length_cons, List.range'_succ, List.cons.injEq] at hn
    exact hn.1

theorem Seg.ne_nil {first count : Nat} {cont : Bool} {rs : List Result}
    (g : Seg first count cont rs) (hc : 0 < count) : rs ≠ [] := by
  cases cont with
  | true =>
    intro h
    have := g.full rfl
    rw [h] at this
    simp at this
    omega
  | false =>
    obtain ⟨pre, r, hrs, _⟩ := g.stop rfl
    rw [hrs]
    simp

/-- C14: `runTests` first issues all commands of `cleanupAllInstances`, in order, before
phase 1 and its upload; each of these command strings ends with `; true`; whatever they
return, the cleanup records no result, and phase 1 is attempted: the first result recorded
is that of phase 1. -/
theorem preflight_cleanup (E : Env) (host user keyPath : String) (s : St) :
    (preflight E s).world.log = s.world.log ++ cleanupCmds.map Event.run ∧
    (preflight E s).results = s.results ∧
    (∀ cmd ∈ cleanupCmds, hasSuffix cmd "; true" = true) ∧
    (∀ inst, ∀ cmd ∈ cleanupInstanceCmds inst, hasSuffix cmd "; true" = true) ∧
    cleanupCmds = (allInstances.map cleanupInstanceCmds).flatten ++ cleanupNestedCmds ∧
    runTests E host user keyPath s = runPhases E host user keyPath (preflight E s) ∧
    ((phase01 E (preflight E s)).1.world.log = s.world.log ++ cleanupCmds.map Event.run ∨
      ∃ data, (phase01 E (preflight E s)).1.world.log
        = s.world.log ++ cleanupCmds.map Event.run ++ [Event.upload (uploadCmd "~/dockyard.sh") data]) ∧
    (∃ r rest, (runTests E host user keyPath s).results = s.results ++ r :: rest ∧ r.Num = 1) := by
  have hlog : (preflight E s).world.log = s.world.log ++ cleanupCmds.map Event.run := by
    unfold preflight cleanupAllInstances
    exact runAll_log E cleanupCmds _
  refine ⟨hlog, rfl, by decide, cleanupInstanceCmds_suffix, rfl, rfl, ?_, ?_⟩
  · have hw : (phase01 E (preflight E s)).1.world
        = (upload E "dist/dockyard.sh" "~/dockyard.sh" (preflight E s).world).2 := by
      unfold phase01
      simp only
      split <;> rfl
    rw [hw, ← hlog]
    unfold upload
    split
    · exact Or.inl rfl
    · rename_i data _
      split
      · exact Or.inl rfl
      · exact Or.inr ⟨data, by simp [World.act]⟩
  · obtain ⟨cont, rs, e, g⟩ := runTests_runs E host user keyPath s
    obtain ⟨r, rest, hrs, hn⟩ := g.head_num (g.ne_nil (by decide))
    exact ⟨r, rest, by rw [e, hrs], hn⟩

/-! ## The cleanup of the isolation check -/

theorem run_agree (E E' : Env) (n : Nat) (h : agreeBelow E E' n) (cmd : String) (w : World)
    (hw : w.log.length < n) : run E' cmd w = run E cmd w := by
  obtain ⟨h1, h2⟩ := h w.log cmd hw
  unfold run World.act
  rw [h1, h2]

theorem run_log_length (E : Env) (cmd : String) (w : World) :
    (run E cmd w).2.log.length = w.log.length + 1 := by
  rw [run_log]; simp

theorem isoStart_length (E : Env) (insts : List Instance) (w : World) :
    w.log.length ≤ (isoStart E insts w).2.log.length := by
  rw [isoStart_eq, afterStarts_log]
  simp

theorem isoStart_agree (E E' : Env) (n : Nat) (h : agreeBelow E E' n) (insts : List Instance)
    (w : World) (hn : (isoStart E insts w).2.log.length ≤ n) :
    isoStart E' insts w = isoStart E insts w := by
  induction insts generalizing w with
  | nil => rfl
  | cons inst rest ih =>
    have hfin : (isoStart E (inst :: rest) w).2.log.length
        = (isoStart E rest (run E (dockerHost inst.Socket ++ " docker run -d --name " ++ isoName inst
            ++ " alpine sleep 60") (run E (dockerHost inst.Socket ++ " docker rm -f " ++ isoName inst
            ++ " 2>/dev/null") w).2).2).2.log.length := by
      simp only [isoStart]
      split <;> rfl
    rw [hfin] at hn
    have hmono := isoStart_length E rest (run E (dockerHost inst.Socket ++ " docker run -d --name "
      ++ isoName inst ++ " alpine sleep 60") (run E (dockerHost inst.Socket ++ " docker rm -f "
      ++ isoName inst ++ " 2>/dev/null") w).2).2
    rw [run_log_length, run_log_length] at hmono
    have e1 := run_agree E E' n h (dockerHost inst.Socket ++ " docker rm -f " ++ isoName inst
      ++ " 2>/dev/null") w (by omega)
    have e2 := run_agree E E' n h (dockerHost inst.Socket ++ " docker run -d --name "
      ++ isoName inst ++ " alpine sleep 60") (run E (dockerHost inst.Socket ++ " docker rm -f "
      ++ isoName inst ++ " 2>/dev/null") w).2 (by rw [run_log_length]; omega)
    simp only [isoStart]
    rw [e1, e2, ih _ hn]

theorem isoView_length (E : Env) (src : cinfo) (viewers : List Instance) (w : World) :
    w.log.length ≤ (isoView E src viewers w).2.log.length := by
  induction viewers generalizing w with
  | nil => exact le_refl _
  | cons v rest ih =>
    unfold isoView
    split
    · exact ih w
    · have h1 := ih (run E (isoListCmd v) w).2
      rw [run_log_length] at h1
      simp only
      split
      · show w.log.length ≤ (isoView E src rest (run E (isoListCmd v) w).2).2.log.length
        omega
      · omega

theorem isoView_agree (E E' : Env) (n : Nat) (h : agreeBelow E E' n) (src : cinfo)
    (viewers : List Instance) (w : World) (hn : (isoView E src viewers w).2.log.length ≤ n) :
    isoView E' src viewers w = isoView E src viewers w := by
  induction viewers generalizing w with
  | nil => rfl
  | cons v rest ih =>
    unfold isoView at hn ⊢
    split
    · rename_i hl
      rw [if_pos hl] at hn
      exact ih w hn
    · rename_i hl
      rw [if_neg hl] at hn
      have hfin : (isoView E src rest (run E (isoListCmd v) w).2).2.log.length ≤ n := by
        simp only at hn
        split at hn <;> exact hn
      have hmono := isoView_length E src rest (run E (isoListCmd v) w).2
      rw [run_log_length] at hmono
      have e1 := run_agree E E' n h (isoListCmd v) w (by omega)
      simp only
      rw [e1, ih _ hfin]

theorem isoCheck_length (E : Env) (instances : List Instance) (cs : List cinfo) (w : World) :
    w.log.length ≤ (isoCheck E instances cs w).2.log.length := by
  induction cs generalizing w with
  | nil => exact le_refl _
  | cons c rest ih =>
    simp only [isoCheck]
    exact le_trans (isoView_length E c instances w) (ih _)

theorem isoCheck_agree (E E' : Env) (n : Nat) (h : agreeBelow E E' n) (instances : List Instance)
    (cs : List cinfo) (w : World) (hn : (isoCheck E instances cs w).2.log.length ≤ n) :
    isoCheck E' instances cs w = isoCheck E instances cs w := by
  induction cs generalizing w with
  | nil => rfl
  | cons c rest ih =>
    simp only [isoCheck] at hn ⊢
    have hv : (isoView E c instances w).2.log.length ≤ n :=
      le_trans (isoCheck_length E instances rest _) hn
    rw [isoView_agree E E' n h c instances w hv, ih _ hn]

/-- C13: after its visibility queries `checkIsolation` issues exactly one remove command,
`docker rm -f <name>` on the owning instance's socket, for every workload whose start
returned exit code 0, in start order, whether or not a violation was found; and what the
remove commands return never changes the returned violation list: an environment that
differs only from the first remove command on gives the same list. -/
theorem checkIsolation_cleanup (E E' : Env) (instances : List Instance) (w : World)
    (hagree : agreeBelow E E'
      (isoCheck E instances (isoStart E instances w).1 (isoStart E instances w).2).2.log.length) :
    (checkIsolation E instances w).2.log
      = (isoCheck E instances (isoStart E instances w).1 (isoStart E instances w).2).2.log
        ++ (isoSources E instances w).map
            (fun i => Event.run (dockerHost i.Socket ++ " docker rm -f "
              ++ ("iso-" ++ toLower i.Label ++ "-check") ++ " 2>/dev/null")) ∧
    (checkIsolation E instances w).1
      = (isoCheck E instances (isoStart E instances w).1 (isoStart E instances w).2).1 ∧
    (checkIsolation E' instances w).1 = (checkIsolation E instances w).1 := by
  refine ⟨?_, rfl, ?_⟩
  · unfold checkIsolation
    simp only [isoStart_eq, isoCleanup_log]
    rfl
  · have hs : isoStart E' instances w = isoStart E instances w :=
      isoStart_agree E E' _ hagree instances w (isoCheck_length E instances _ _)
    unfold checkIsolation
    simp only [hs]
    rw [isoCheck_agree E E' _ hagree instances _ _ (le_refl _)]

theorem checkIsolation_cleanup_witness :
    (checkIsolation lateFailEnv allInstances World.init).1
      = (checkIsolation leakyEnv allInstances World.init).1 := by
  have hlen : (isoCheck leakyEnv allInstances (isoStart leakyEnv allInstances World.init).1
      (isoStart leakyEnv allInstances World.init).2).2.log.length = 12 := by decide
  refine (checkIsolation_cleanup leakyEnv lateFailEnv allInstances World.init ?_).2.2
  rw [hlen]
  intro log cmd h
  exact ⟨by simp [lateFailEnv, h], rfl⟩

/-! ## Removal of the nested-test workloads -/

theorem mem_pollRounds (cmd : String) (k : Nat) (e : Event) (h : e ∈ pollRounds cmd k) :
    e = Event.run cmd ∨ e = Event.sleep (2 * second) := by
  induction k with
  | zero => simp [pollRounds] at h
  | succ k ih =>
    simp only [pollRounds, List.mem_cons] at h
    rcases h with h | h | h
    · exact Or.inl h
    · exact Or.inr h
    · exact ih h

/-- The workloads of phase 10 are removed after phase 13, whatever the phases recorded. -/
theorem dindCleanup_log (E : Env) (s : St) :
    (dindCleanup E s).world.log = s.world.log ++ (dindCleanupCmds allInstances).map Event.run ∧
    dindCleanupCmds allInstances
      = [ "sudo DOCKER_HOST=unix:///dy1/run/docker.sock docker rm -f dind-a 2>/dev/null",
          "sudo DOCKER_HOST=unix:///dy2/run/docker.sock docker rm -f dind-b 2>/dev/null",
          "sudo DOCKER_HOST=unix:///dy3/run/docker.sock docker rm -f dind-c 2>/dev/null" ] :=
  ⟨runAll_log E _ _, by decide⟩

/-- The nested-root instance of phase 28 is removed at the end of the phase, whether it
passes or fails. -/
theorem phase28_cleanup_log (E : Env) (s : St) :
    ∃ pre, (phase28 E s).world.log = pre ++ nestedPostCmds.map Event.run := by
  refine ⟨(nestedDestroy E (nestedRun E (nestedCreate E (nestedGenEnv E
    { s with world := runAll E nestedPreCmds s.world })))).st.world.log, ?_⟩
  unfold phase28
  simp only
  split <;> exact runAll_log E nestedPostCmds _

set_option maxRecDepth 1000000 in
/-- C12 fails on the code for phase 24: when the `dind-post-b` container starts and the
inner daemon never gets ready, the probe returns the timeout after the 60 polls; the only
`docker rm -f dind-post-b` it issues is the one before the start, none after it.  The same
holds when the inner container fails: the probe returns right after that command.  In the
whole run of `runTests` in `stuckPostEnv` phase 24 is recorded as failed, the container is
started, and no removal of it is issued after its start. -/
theorem dindPost_not_removed :
    (probeDinDPost instB).play startedNeverReady
      = ((false, "inner dockerd did not start within 120s"),
          Event.run "sudo DOCKER_HOST=unix:///dy2/run/docker.sock docker rm -f dind-post-b 2>/dev/null" ::
          Event.run "sudo DOCKER_HOST=unix:///dy2/run/docker.sock docker run -d --name dind-post-b docker:26.1-dind" ::
          pollRounds "sudo DOCKER_HOST=unix:///dy2/run/docker.sock docker exec dind-post-b docker info" 60) ∧
    Event.run "sudo DOCKER_HOST=unix:///dy2/run/docker.sock docker rm -f dind-post-b 2>/dev/null"
      ∉ pollRounds "sudo DOCKER_HOST=unix:///dy2/run/docker.sock docker exec dind-post-b docker info" 60 ∧
    (probeDinDPost instB).play startedInnerFails
      = ((false, "inner container: oops"),
          [ Event.run "sudo DOCKER_HOST=unix:///dy2/run/docker.sock docker rm -f dind-post-b 2>/dev/null",
            Event.run "sudo DOCKER_HOST=unix:///dy2/run/docker.sock docker run -d --name dind-post-b docker:26.1-dind",
            Event.run "sudo DOCKER_HOST=unix:///dy2/run/docker.sock docker exec dind-post-b docker info",
            Event.run "sudo DOCKER_HOST=unix:///dy2/run/docker.sock docker exec dind-post-b docker run --rm alpine echo inner-hello" ]) ∧
    ((runTests stuckPostEnv "10.0.0.1" "root" "" ⟨World.init, [], []⟩).results.map
        (fun r => (r.Num, r.Passed, r.Msg)))[23]?
      = some (24, false, "[B] inner dockerd did not start within 120s | [C] inner dockerd did not start within 120s") ∧
    Event.run "sudo DOCKER_HOST=unix:///dy2/run/docker.sock docker run -d --name dind-post-b docker:26.1-dind"
      ∈ (runTests stuckPostEnv "10.0.0.1" "root" "" ⟨World.init, [], []⟩).world.log ∧
    Event.run "sudo DOCKER_HOST=unix:///dy2/run/docker.sock docker rm -f dind-post-b 2>/dev/null"
      ∉ (runTests stuckPostEnv "10.0.0.1" "root" "" ⟨World.init, [], []⟩).world.log.dropWhile
          (fun e => decide (e ≠ Event.run
            "sudo DOCKER_HOST=unix:///dy2/run/docker.sock docker run -d --name dind-post-b docker:26.1-dind")) := by
  refine ⟨?_, ?_, ?_, by decide, by decide, by decide⟩
  · have h := probeDinDPost_play_timeout instB startedNeverReady (by decide)
      (fun j _ => by
        have hj : ¬ (j + 1 + 1 < 2) := by omega
        simp [startedNeverReady, hj])
    rw [h]
    decide
  · intro hmem
    rcases mem_pollRounds _ _ _ hmem with h | h
    · exact absurd h (by decide)
    · exact absurd h (by simp)
  · decide

/-! ## The fuel of `waitLoop` -/

theorem act_now (E : Env) (e : Event) (extra : Nat) (w : World) :
    (w.act E e extra).now = w.now + E.latency w.log + extra := rfl

/-- More rounds than `n` change nothing once `n` rounds of five seconds reach the
deadline: the loop of `waitForSSH` never runs out of rounds before its deadline. -/
theorem waitLoop_fuel (E : Env) (host : String) (deadline : Nat) (n k : Nat) (w : World)
    (h : deadline ≤ w.now + 5 * second * n) :
    waitLoop E host deadline (n + k) w = waitLoop E host deadline n w := by
  generalize hc : 5 * second = c at h
  induction n generalizing w with
  | zero =>
    cases k with
    | zero => rfl
    | succ k =>
      have hlt : ¬ w.now < deadline := by omega
      rw [Nat.zero_add]
      unfold waitLoop
      rw [if_neg hlt]
  | succ n ih =>
    rw [show n + 1 + k = (n + k) + 1 by omega]
    unfold waitLoop
    by_cases hlt : w.now < deadline
    · rw [if_pos hlt, if_pos hlt]
      by_cases ht : E.tcpDial w.log (host ++ ":22") = true
      · rw [if_pos ht, if_pos ht]
      · rw [if_neg ht, if_neg ht]
        apply ih
        have hnow : (sleep E (5 * second) (w.act E (.tcpDial (host ++ ":22")) 0)).now
            = w.now + E.latency w.log + 0
              + E.latency (w.act E (.tcpDial (host ++ ":22")) 0).log + 5 * second := rfl
        rw [hnow, hc]
        rw [Nat.mul_succ] at h
        omega
    · rw [if_neg hlt, if_neg hlt]

theorem waitForSSH_fuel (E : Env) (host : String) (d : Nat) (w : World) (k : Nat) :
    waitLoop E host (w.now + d) (d / (5 * second) + 1 + k) w
      = waitLoop E host (w.now + d) (d / (5 * second) + 1) w := by
  apply waitLoop_fuel
  have hpos : 0 < 5 * second := by decide
  have hd := Nat.lt_mul_div_succ d hpos
  generalize 5 * second * (d / (5 * second) + 1) = m at hd ⊢
  omega

/-! ## The poll inside the probes of phases 10 and 24 -/

theorem str_append_ne_of_take_ne (h p q x y : String) (n : Nat)
    (hp : n ≤ p.data.length) (hq : n ≤ q.data.length)
    (hne : p.data.take n ≠ q.data.take n) : h ++ p ++ x ≠ h ++ q ++ y := by
  intro he
  have hd := congrArg String.data he
  simp only [String.data_append, List.append_assoc] at hd
  have hd2 := List.append_cancel_left hd
  have ht := congrArg (List.take n) hd2
  rw [List.take_append_of_le_length hp, List.take_append_of_le_length hq] at ht
  exact hne ht

theorem str_append_ne_of_ne (a s t : String) (hne : s ≠ t) : a ++ s ≠ a ++ t := by
  intro he
  have hd := congrArg String.data he
  simp only [String.data_append] at hd
  exact hne (String.ext (List.append_cancel_left hd))

theorem info_ne_rm (sock name : String) :
    Event.run (dockerHost sock ++ " docker rm -f " ++ name ++ " 2>/dev/null")
      ≠ Event.run (dockerHost sock ++ " docker exec " ++ name ++ " docker info") := by
  intro he
  injection he with he
  rw [String.append_assoc, String.append_assoc (dockerHost sock ++ " docker exec ")] at he
  exact str_append_ne_of_take_ne (dockerHost sock) " docker rm -f " " docker exec "
    (name ++ " 2>/dev/null") (name ++ " docker info") 9 (by decide) (by decide) (by decide) he

theorem info_ne_start (sock name : String) :
    Event.run (dockerHost sock ++ " docker run -d --name " ++ name ++ " docker:26.1-dind")
      ≠ Event.run (dockerHost sock ++ " docker exec " ++ name ++ " docker info") := by
  intro he
  injection he with he
  rw [String.append_assoc, String.append_assoc (dockerHost sock ++ " docker exec ")] at he
  exact str_append_ne_of_take_ne (dockerHost sock) " docker run -d --name " " docker exec "
    (name ++ " docker:26.1-dind") (name ++ " docker info") 9 (by decide) (by decide) (by decide) he

theorem info_ne_inner (sock name : String) :
    Event.run (dockerHost sock ++ " docker exec " ++ name ++ " docker run --rm alpine echo inner-hello")
      ≠ Event.run (dockerHost sock ++ " docker exec " ++ name ++ " docker info") := by
  intro he
  injection he with he
  exact str_append_ne_of_ne _ _ _ (by decide) he

theorem info_ne_ping (sock name : String) :
    Event.run (dockerHost sock ++ " docker exec " ++ name ++ " docker run --rm alpine ping -c3 1.1.1.1")
      ≠ Event.run (dockerHost sock ++ " docker exec " ++ name ++ " docker info") := by
  intro he
  injection he with he
  exact str_append_ne_of_ne _ _ _ (by decide) he

theorem count_pollRounds (cmd : String) (k : Nat) (tail : List Event) :
    List.count (Event.run cmd) (pollRounds cmd k ++ tail) = k + List.count (Event.run cmd) tail := by
  induction k with
  | zero => simp [pollRounds]
  | succ k ih =>
    have e : pollRounds cmd (k + 1) ++ tail
        = Event.run cmd :: Event.sleep (2 * second) :: (pollRounds cmd k ++ tail) := rfl
    rw [e, List.count_cons_self, List.count_cons_of_ne (by simp), ih]
    omega

theorem probeDinD_play_nostart (inst : Instance) (resp : Nat → RunOut)
    (h : (resp 1).exitCode ≠ 0) :
    (probeDinD inst).play resp
      = ((false, (resp 1).stderr),
          [Event.run (dindRmCmd inst ("dind-" ++ toLower inst.Label)),
           Event.run (dindStartCmd inst ("dind-" ++ toLower inst.Label))]) := by
  simp [probeDinD, Prog.play, h, dindRmCmd, dindStartCmd]

theorem probeDinDPost_play_nostart (inst : Instance) (resp : Nat → RunOut)
    (h : (resp 1).exitCode ≠ 0) :
    (probeDinDPost inst).play resp
      = ((false, "start: " ++ (resp 1).stderr),
          [Event.run (dindRmCmd inst ("dind-post-" ++ toLower inst.Label)),
           Event.run (dindStartCmd inst ("dind-post-" ++ toLower inst.Label))]) := by
  simp [probeDinDPost, Prog.play, h, dindRmCmd, dindStartCmd]

theorem probeDinDPost_play_ready (inst : Instance) (resp : Nat → RunOut)
    (h : (resp 1).exitCode = 0) (k : Nat) (hk : k < 60)
    (h0 : (resp (k + 1 + 1)).exitCode = 0)
    (hlt : ∀ j, j < k → (resp (j + 1 + 1)).exitCode ≠ 0) :
    ∃ tail, ((probeDinDPost inst).play resp).2
        = Event.run (dindRmCmd inst ("dind-post-" ++ toLower inst.Label)) ::
          Event.run (dindStartCmd inst ("dind-post-" ++ toLower inst.Label)) ::
          (pollRounds (dockerInfoCmd inst ("dind-post-" ++ toLower inst.Label)) k ++
            Event.run (dockerInfoCmd inst ("dind-post-" ++ toLower inst.Label)) :: tail) ∧
      (tail = [Event.run (innerHelloCmd inst ("dind-post-" ++ toLower inst.Label))] ∨
       tail = [Event.run (innerHelloCmd inst ("dind-post-" ++ toLower inst.Label)),
               Event.run (innerPingCmd inst ("dind-post-" ++ toLower inst.Label))] ∨
       tail = [Event.run (innerHelloCmd inst ("dind-post-" ++ toLower inst.Label)),
               Event.run (innerPingCmd inst ("dind-post-" ++ toLower inst.Label)),
               Event.run (dindRmCmd inst ("dind-post-" ++ toLower inst.Label))]) := by
  have hf := firstReady_eq_some (fun i => resp (i + 1 + 1)) 60 k hk h0 hlt
  have hp := poll24_play inst ("dind-post-" ++ toLower inst.Label) 60 (fun i => resp (i + 1 + 1))
  rw [hf] at hp
  unfold probeDinDPost
  generalize poll24 inst ("dind-post-" ++ toLower inst.Label) 60 = q at hp ⊢
  simp only [Prog.play, h, ne_eq, not_true_eq_false, if_false]
  rw [play_bind, hp]
  simp only [Bool.not_true, Bool.false_eq_true, if_false, Prog.play]
  split
  · refine ⟨[Event.run (innerHelloCmd inst ("dind-post-" ++ toLower inst.Label))], ?_,
      Or.inl rfl⟩
    simp [dindRmCmd, dindStartCmd, innerHelloCmd, Prog.play]
  · simp only [Prog.play]
    split
    · refine ⟨[Event.run (innerHelloCmd inst ("dind-post-" ++ toLower inst.Label)),
        Event.run (innerPingCmd inst ("dind-post-" ++ toLower inst.Label))], ?_,
        Or.inr (Or.inl rfl)⟩
      simp [dindRmCmd, dindStartCmd, innerHelloCmd, innerPingCmd, Prog.play]
    · refine ⟨[Event.run (innerHelloCmd inst ("dind-post-" ++ toLower inst.Label)),
        Event.run (innerPingCmd inst ("dind-post-" ++ toLower inst.Label)),
        Event.run (dindRmCmd inst ("dind-post-" ++ toLower inst.Label))], ?_,
        Or.inr (Or.inr rfl)⟩
      simp [dindRmCmd, dindStartCmd, innerHelloCmd, innerPingCmd, Prog.play]

theorem dind_trace_counts (inst : Instance) (cname : String) (k : Nat) (tail : List Event) :
    List.count (Event.run (dockerInfoCmd inst cname))
        (Event.run (dindRmCmd inst cname) :: Event.run (dindStartCmd inst cname) ::
          (pollRounds (dockerInfoCmd inst cname) k ++ tail))
      = k + List.count (Event.run (dockerInfoCmd inst cname)) tail ∧
    sleeps (Event.run (dindRmCmd inst cname) :: Event.run (dindStartCmd inst cname) ::
          (pollRounds (dockerInfoCmd inst cname) k ++ tail)) = k + sleeps tail ∧
    slept (Event.run (dindRmCmd inst cname) :: Event.run (dindStartCmd inst cname) ::
          (pollRounds (dockerInfoCmd inst cname) k ++ tail)) = k * (2 * second) + slept tail := by
  obtain ⟨_, h2, h3⟩ := pollRounds_counts (dockerInfoCmd inst cname) k tail
  have n1 : Event.run (dockerInfoCmd inst cname) ≠ Event.run (dindRmCmd inst cname) :=
    (info_ne_rm inst.Socket cname).symm
  have n2 : Event.run (dockerInfoCmd inst cname) ≠ Event.run (dindStartCmd inst cname) :=
    (info_ne_start inst.Socket cname).symm
  refine ⟨?_, h2, h3⟩
  rw [List.count_cons_of_ne n1, List.count_cons_of_ne n2, count_pollRounds]

theorem dind_tail_counts (inst : Instance) (cname : String) (tail : List Event)
    (h : tail = [] ∨ tail = [Event.run (innerHelloCmd inst cname)] ∨
       tail = [Event.run (innerHelloCmd inst cname), Event.run (innerPingCmd inst cname)] ∨
       tail = [Event.run (innerHelloCmd inst cname), Event.run (innerPingCmd inst cname),
               Event.run (dindRmCmd inst cname)]) :
    List.count (Event.run (dockerInfoCmd inst cname)) (Event.run (dockerInfoCmd inst cname) :: tail) = 1 ∧
    sleeps (Event.run (dockerInfoCmd inst cname) :: tail) = 0 ∧
    slept (Event.run (dockerInfoCmd inst cname) :: tail) = 0 := by
  have n1 : Event.run (dockerInfoCmd inst cname) ≠ Event.run (innerHelloCmd inst cname) :=
    (info_ne_inner inst.Socket cname).symm
  have n2 : Event.run (dockerInfoCmd inst cname) ≠ Event.run (innerPingCmd inst cname) :=
    (info_ne_ping inst.Socket cname).symm
  have n3 : Event.run (dockerInfoCmd inst cname) ≠ Event.run (dindRmCmd inst cname) :=
    (info_ne_rm inst.Socket cname).symm
  rcases h with h | h | h | h <;> subst h <;> refine ⟨?_, rfl, rfl⟩
  · simp
  · rw [List.count_cons_self, List.count_cons_of_ne n1]; rfl
  · rw [List.count_cons_self, List.count_cons_of_ne n1, List.count_cons_of_ne n2]; rfl
  · rw [List.count_cons_self, List.count_cons_of_ne n1, List.count_cons_of_ne n2,
      List.count_cons_of_ne n3]; rfl

theorem probeDinD_play_ready (inst : Instance) (resp : Nat → RunOut)
    (h : (resp 1).exitCode = 0) (k : Nat) (hk : k < 60)
    (h0 : (resp (k + 1 + 1)).exitCode = 0)
    (hlt : ∀ j, j < k → (resp (j + 1 + 1)).exitCode ≠ 0) :
    (probeDinD inst).play resp
      = ((true, ""),
          Event.run (dindRmCmd inst (dindName inst)) ::
          Event.run (dindStartCmd inst (dindName inst)) ::
          (pollRounds (dockerInfoCmd inst (dindName inst)) k ++
            [Event.run (dockerInfoCmd inst (dindName inst))])) := by
  rw [probeDinD_play inst resp h, poll10_play,
    firstReady_eq_some (fun i => resp (i + 1 + 1)) 60 k hk h0 hlt]
  rfl

theorem probeDinD_play_timeout (inst : Instance) (resp : Nat → RunOut)
    (h : (resp 1).exitCode = 0) (hall : ∀ j, j < 60 → (resp (j + 1 + 1)).exitCode ≠ 0) :
    (probeDinD inst).play resp
      = ((false, "inner dockerd did not start within 120s"),
          Event.run (dindRmCmd inst (dindName inst)) ::
          Event.run (dindStartCmd inst (dindName inst)) ::
          pollRounds (dockerInfoCmd inst (dindName inst)) 60) := by
  rw [probeDinD_play inst resp h, poll10_play,
    firstReady_eq_none (fun i => resp (i + 1 + 1)) 60 hall]
  rfl

theorem probeDinD_play_bounds (inst : Instance) (resp : Nat → RunOut) :
    List.count (Event.run (dockerInfoCmd inst (dindName inst))) ((probeDinD inst).play resp).2 ≤ 60 ∧
    sleeps ((probeDinD inst).play resp).2 ≤ 60 ∧
    slept ((probeDinD inst).play resp).2 ≤ 120 * second := by
  by_cases h : (resp 1).exitCode = 0
  · cases hf : firstReady (fun i => resp (i + 1 + 1)) 60 with
    | none =>
      rw [probeDinD_play_timeout inst resp h (firstReady_none _ 60 hf)]
      obtain ⟨c1, c2, c3⟩ := dind_trace_counts inst (dindName inst) 60 []
      simp only [List.append_nil] at c1 c2 c3
      simp only [c1, c2, c3, List.count_nil, sleeps, slept]
      refine ⟨by omega, by omega, by omega⟩
    | some k =>
      obtain ⟨hk, h0, hlt⟩ := firstReady_some _ 60 k hf
      rw [probeDinD_play_ready inst resp h k hk h0 hlt]
      obtain ⟨c1, c2, c3⟩ := dind_trace_counts inst (dindName inst) k
        [Event.run (dockerInfoCmd inst (dindName inst))]
      obtain ⟨t1, t2, t3⟩ := dind_tail_counts inst (dindName inst) [] (Or.inl rfl)
      simp only [c1, c2, c3, t1, t2, t3]
      have hm : k * (2 * second) ≤ 59 * (2 * second) := Nat.mul_le_mul_right _ (by omega)
      refine ⟨by omega, by omega, by omega⟩
  · rw [probeDinD_play_nostart inst resp h]
    obtain ⟨c1, c2, c3⟩ := dind_trace_counts inst (dindName inst) 0 []
    exact ⟨le_of_eq_of_le c1 (by simp), le_of_eq_of_le c2 (by simp [sleeps]),
      le_of_eq_of_le c3 (by simp [slept])⟩

theorem probeDinDPost_play_bounds (inst : Instance) (resp : Nat → RunOut) :
    List.count (Event.run (dockerInfoCmd inst (dindPostName inst)))
      ((probeDinDPost inst).play resp).2 ≤ 60 ∧
    sleeps ((probeDinDPost inst).play resp).2 ≤ 60 ∧
    slept ((probeDinDPost inst).play resp).2 ≤ 120 * second := by
  by_cases h : (resp 1).exitCode = 0
  · cases hf : firstReady (fun i => resp (i + 1 + 1)) 60 with
    | none =>
      rw [probeDinDPost_play_timeout inst resp h (firstReady_none _ 60 hf)]
      obtain ⟨c1, c2, c3⟩ := dind_trace_counts inst (dindPostName inst) 60 []
      simp only [List.append_nil] at c1 c2 c3
      refine ⟨le_of_eq c1, le_of_eq c2, ?_⟩
      refine le_of_eq (c3.trans ?_)
      simp [slept]; omega
    | some k =>
      obtain ⟨hk, h0, hlt⟩ := firstReady_some _ 60 k hf
      obtain ⟨tail, e, ht⟩ := probeDinDPost_play_ready inst resp h k hk h0 hlt
      rw [e]
      obtain ⟨c1, c2, c3⟩ := dind_trace_counts inst (dindPostName inst) k
        (Event.run (dockerInfoCmd inst (dindPostName inst)) :: tail)
      obtain ⟨t1, t2, t3⟩ := dind_tail_counts inst (dindPostName inst) tail (Or.inr ht)
      have hm : k * (2 * second) ≤ 59 * (2 * second) := Nat.mul_le_mul_right _ (by omega)
      refine ⟨?_, ?_, ?_⟩
      · exact le_of_eq_of_le (c1.trans (by rw [t1])) (by omega : k + 1 ≤ 60)
      · exact le_of_eq_of_le (c2.trans (by rw [t2])) (by omega : k + 0 ≤ 60)
      · exact le_of_eq_of_le (c3.trans (by rw [t3])) (by omega : k * (2 * second) + 0 ≤ 120 * second)
  · rw [probeDinDPost_play_nostart inst resp h]
    obtain ⟨c1, c2, c3⟩ := dind_trace_counts inst (dindPostName inst) 0 []
    exact ⟨le_of_eq_of_le c1 (by simp), le_of_eq_of_le c2 (by simp [sleeps]),
      le_of_eq_of_le c3 (by simp [slept])⟩

/-- C10: the probes of phases 10 and 24 poll the inner daemon with
`docker exec <name> docker info` at most 60 times, 2 s apart.  Once the DinD container has
started, the probe of phase 10 reports ready right after the first `docker info` that exits 0
(its trace ends with that invocation: no further poll and no sleep), and the probe of phase 24
goes on to its inner-container commands without a further poll or sleep.  If all 60
invocations exit non-zero, both probes fail with `inner dockerd did not start within 120s`
after exactly 60 invocations and 60 sleeps of 2 s, 120 s in total, and run nothing else.
The bounds hold for every sequence of answers and for every execution of the probes. -/
theorem inner_daemon_poll (inst : Instance) (resp : Nat → RunOut) :
    ((resp 1).exitCode = 0 → ∀ k, k < 60 → (resp (k + 2)).exitCode = 0 →
        (∀ j, j < k → (resp (j + 2)).exitCode ≠ 0) →
      (probeDinD inst).play resp
        = ((true, ""),
            Event.run (dindRmCmd inst (dindName inst)) ::
            Event.run (dindStartCmd inst (dindName inst)) ::
            (pollRounds (dockerInfoCmd inst (dindName inst)) k ++
              [Event.run (dockerInfoCmd inst (dindName inst))])) ∧
      (∃ tail, ((probeDinDPost inst).play resp).2
          = Event.run (dindRmCmd inst (dindPostName inst)) ::
            Event.run (dindStartCmd inst (dindPostName inst)) ::
            (pollRounds (dockerInfoCmd inst (dindPostName inst)) k ++
              Event.run (dockerInfoCmd inst (dindPostName inst)) :: tail) ∧
        (tail = [Event.run (innerHelloCmd inst (dindPostName inst))] ∨
         tail = [Event.run (innerHelloCmd inst (dindPostName inst)),
                 Event.run (innerPingCmd inst (dindPostName inst))] ∨
         tail = [Event.run (innerHelloCmd inst (dindPostName inst)),
                 Event.run (innerPingCmd inst (dindPostName inst)),
                 Event.run (dindRmCmd inst (dindPostName inst))])) ∧
      List.count (Event.run (dockerInfoCmd inst (dindName inst)))
        ((probeDinD inst).play resp).2 = k + 1 ∧
      sleeps ((probeDinD inst).play resp).2 = k ∧
      List.count (Event.run (dockerInfoCmd inst (dindPostName inst)))
        ((probeDinDPost inst).play resp).2 = k + 1 ∧
      sleeps ((probeDinDPost inst).play resp).2 = k) ∧
    ((resp 1).exitCode = 0 → (∀ j, j < 60 → (resp (j + 2)).exitCode ≠ 0) →
      (probeDinD inst).play resp
        = ((false, "inner dockerd did not start within 120s"),
            Event.run (dindRmCmd inst (dindName inst)) ::
            Event.run (dindStartCmd inst (dindName inst)) ::
            pollRounds (dockerInfoCmd inst (dindName inst)) 60) ∧
      (probeDinDPost inst).play resp
        = ((false, "inner dockerd did not start within 120s"),
            Event.run (dindRmCmd inst (dindPostName inst)) ::
            Event.run (dindStartCmd inst (dindPostName inst)) ::
            pollRounds (dockerInfoCmd inst (dindPostName inst)) 60) ∧
      List.count (Event.run (dockerInfoCmd inst (dindName inst)))
        ((probeDinD inst).play resp).2 = 60 ∧
      sleeps ((probeDinD inst).play resp).2 = 60 ∧
      slept ((probeDinD inst).play resp).2 = 120 * second ∧
      List.count (Event.run (dockerInfoCmd inst (dindPostName inst)))
        ((probeDinDPost inst).play resp).2 = 60 ∧
      sleeps ((probeDinDPost inst).play resp).2 = 60 ∧
      slept ((probeDinDPost inst).play resp).2 = 120 * second) ∧
    (List.count (Event.run (dockerInfoCmd inst (dindName inst)))
        ((probeDinD inst).play resp).2 ≤ 60 ∧
      sleeps ((probeDinD inst).play resp).2 ≤ 60 ∧
      slept ((probeDinD inst).play resp).2 ≤ 120 * second ∧
      List.count (Event.run (dockerInfoCmd inst (dindPostName inst)))
        ((probeDinDPost inst).play resp).2 ≤ 60 ∧
      sleeps ((probeDinDPost inst).play resp).2 ≤ 60 ∧
      slept ((probeDinDPost inst).play resp).2 ≤ 120 * second) ∧
    (∀ (E : Env) (w : World), ∃ tr, ((probeDinD inst).exec E w).2.log = w.log ++ tr ∧
      List.count (Event.run (dockerInfoCmd inst (dindName inst))) tr ≤ 60 ∧
      sleeps tr ≤ 60 ∧ slept tr ≤ 120 * second) ∧
    (∀ (E : Env) (w : World), ∃ tr, ((probeDinDPost inst).exec E w).2.log = w.log ++ tr ∧
      List.count (Event.run (dockerInfoCmd inst (dindPostName inst))) tr ≤ 60 ∧
      sleeps tr ≤ 60 ∧ slept tr ≤ 120 * second) := by
  refine ⟨?_, ?_, ?_, ?_, ?_⟩
  · intro h k hk h0 hlt
    have e10 := probeDinD_play_ready inst resp h k hk h0 hlt
    obtain ⟨tail, e24, ht⟩ := probeDinDPost_play_ready inst resp h k hk h0 hlt
    obtain ⟨c1, c2, _⟩ := dind_trace_counts inst (dindName inst) k
      [Event.run (dockerInfoCmd inst (dindName inst))]
    obtain ⟨t1, t2, _⟩ := dind_tail_counts inst (dindName inst) [] (Or.inl rfl)
    obtain ⟨d1, d2, _⟩ := dind_trace_counts inst (dindPostName inst) k
      (Event.run (dockerInfoCmd inst (dindPostName inst)) :: tail)
    obtain ⟨u1, u2, _⟩ := dind_tail_counts inst (dindPostName inst) tail (Or.inr ht)
    refine ⟨e10, ⟨tail, e24, ht⟩, ?_, ?_, ?_, ?_⟩
    · rw [e10]; exact c1.trans (by rw [t1])
    · rw [e10]; exact c2.trans (by rw [t2]; rfl)
    · rw [e24]; exact d1.trans (by rw [u1])
    · rw [e24]; exact d2.trans (by rw [u2]; rfl)
  · intro h hall
    have e10 := probeDinD_play_timeout inst resp h hall
    have e24 : (probeDinDPost inst).play resp
        = ((false, "inner dockerd did not start within 120s"),
            Event.run (dindRmCmd inst (dindPostName inst)) ::
            Event.run (dindStartCmd inst (dindPostName inst)) ::
            pollRounds (dockerInfoCmd inst (dindPostName inst)) 60) :=
      probeDinDPost_play_timeout inst resp h hall
    obtain ⟨c1, c2, c3⟩ := dind_trace_counts inst (dindName inst) 60 []
    obtain ⟨d1, d2, d3⟩ := dind_trace_counts inst (dindPostName inst) 60 []
    simp only [List.append_nil] at c1 c2 c3 d1 d2 d3
    have hs : 60 * (2 * second) + slept [] = 120 * second := by simp [slept]; omega
    refine ⟨e10, e24, ?_, ?_, ?_, ?_, ?_, ?_⟩
    · rw [e10]; exact c1
    · rw [e10]; exact c2
    · rw [e10]; exact c3.trans hs
    · rw [e24]; exact d1
    · rw [e24]; exact d2
    · rw [e24]; exact d3.trans hs
  · obtain ⟨a1, a2, a3⟩ := probeDinD_play_bounds inst resp
    obtain ⟨b1, b2, b3⟩ := probeDinDPost_play_bounds inst resp
    exact ⟨a1, a2, a3, b1, b2, b3⟩
  · intro E w
    obtain ⟨r, _, hl⟩ := exec_play E (probeDinD inst) w
    exact ⟨_, hl, probeDinD_play_bounds inst r⟩
  · intro E w
    obtain ⟨r, _, hl⟩ := exec_play E (probeDinDPost inst) w
    exact ⟨_, hl, probeDinDPost_play_bounds inst r⟩

theorem inner_daemon_poll_witness :
    ((probeDinD instA).play startedReadyAtThird
        = ((true, ""),
            Event.run (dindRmCmd instA (dindName instA)) ::
            Event.run (dindStartCmd instA (dindName instA)) ::
            (pollRounds (dockerInfoCmd instA (dindName instA)) 2 ++
              [Event.run (dockerInfoCmd instA (dindName instA))])) ∧
      List.count (Event.run (dockerInfoCmd instA (dindName instA)))
        ((probeDinD instA).play startedReadyAtThird).2 = 2 + 1 ∧
      sleeps ((probeDinD instA).play startedReadyAtThird).2 = 2 ∧
      List.count (Event.run (dockerInfoCmd instA (dindPostName instA)))
        ((probeDinDPost instA).play startedReadyAtThird).2 = 2 + 1 ∧
      sleeps ((probeDinDPost instA).play startedReadyAtThird).2 = 2) ∧
    ((probeDinD instA).play startedNeverReady
        = ((false, "inner dockerd did not start within 120s"),
            Event.run (dindRmCmd instA (dindName instA)) ::
            Event.run (dindStartCmd instA (dindName instA)) ::
            pollRounds (dockerInfoCmd instA (dindName instA)) 60) ∧
      (probeDinDPost instA).play startedNeverReady
        = ((false, "inner dockerd did not start within 120s"),
            Event.run (dindRmCmd instA (dindPostName instA)) ::
            Event.run (dindStartCmd instA (dindPostName instA)) ::
            pollRounds (dockerInfoCmd instA (dindPostName instA)) 60) ∧
      sleeps ((probeDinD instA).play startedNeverReady).2 = 60 ∧
      slept ((probeDinD instA).play startedNeverReady).2 = 120 * second ∧
      sleeps ((probeDinDPost instA).play startedNeverReady).2 = 60 ∧
      slept ((probeDinDPost instA).play startedNeverReady).2 = 120 * second) :=
  have hr := (inner_daemon_poll instA startedReadyAtThird).1 (by decide) 2 (by decide)
    (by decide) (by decide)
  have ht := (inner_daemon_poll instA startedNeverReady).2.1 (by decide)
    (fun _ _ => by simp [startedNeverReady])
  ⟨⟨hr.1, hr.2.2.1, hr.2.2.2.1, hr.2.2.2.2.1, hr.2.2.2.2.2⟩,
   ⟨ht.1, ht.2.1, ht.2.2.2.1, ht.2.2.2.2.1, ht.2.2.2.2.2.2.1, ht.2.2.2.2.2.2.2⟩⟩

/-! ## The state in which `runTests` returns -/

theorem Runs.len_full {s s' : St} {a n : Nat} (h : Runs s s' a n true) :
    s'.results.length = s.results.length + n := by
  obtain ⟨rs, e, g⟩ := h
  rw [e, List.length_append, g.full rfl]

theorem Runs.len_stop {s s' : St} {a n : Nat} (h : Runs s s' a n false) :
    s.results.length < s'.results.length ∧ s'.results.length ≤ s.results.length + n := by
  obtain ⟨rs, e, g⟩ := h
  obtain ⟨pre, r, hrs, _⟩ := g.stop rfl
  have hle := g.len_le
  have hpos : 0 < rs.length := by rw [hrs]; simp
  rw [e, List.length_append]
  omega

/-- One turn of the gen-env loop: it either records a failure and returns, whatever
instances are left, or records a success and goes on with the instances left. -/
theorem genEnvLoop_cons (E : Env) (inst : Instance) (i : Nat) (s : St) :
    (∃ s', s'.results.length = s.results.length + 1 ∧
      ∀ rest, genEnvLoop E (inst :: rest) i s = (s', false)) ∨
    (∃ s', s'.results.length = s.results.length + 1 ∧
      ∀ rest, genEnvLoop E (inst :: rest) i s = genEnvLoop E rest (i + 1) s') := by
  have key : ∀ rest, genEnvLoop E (inst :: rest) i s
      = if (s.run E ("rm -f " ++ inst.EnvFile ++ " && DOCKYARD_ENV=" ++ inst.EnvFile
            ++ " DOCKYARD_ROOT=" ++ inst.Root ++ " DOCKYARD_DOCKER_PREFIX=" ++ inst.Prefix
            ++ " ~/dockyard.sh gen-env")).1.exitCode ≠ 0
        then (fail E (i + 2) ("gen-env " ++ inst.Label)
            (s.run E ("rm -f " ++ inst.EnvFile ++ " && DOCKYARD_ENV=" ++ inst.EnvFile
              ++ " DOCKYARD_ROOT=" ++ inst.Root ++ " DOCKYARD_DOCKER_PREFIX=" ++ inst.Prefix
              ++ " ~/dockyard.sh gen-env")).1.stderr
            ((s.run E ("rm -f " ++ inst.EnvFile ++ " && DOCKYARD_ENV=" ++ inst.EnvFile
              ++ " DOCKYARD_ROOT=" ++ inst.Root ++ " DOCKYARD_DOCKER_PREFIX=" ++ inst.Prefix
              ++ " ~/dockyard.sh gen-env")).2.world.now - s.world.now)
            (s.run E ("rm -f " ++ inst.EnvFile ++ " && DOCKYARD_ENV=" ++ inst.EnvFile
              ++ " DOCKYARD_ROOT=" ++ inst.Root ++ " DOCKYARD_DOCKER_PREFIX=" ++ inst.Prefix
              ++ " ~/dockyard.sh gen-env")).2, false)
        else genEnvLoop E rest (i + 1)
          (pass E (i + 2)
            ("gen-env " ++ inst.Label ++ " (" ++ inst.Root ++ " / " ++ inst.Prefix ++ ")")
            ((s.run E ("rm -f " ++ inst.EnvFile ++ " && DOCKYARD_ENV=" ++ inst.EnvFile
              ++ " DOCKYARD_ROOT=" ++ inst.Root ++ " DOCKYARD_DOCKER_PREFIX=" ++ inst.Prefix
              ++ " ~/dockyard.sh gen-env")).2.world.now - s.world.now)
            (s.run E ("rm -f " ++ inst.EnvFile ++ " && DOCKYARD_ENV=" ++ inst.EnvFile
              ++ " DOCKYARD_ROOT=" ++ inst.Root ++ " DOCKYARD_DOCKER_PREFIX=" ++ inst.Prefix
              ++ " ~/dockyard.sh gen-env")).2) := fun _ => rfl
  by_cases h : (s.run E ("rm -f " ++ inst.EnvFile ++ " && DOCKYARD_ENV=" ++ inst.EnvFile
      ++ " DOCKYARD_ROOT=" ++ inst.Root ++ " DOCKYARD_DOCKER_PREFIX=" ++ inst.Prefix
      ++ " ~/dockyard.sh gen-env")).1.exitCode ≠ 0
  · refine Or.inl ⟨_, ?_, fun rest => (key rest).trans (if_pos h)⟩
    simp [fail_results, St.run_results]
  · refine Or.inr ⟨_, ?_, fun rest => (key rest).trans (if_neg h)⟩
    simp [pass_results, St.run_results]

theorem genEnvLoop_len (E : Env) (insts : List Instance) (i : Nat) (s : St) :
    s.results.length ≤ (genEnvLoop E insts i s).1.results.length := by
  induction insts generalizing i s with
  | nil => exact le_refl _
  | cons inst rest ih =>
    rcases genEnvLoop_cons E inst i s with ⟨s', hs', h⟩ | ⟨s', hs', h⟩
    · rw [h rest]
      simp only
      omega
    · rw [h rest]
      have := ih (i + 1) s'
      omega

/-- The gen-env loop stops at the instance whose result it recorded last: it ends in the
state of the loop over the instances up to that one. -/
theorem genEnvLoop_take (E : Env) (insts : List Instance) (i : Nat) (s : St) :
    (genEnvLoop E insts i s).1
      = (genEnvLoop E
          (insts.take ((genEnvLoop E insts i s).1.results.length - s.results.length)) i s).1 := by
  induction insts generalizing i s with
  | nil => simp [genEnvLoop]
  | cons inst rest ih =>
    rcases genEnvLoop_cons E inst i s with ⟨s', hs', h⟩ | ⟨s', hs', h⟩
    · rw [h rest]
      simp only
      have e : s'.results.length - s.results.length = 1 := by omega
      rw [e, List.take_succ_cons, List.take_zero, h []]
    · rw [h rest]
      have hlen := genEnvLoop_len E rest (i + 1) s'
      have e : (genEnvLoop E rest (i + 1) s').1.results.length - s.results.length
          = ((genEnvLoop E rest (i + 1) s').1.results.length - s'.results.length) + 1 := by
        omega
      rw [e, List.take_succ_cons, h]
      exact ih (i + 1) s'

theorem phasesUpTo_gen (E : Env) (host user keyPath : String) (s1 : St) (K : Nat)
    (h2 : 2 ≤ K) (h4 : K ≤ 4) :
    phasesUpTo E host user keyPath s1 K
      = (genEnvLoop E (allInstances.take (K - 1)) 0 (phase01 E s1).1).1 := by
  unfold phasesUpTo
  rw [if_neg (by omega), if_pos h4]

/-- The state in which `runPhases` returns is the state in which the phase numbered by the
count of the results it recorded has just recorded its result. -/
theorem runPhases_state (E : Env) (host user keyPath : String) (s1 : St) :
    runPhases E host user keyPath s1
      = phasesUpTo E host user keyPath s1
          ((runPhases E host user keyPath s1).results.length - s1.results.length) := by
  have h1 := phase01_runs E s1
  cases hf1 : (phase01 E s1).2 with
  | false =>
    have hrun : runPhases E host user keyPath s1 = (phase01 E s1).1 := by
      unfold runPhases
      simp only [hf1, Bool.not_false, if_true]
    rw [hf1] at h1
    have hl := h1.len_stop
    rw [hrun, show (phase01 E s1).1.results.length - s1.results.length = 1 by omega]
    unfold phasesUpTo
    rw [if_pos rfl]
  | true =>
    rw [hf1] at h1
    have l1 := h1.len_full
    have h2 := genEnvLoop_runs E allInstances 0 (phase01 E s1).1 (by decide)
    cases hf2 : (genEnvLoop E allInstances 0 (phase01 E s1).1).2 with
    | false =>
      have hrun : runPhases E host user keyPath s1
          = (genEnvLoop E allInstances 0 (phase01 E s1).1).1 := by
        unfold runPhases
        simp only [hf1, hf2, Bool.not_false, Bool.not_true, Bool.false_eq_true, if_true, if_false]
      rw [hf2] at h2
      have l2 := h2.len_stop
      have hlen : allInstances.length = 3 := rfl
      rw [hlen] at l2
      rw [hrun, phasesUpTo_gen E host user keyPath s1 _ (by omega) (by omega)]
      have e : (genEnvLoop E allInstances 0 (phase01 E s1).1).1.results.length
            - s1.results.length - 1
          = (genEnvLoop E allInstances 0 (phase01 E s1).1).1.results.length
            - (phase01 E s1).1.results.length := by omega
      rw [e]
      exact genEnvLoop_take E allInstances 0 (phase01 E s1).1
    | true =>
      rw [hf2] at h2
      have l2 := h2.len_full
      have hlen : allInstances.length = 3 := rfl
      rw [hlen] at l2
      have h5 := phase05_runs E (genEnvLoop E allInstances 0 (phase01 E s1).1).1
      cases hf5 : (phase05 E (genEnvLoop E allInstances 0 (phase01 E s1).1).1).2 with
      | false =>
        have hrun : runPhases E host user keyPath s1
            = (phase05 E (genEnvLoop E allInstances 0 (phase01 E s1).1).1).1 := by
          unfold runPhases
          simp only [hf1, hf2, hf5, Bool.not_false, Bool.not_true, Bool.false_eq_true, if_true,
            if_false]
        rw [hf5] at h5
        have l5 := h5.len_stop
        rw [hrun, show (phase05 E (genEnvLoop E allInstances 0 (phase01 E s1).1).1).1.results.length
          - s1.results.length = 5 by omega]
        unfold phasesUpTo
        rw [if_neg (by decide), if_neg (by decide), if_pos rfl]
      | true =>
        rw [hf5] at h5
        have l5 := h5.len_full
        have l19 := (phases06to19_runs E
          (phase05 E (genEnvLoop E allInstances 0 (phase01 E s1).1).1).1).len_full
        have h20 := phase20_runs E host user keyPath
          (phases06to19 E (phase05 E (genEnvLoop E allInstances 0 (phase01 E s1).1).1).1)
        cases hf20 : (phase20 E host user keyPath
            (phases06to19 E (phase05 E (genEnvLoop E allInstances 0 (phase01 E s1).1).1).1)).2 with
        | false =>
          have hrun : runPhases E host user keyPath s1
              = (phase20 E host user keyPath (phases06to19 E
                  (phase05 E (genEnvLoop E allInstances 0 (phase01 E s1).1).1).1)).1 := by
            unfold runPhases
            simp only [hf1, hf2, hf5, hf20, Bool.not_false, Bool.not_true, Bool.false_eq_true,
              if_true, if_false]
          rw [hf20] at h20
          have l20 := h20.len_stop
          rw [hrun, show (phase20 E host user keyPath (phases06to19 E
            (phase05 E (genEnvLoop E allInstances 0 (phase01 E s1).1).1).1)).1.results.length
            - s1.results.length = 20 by omega]
          unfold phasesUpTo
          rw [if_neg (by decide), if_neg (by decide), if_neg (by decide), if_pos rfl]
        | true =>
          have hrun : runPhases E host user keyPath s1
              = phases21to28 E (phase20 E host user keyPath (phases06to19 E
                  (phase05 E (genEnvLoop E allInstances 0 (phase01 E s1).1).1).1)).1 := by
            unfold runPhases
            simp only [hf1, hf2, hf5, hf20, Bool.not_false, Bool.not_true, Bool.false_eq_true,
              if_true, if_false]
          rw [hf20] at h20
          have l20 := h20.len_full
          have l28 := (phases21to28_runs E (phase20 E host user keyPath (phases06to19 E
            (phase05 E (genEnvLoop E allInstances 0 (phase01 E s1).1).1).1)).1).len_full
          rw [hrun, show (phases21to28 E (phase20 E host user keyPath (phases06to19 E
            (phase05 E (genEnvLoop E allInstances 0 (phase01 E s1).1).1).1)).1).results.length
            - s1.results.length = 28 by omega]
          unfold phasesUpTo
          rw [if_neg (by decide), if_neg (by decide), if_neg (by decide), if_neg (by decide)]

/-- The state in which `runTests` returns is the state in which the phase numbered by the
count of the recorded results has just recorded its result: nothing is run after it. -/
theorem runTests_state (E : Env) (host user keyPath : String) (w : World) (out : List String) :
    runTests E host user keyPath ⟨w, [], out⟩
      = stateAfter E host user keyPath ⟨w, [], out⟩
          (runTests E host user keyPath ⟨w, [], out⟩).results.length := by
  have h := runPhases_state E host user keyPath (preflight E ⟨w, [], out⟩)
  rw [show (preflight E ⟨w, [], out⟩).results.length = 0 from rfl, Nat.sub_zero] at h
  exact h

theorem Seg.num_of_last {count : Nat} {cont : Bool} {rs : List Result} {r : Result}
    (g : Seg 1 count cont rs) (h : rs.getLast? = some r) : r.Num = rs.length := by
  obtain ⟨pre, hrs⟩ := List.getLast?_eq_some_iff.1 h
  have := g.last_num hrs
  rw [hrs, List.length_append, List.length_singleton]
  omega

theorem Seg.last_of_num {count : Nat} {cont : Bool} {rs : List Result} {r : Result}
    (g : Seg 1 count cont rs) (hr : r ∈ rs) (hn : r.Num = rs.length) : rs.getLast? = some r := by
  obtain ⟨i, hi⟩ := List.mem_iff_getElem?.1 hr
  have hlt : i < rs.length := (List.getElem?_eq_some_iff.1 hi).1
  have h1 : (rs.map (fun r => r.Num))[i]? = some r.Num := by
    rw [List.getElem?_map, hi]; rfl
  rw [g.nums, List.getElem?_range' 1 1 hlt] at h1
  simp at h1
  rw [List.getLast?_eq_getElem?, show rs.length - 1 = i by omega]
  exact hi

/-- C2, amended: for every run of `runTests` and every phase number K among 1, 2, 3, 4, 5,
20 and 28, if phase K is recorded as failed then no phase numbered K+1..28 is executed or
recorded: the failed result is the last entry of `results`, no recorded number is above K,
and `runTests` returns in the very state (results, output and world, the log of performed
actions included) in which phase K recorded its result. -/
theorem runTests_fail_fast (E : Env) (host user keyPath : String) (w : World) (out : List String)
    (r : Result) (hr : r ∈ (runTests E host user keyPath ⟨w, [], out⟩).results)
    (hK : earlyReturn r.Num = true ∨ r.Num = 28) (hf : r.Passed = false) :
    (runTests E host user keyPath ⟨w, [], out⟩).results.getLast? = some r ∧
    (∀ r' ∈ (runTests E host user keyPath ⟨w, [], out⟩).results, r'.Num ≤ r.Num) ∧
    runTests E host user keyPath ⟨w, [], out⟩
      = stateAfter E host user keyPath ⟨w, [], out⟩ r.Num := by
  obtain ⟨cont, g⟩ := runTests_seg E host user keyPath w out
  have hlast : (runTests E host user keyPath ⟨w, [], out⟩).results.getLast? = some r := by
    rcases hK with hK | hK
    · exact g.early_fail_last r hr hK hf
    · have hb := g.num_bounds r hr
      have hle := g.len_le
      exact g.last_of_num hr (by omega)
  have hn := g.num_of_last hlast
  refine ⟨hlast, fun r' hr' => ?_, ?_⟩
  · have hb := g.num_bounds r' hr'
    omega
  · have hs := runTests_state E host user keyPath w out
    rw [← hn] at hs
    exact hs

set_option maxRecDepth 100000 in
theorem runTests_fail_fast_witness :
    ((runTests quietEnv "10.0.0.1" "root" "" ⟨World.init, [], []⟩).results.getLast?
        = some ⟨1, "Upload dockyard.sh", false, "read dist/dockyard.sh: no such file", 0⟩ ∧
      (∀ r' ∈ (runTests quietEnv "10.0.0.1" "root" "" ⟨World.init, [], []⟩).results,
        r'.Num ≤ 1) ∧
      runTests quietEnv "10.0.0.1" "root" "" ⟨World.init, [], []⟩
        = stateAfter quietEnv "10.0.0.1" "root" "" ⟨World.init, [], []⟩ 1) ∧
    (stateAfter quietEnv "10.0.0.1" "root" "" ⟨World.init, [], []⟩ 1).world.log
      = cleanupCmds.map Event.run ∧
    ((runTests readableEnv "10.0.0.1" "root" "" ⟨World.init, [], []⟩).results.getLast?
        = some ⟨28, "nested DOCKYARD_ROOT lifecycle", false, "container run: ", 0⟩ ∧
      (∀ r' ∈ (runTests readableEnv "10.0.0.1" "root" "" ⟨World.init, [], []⟩).results,
        r'.Num ≤ 28) ∧
      runTests readableEnv "10.0.0.1" "root" "" ⟨World.init, [], []⟩
        = stateAfter readableEnv "10.0.0.1" "root" "" ⟨World.init, [], []⟩ 28) :=
  ⟨runTests_fail_fast quietEnv "10.0.0.1" "root" "" World.init []
    ⟨1, "Upload dockyard.sh", false, "read dist/dockyard.sh: no such file", 0⟩
    (by decide) (Or.inl (by decide)) (by decide), by decide,
   runTests_fail_fast readableEnv "10.0.0.1" "root" "" World.init []
    ⟨28, "nested DOCKYARD_ROOT lifecycle", false, "container run: ", 0⟩
    (by decide) (Or.inr (by decide)) (by decide)⟩

/-- C16: in every run of `runTests`, a recorded failure of phase 1, 2, 3, 4, 5 or 20 makes
`runTests` return at once: the failed result is the last recorded one and `runTests`
returns in the very state (results, output and world, the log of performed actions
included) in which that phase recorded its result.  After a recorded failure of any other
phase below 28 the next phase is still executed and recorded. -/
theorem runTests_stop_or_continue (E : Env) (host user keyPath : String) (w : World)
    (out : List String) (r : Result)
    (hr : r ∈ (runTests E host user keyPath ⟨w, [], out⟩).results) (hf : r.Passed = false) :
    (earlyReturn r.Num = true ↔ r.Num ∈ [1, 2, 3, 4, 5, 20]) ∧
    (earlyReturn r.Num = true →
      (runTests E host user keyPath ⟨w, [], out⟩).results.getLast? = some r ∧
      runTests E host user keyPath ⟨w, [], out⟩
        = stateAfter E host user keyPath ⟨w, [], out⟩ r.Num) ∧
    (earlyReturn r.Num = false → r.Num < 28 →
      ∃ r' ∈ (runTests E host user keyPath ⟨w, [], out⟩).results, r'.Num = r.Num + 1) := by
  obtain ⟨cont, g⟩ := runTests_seg E host user keyPath w out
  refine ⟨?_, fun hK => ?_, fun hK hlt => g.next_recorded r hr hK hlt⟩
  · simp only [earlyReturn, Bool.or_eq_true, beq_iff_eq, List.mem_cons, List.mem_singleton,
      List.not_mem_nil, or_false, or_assoc]
  · have hlast := g.early_fail_last r hr hK hf
    have hn := g.num_of_last hlast
    have hs := runTests_state E host user keyPath w out
    rw [← hn] at hs
    exact ⟨hlast, hs⟩

set_option maxRecDepth 100000 in
theorem runTests_stop_or_continue_witness :
    ((runTests genEnvFailEnv "10.0.0.1" "root" "" ⟨World.init, [], []⟩).results.getLast?
        = some ⟨2, "gen-env A", false, "boom", 0⟩ ∧
      runTests genEnvFailEnv "10.0.0.1" "root" "" ⟨World.init, [], []⟩
        = stateAfter genEnvFailEnv "10.0.0.1" "root" "" ⟨World.init, [], []⟩ 2) ∧
    (stateAfter genEnvFailEnv "10.0.0.1" "root" "" ⟨World.init, [], []⟩ 2).world.log
      = cleanupCmds.map Event.run ++
        [Event.upload "cat > ~/dockyard.sh && chmod +x ~/dockyard.sh" "#!/bin/sh",
         Event.run ("rm -f ~/dy1.env && DOCKYARD_ENV=~/dy1.env DOCKYARD_ROOT=/dy1 "
           ++ "DOCKYARD_DOCKER_PREFIX=dy1_ ~/dockyard.sh gen-env")] ∧
    ∃ r' ∈ (runTests readableEnv "10.0.0.1" "root" "" ⟨World.init, [], []⟩).results,
      r'.Num = 7 + 1 :=
  ⟨(runTests_stop_or_continue genEnvFailEnv "10.0.0.1" "root" "" World.init []
      ⟨2, "gen-env A", false, "boom", 0⟩ (by decide) rfl).2.1 (by decide),
   by decide,
   (runTests_stop_or_continue readableEnv "10.0.0.1" "root" "" World.init []
      ⟨7, "all instances: container run", false, "[A]  | [B]  | [C] ", 0⟩
      (by decide) rfl).2.2 (by decide) (by decide)⟩

end Dockyard
